import Mathlib

/-! # SuiteSparse:GraphBLAS: `GB_AxB_saxpy3` and its helpers

A shallow embedding of

* `Source/GB_AxB_saxpy3.c`: `GB_hash_table_size`, `GB_create_coarse_task`, the
  mask policy, the counting pass and the task-creation pass of phase 0, the
  workspace allocation, and the status, output handle and `mask_applied` along
  every return of `GB_AxB_saxpy3`;
* `Source/GB_convert_to_full.c`, `Source/GB_ix_resize.c`;
* `Source/GB_AxB_semiring_builtin.c`, `Source/GB_iso_AxB.c`;
* `Source/Generated/GB_AxB_defs__lor_ge_uint16.h`;
* `Source/Template/GB_dense_subassign_25_template.c`.

Conventions of the embedding:

* `int64_t` and `int` values are `Int`; no wrap-around is modelled (flop counts
  and vector lengths are far below `2^48`, where the 64-bit shifts of the
  source are exact).
* `double` values are the rationals that IEEE 754 binary64 represents: every
  conversion to `double`, product and quotient of the task partitioner
  (`target_task_size`, `target_fine_size`, the tests against `GB_COSTLY` and
  `team_size`) is rounded to the nearest binary64 value, ties to even, by
  `to_double`.  The exponent range is not bounded (no overflow to infinity, no
  subnormal numbers).  The two thresholds of the mask policy compare integers
  with `Mwork * 0.01` and `Mwork * 0.10` exactly.
* C arrays are total functions `Int → Int`; a `for` loop over `a ≤ k < b` is a
  recursion on the remaining number of iterations `(b - a).toNat`.
* Functions, macros and types that the sources use but do not define are
  parameters, each named after what it stands for.
-/

/-! ## Descriptor values -/

/-- Modelled from the spec: the enum `GrB_Desc_Value` is declared in
`GraphBLAS.h`, which is not among the sources.  The method-selection hint is
`Default`, `force-Gustavson` or `force-Hash`; `GxB_AxB_SAXPY` is the fourth
value the source of `GB_AxB_saxpy3` names. -/
inductive GrB_Desc_Value where
  | GxB_DEFAULT
  | GxB_AxB_GUSTAVSON
  | GxB_AxB_HASH
  | GxB_AxB_SAXPY
deriving DecidableEq

open GrB_Desc_Value

/-! ## `GB_hash_table_size` -/

/-- Worker of `floor_log2`: integer part of the base-2 logarithm with fuel. -/
def floor_log2_aux : Nat → Nat → Nat
  | 0, _ => 0
  | fuel + 1, n => if n < 2 then 0 else floor_log2_aux fuel (n / 2) + 1

/-- The value of `floor (log2 ((double) flmax))` for `flmax ≥ 1`
(`GB_AxB_saxpy3.c`, lines 153-154). -/
def floor_log2 (n : Nat) : Nat := floor_log2_aux n n

/-- The local `hash_size` of `GB_hash_table_size` before the method is selected:
`((int64_t) 2) << ((int64_t) floor (hlog) + 1)`. -/
def GB_hash_size (flmax : Int) : Int :=
  ((2 <<< (floor_log2 flmax.toNat + 1) : Nat) : Int)

/-- The local flag `use_Gustavson` of `GB_hash_table_size` (lines 157-172).
`cvlen/16` is C integer division, which truncates. -/
def GB_use_Gustavson (flmax cvlen : Int) (AxB_method : GrB_Desc_Value) : Bool :=
  if AxB_method = GxB_AxB_GUSTAVSON then
    true
  else if AxB_method = GxB_AxB_HASH then
    decide (GB_hash_size flmax ≥ cvlen)
  else
    decide (GB_hash_size flmax ≥ Int.tdiv cvlen 16)

/-- `GB_hash_table_size` (`GB_AxB_saxpy3.c`, lines 145-179). -/
def GB_hash_table_size (flmax cvlen : Int) (AxB_method : GrB_Desc_Value) : Int :=
  if GB_use_Gustavson flmax cvlen AxB_method then cvlen else GB_hash_size flmax

/-! ## Task descriptors -/

/-- Modelled from the spec: the struct is declared in `GB_AxB_saxpy3.h`, which is
not among the sources.  A task descriptor holds its range (`start`, `end`), the
target column (`vector`, `-1` for a coarse task), the capacity of its workspace
(`hsize`), its estimated flop count and its team linkage (`master`,
`team_size`).  These are the fields task creation assigns; the workspace
pointers `H` and `Hx` stay `NULL` until the allocation phase and are not part
of the record. -/
structure GB_saxpy3task_struct where
  start : Int
  end_ : Int
  vector : Int
  hsize : Int
  my_cjnz : Int
  flops : Int
  master : Int
  team_size : Int
deriving DecidableEq

/-- A slot of `TaskList` as `GB_CALLOC` leaves it. -/
def GB_calloc_task : GB_saxpy3task_struct :=
  { start := 0, end_ := 0, vector := 0, hsize := 0, my_cjnz := 0, flops := 0,
    master := 0, team_size := 0 }

/-- The assignment of all fields of `TaskList [taskid]`. -/
def setTask (TaskList : Int → GB_saxpy3task_struct) (taskid : Int)
    (t : GB_saxpy3task_struct) : Int → GB_saxpy3task_struct :=
  fun i => if i = taskid then t else TaskList i

/-- The task list under construction with its two cursors: `nf` is the next
fine-task id and `nc` the next coarse-task id (lines 709-710). -/
structure TaskState where
  TaskList : Int → GB_saxpy3task_struct
  nf : Int
  nc : Int

/-- The counters of the counting pass (lines 563-565). -/
structure TaskCount where
  nfine : Int
  ncoarse : Int
  max_bjnz : Int

/-! ## Double-precision arithmetic

The task partitioner computes its thresholds in `double`.  A `double` is
modelled by the rational it represents, and every operation rounds its exact
result with `to_double`. -/

/-- The rational `2^e` for an integer exponent `e`. -/
def two_pow (e : Int) : ℚ :=
  if 0 ≤ e then ((2 ^ e.toNat : Nat) : ℚ) else 1 / ((2 ^ (-e).toNat : Nat) : ℚ)

/-- The binary exponent of a rational `q ≠ 0`: the `e` with
`2^e ≤ |q| < 2^(e+1)`.  With `a` and `b` the integer logarithms of the
numerator and the denominator, `e` is `a - b` or `a - b - 1`. -/
def binade (q : ℚ) : Int :=
  let e0 : Int := (floor_log2 q.num.natAbs : Int) - (floor_log2 q.den : Int)
  if two_pow e0 ≤ |q| then e0 else e0 - 1

/-- The integer nearest to `m`; a tie goes to the even one. -/
def round_half_even (m : ℚ) : Int :=
  let f := ⌊m⌋
  if m - f < 1 / 2 then f
  else if 1 / 2 < m - f then f + 1
  else if f % 2 = 0 then f else f + 1

/-- The binary64 value nearest to `q` (53 significant bits, round to nearest,
ties to even): the conversion `(double) q` and the rounding every `double`
operation applies to its exact result. -/
def to_double (q : ℚ) : ℚ :=
  if q = 0 then 0
  else
    let u := two_pow (binade q - 52)
    (round_half_even (q / u) : ℚ) * u

/-- The product `x * y` of two `double` values. -/
def double_mul (x y : ℚ) : ℚ := to_double (x * y)

/-- The quotient `x / y` of two `double` values. -/
def double_div (x y : ℚ) : ℚ := to_double (x / y)

/-! ## Control parameters (lines 92-96) -/

def GB_NTASKS_PER_THREAD : Int := 2
/-- `#define GB_COSTLY 1.2`: the `double` nearest to `1.2`. -/
def GB_COSTLY : ℚ := to_double (12 / 10)
def GB_FINE_WORK : ℚ := 2
def GB_MWORK_ALPHA : ℚ := 1 / 100
def GB_MWORK_BETA : ℚ := 10 / 100

/-! ## `GB_create_coarse_task` -/

/-- The max flop count of the vectors of a coarse task, as the sequential loop
of lines 231-236 computes it (`n` iterations remain, `kk` is the loop variable).
The parallel reduction of lines 207-227 is asserted by the source to give the
same value (`ASSERT (flmax == flmax2)`). -/
def coarse_flmax (Bflops : Int → Int) : Nat → Int → Int → Int
  | 0, _, flmax => flmax
  | n + 1, kk, flmax =>
      coarse_flmax Bflops n (kk + 1) (max flmax (Bflops (kk + 1) - Bflops kk))

/-- The record `GB_create_coarse_task` stores in `TaskList [taskid]`
(lines 240-249). -/
def coarse_task (kfirst klast taskid : Int) (Bflops : Int → Int) (cvlen : Int)
    (AxB_method : GrB_Desc_Value) : GB_saxpy3task_struct :=
  let nk := klast - kfirst + 1
  let flmax := coarse_flmax Bflops nk.toNat kfirst 1
  { start := kfirst
    end_ := klast
    vector := -1
    hsize := GB_hash_table_size flmax cvlen AxB_method
    my_cjnz := 0
    flops := Bflops (klast + 1) - Bflops kfirst
    master := taskid
    team_size := 1 }

/-- `GB_create_coarse_task` (lines 188-250): the effect on `TaskList`. -/
def GB_create_coarse_task (kfirst klast : Int) (TaskList : Int → GB_saxpy3task_struct)
    (taskid : Int) (Bflops : Int → Int) (cvlen : Int) (AxB_method : GrB_Desc_Value) :
    Int → GB_saxpy3task_struct :=
  setTask TaskList taskid (coarse_task kfirst klast taskid Bflops cvlen AxB_method)

/-! ## The values task creation reads -/

/-- What the counting and creation passes of `GB_AxB_saxpy3` read.  `GB_pslice`
and the macro `GBP` are not among the sources and are parameters: `GB_pslice W n
nt` is the slice array the call `GB_pslice (&S, W, n, nt)` leaves in `S`, and
`GBP_Bp kk` is the value of `GBP (Bp, kk, bvlen)`.  `Bflops2 kk` is the array
`Bflops2` after `GB_cumsum` for vector `kk` (lines 758-778). -/
structure Saxpy3Env where
  Bflops : Int → Int
  Bp : Option (Int → Int)
  GBP_Bp : Int → Int
  bvlen : Int
  bnvec : Int
  bnz : Int
  cvlen : Int
  AxB_method : GrB_Desc_Value
  ntasks_initial : Int
  target_task_size : ℚ
  target_fine_size : ℚ
  GB_pslice : (Int → Int) → Int → Int → Int → Int
  Bflops2 : Int → Int → Int

namespace Saxpy3Env

/-- The array `Coarse_initial` after line 576. -/
def Coarse_initial (E : Saxpy3Env) : Int → Int :=
  E.GB_pslice E.Bflops E.bnvec E.ntasks_initial

/-- `jflops = Bflops [kk+1] - Bflops [kk]` (lines 612, 736). -/
def jflops (E : Saxpy3Env) (kk : Int) : Int := E.Bflops (kk + 1) - E.Bflops kk

/-- `bjnz = (Bp == NULL) ? bvlen : (Bp [kk+1] - Bp [kk])` (lines 614, 738). -/
def bjnz (E : Saxpy3Env) (kk : Int) : Int :=
  match E.Bp with
  | none => E.bvlen
  | some Bp => Bp (kk + 1) - Bp kk

/-- The test of lines 616 and 740:
`jflops > GB_COSTLY * target_task_size && bjnz > 1`, where `jflops` is the
`double` of lines 612 and 736 and the product is a `double` product. -/
def costly (E : Saxpy3Env) (kk : Int) : Bool :=
  decide (to_double (E.jflops kk : ℚ) > double_mul GB_COSTLY E.target_task_size) &&
    decide (E.bjnz kk > 1)

/-- The test of lines 600 and 725 on an initial coarse task `kfirst..klast-1`:
`task_flops > 2 * GB_COSTLY * target_task_size`.  C evaluates the right-hand
side as `(2 * GB_COSTLY) * target_task_size` in `double` and converts the
`int64_t` `task_flops` to `double` for the comparison. -/
def task_costly (E : Saxpy3Env) (kfirst klast : Int) : Bool :=
  decide (to_double ((E.Bflops klast - E.Bflops kfirst : Int) : ℚ) >
    double_mul (double_mul 2 GB_COSTLY) E.target_task_size)

/-- `int team_size = ceil (jflops / target_fine_size)` (lines 632, 781): the
ceiling of the `double` quotient. -/
def team_size (E : Saxpy3Env) (kk : Int) : Int :=
  ⌈double_div (to_double (E.jflops kk : ℚ)) E.target_fine_size⌉

/-- The array `Fine_slice` after line 783, for vector `kk`. -/
def Fine_slice (E : Saxpy3Env) (kk : Int) : Int → Int :=
  E.GB_pslice (E.Bflops2 kk) (E.bjnz kk) (E.team_size kk)

end Saxpy3Env

/-! ## The counting pass (lines 563-675) -/

/-- One iteration of the loop over `kk` of lines 608-635; the state is
`kcoarse_start` with the counters. -/
def count_kk (E : Saxpy3Env) (kk : Int) (st : Int × TaskCount) : Int × TaskCount :=
  if E.costly kk then
    let c := st.2
    let ncoarse := if st.1 < kk then c.ncoarse + 1 else c.ncoarse
    (kk + 1,
      { nfine := c.nfine + E.team_size kk
        ncoarse := ncoarse
        max_bjnz := max c.max_bjnz (E.bjnz kk) })
  else st

/-- The loop `for (kk = kfirst ; kk < klast ; kk++)` of lines 608-635, with `n`
iterations remaining. -/
def count_inner (E : Saxpy3Env) : Nat → Int → Int × TaskCount → Int × TaskCount
  | 0, _, st => st
  | n + 1, kk, st => count_inner E n (kk + 1) (count_kk E kk st)

/-- The body of the loop over the initial coarse tasks, lines 589-650. -/
def count_task (E : Saxpy3Env) (taskid : Int) (c : TaskCount) : TaskCount :=
  let kfirst := E.Coarse_initial taskid
  let klast := E.Coarse_initial (taskid + 1)
  let task_ncols := klast - kfirst
  if task_ncols = 0 then c
  else if E.task_costly kfirst klast then
    let st := count_inner E (klast - kfirst).toNat kfirst (kfirst, c)
    if st.1 < klast then { st.2 with ncoarse := st.2.ncoarse + 1 } else st.2
  else { c with ncoarse := c.ncoarse + 1 }

/-- The loop `for (taskid = 0 ; taskid < ntasks_initial ; taskid++)` of lines
587-651, with `n` iterations remaining. -/
def count_outer (E : Saxpy3Env) : Nat → Int → TaskCount → TaskCount
  | 0, _, c => c
  | n + 1, taskid, c => count_outer E n (taskid + 1) (count_task E taskid c)

/-- The counting pass: `nfine`, `ncoarse` and `max_bjnz` at line 675. -/
def count_tasks (E : Saxpy3Env) : TaskCount :=
  if E.ntasks_initial > 1 then
    count_outer E E.ntasks_initial.toNat 0 { nfine := 0, ncoarse := 0, max_bjnz := 0 }
  else if E.bnvec = 1 then
    { nfine := 1, ncoarse := 0, max_bjnz := 0 }
  else
    { nfine := 0, ncoarse := 1, max_bjnz := 0 }

/-! ## The creation pass (lines 702-847) -/

/-- The record stored for member `fid` of the fine team of vector `kk` whose
first member has id `master` (lines 793-804). -/
def fine_task (E : Saxpy3Env) (kk master fid : Int) : GB_saxpy3task_struct :=
  let pB_start := E.GBP_Bp kk
  let pstart := E.Fine_slice kk fid
  let pend := E.Fine_slice kk (fid + 1)
  { start := pB_start + pstart
    end_ := pB_start + pend - 1
    vector := kk
    hsize := GB_hash_table_size (E.jflops kk) E.cvlen E.AxB_method
    my_cjnz := 0
    flops := E.Bflops2 kk pend - E.Bflops2 kk pstart
    master := master
    team_size := E.team_size kk }

/-- The loop `for (fid = 0 ; fid < team_size ; fid++)` of lines 791-806, with
`n` iterations remaining. -/
def fine_team_loop (E : Saxpy3Env) (kk master : Int) : Nat → Int → TaskState → TaskState
  | 0, _, s => s
  | n + 1, fid, s =>
      fine_team_loop E kk master n (fid + 1)
        { TaskList := setTask s.TaskList s.nf (fine_task E kk master fid)
          nf := s.nf + 1
          nc := s.nc }

/-- One iteration of the loop over `kk` of lines 733-808; the state is
`kcoarse_start` with the task list and its cursors. -/
def create_kk (E : Saxpy3Env) (kk : Int) (st : Int × TaskState) : Int × TaskState :=
  if E.costly kk then
    let s := st.2
    let s1 : TaskState :=
      if st.1 < kk then
        { TaskList := GB_create_coarse_task st.1 (kk - 1) s.TaskList s.nc E.Bflops E.cvlen
            E.AxB_method
          nf := s.nf
          nc := s.nc + 1 }
      else s
    (kk + 1, fine_team_loop E kk s1.nf (E.team_size kk).toNat 0 s1)
  else st

/-- The loop `for (kk = kfirst ; kk < klast ; kk++)` of lines 733-808, with `n`
iterations remaining. -/
def create_inner (E : Saxpy3Env) : Nat → Int → Int × TaskState → Int × TaskState
  | 0, _, st => st
  | n + 1, kk, st => create_inner E n (kk + 1) (create_kk E kk st)

/-- The body of the loop over the initial coarse tasks, lines 714-825. -/
def create_task (E : Saxpy3Env) (taskid : Int) (s : TaskState) : TaskState :=
  let kfirst := E.Coarse_initial taskid
  let klast := E.Coarse_initial (taskid + 1)
  let task_ncols := klast - kfirst
  if task_ncols = 0 then s
  else if E.task_costly kfirst klast then
    let st := create_inner E (klast - kfirst).toNat kfirst (kfirst, s)
    if st.1 < klast then
      { TaskList := GB_create_coarse_task st.1 (klast - 1) st.2.TaskList st.2.nc E.Bflops
          E.cvlen E.AxB_method
        nf := st.2.nf
        nc := st.2.nc + 1 }
    else st.2
  else
    { TaskList := GB_create_coarse_task kfirst (klast - 1) s.TaskList s.nc E.Bflops E.cvlen
        E.AxB_method
      nf := s.nf
      nc := s.nc + 1 }

/-- The loop `for (taskid = 0 ; taskid < ntasks_initial ; taskid++)` of lines
712-826, with `n` iterations remaining. -/
def create_outer (E : Saxpy3Env) : Nat → Int → TaskState → TaskState
  | 0, _, s => s
  | n + 1, taskid, s => create_outer E n (taskid + 1) (create_task E taskid s)

/-- The state before the creation loop: `TaskList` from `GB_CALLOC`, `nf = 0`
and `nc = nfine`. -/
def create_init (nfine : Int) : TaskState :=
  { TaskList := fun _ => GB_calloc_task, nf := 0, nc := nfine }

/-- The branch `ntasks_initial > 1` of the creation pass (lines 709-826). -/
def create_multi (E : Saxpy3Env) (nfine : Int) : TaskState :=
  create_outer E E.ntasks_initial.toNat 0 (create_init nfine)

/-- The branch of lines 836-846: one coarse task, converted into a fine task
when `bnvec == 1`. -/
def create_single (E : Saxpy3Env) : Int → GB_saxpy3task_struct :=
  let TaskList := GB_create_coarse_task 0 (E.bnvec - 1) (fun _ => GB_calloc_task) 0 E.Bflops
    E.cvlen E.AxB_method
  if E.bnvec = 1 then
    setTask TaskList 0 { TaskList 0 with start := 0, end_ := E.bnz - 1, vector := 0 }
  else TaskList

/-- The creation pass: `TaskList` at line 847, given the `nfine` of the
counting pass. -/
def create_tasks (E : Saxpy3Env) (nfine : Int) : Int → GB_saxpy3task_struct :=
  if E.ntasks_initial > 1 then (create_multi E nfine).TaskList else create_single E

/-! ## The mask policy and phase 0 of `GB_AxB_saxpy3` (lines 454-847) -/

/-- The values phase 0 of `GB_AxB_saxpy3` starts from.  `GB_AxB_saxpy3_flopcount`,
`GB_is_dense`, `GB_nthreads`, `GB_pslice`, `GB_lookup`, `GB_cumsum` and `GBP` are
not among the sources; their results are parameters:

* `Bflops`, `Mwork`: the results of the first `GB_AxB_saxpy3_flopcount` (with the
  mask), `Bflops_nomask`, `Mwork_nomask`: those of the second call (line 536);
* `M_is_dense`: the value of `GB_is_dense (M)`;
* `GB_nthreads work chunk nthreads_max`, `GB_pslice W n nt`: the functions;
* `Bflops2 kk`: the array `Bflops2` after `GB_cumsum` for vector `kk`;
* `GBP_Bp kk`: the value of `GBP (Bp, kk, bvlen)`. -/
structure Saxpy3Input where
  M_present : Bool
  Mask_comp_input : Bool
  M_is_dense : Bool
  AxB_method : GrB_Desc_Value
  Bflops : Int → Int
  Mwork : Int
  Bflops_nomask : Int → Int
  Mwork_nomask : Int
  cvlen : Int
  cvdim : Int
  bnvec : Int
  bvlen : Int
  bnz : Int
  Bp : Option (Int → Int)
  GBP_Bp : Int → Int
  chunk : ℚ
  nthreads_max : Int
  GB_nthreads : ℚ → ℚ → Int → Int
  GB_pslice : (Int → Int) → Int → Int → Int → Int
  Bflops2 : Int → Int → Int

/-- The variables the mask policy of lines 473-545 sets. -/
structure MaskPolicy where
  M_present : Bool
  Mask_comp : Bool
  M_dense_in_place : Bool
  AxB_method : GrB_Desc_Value
  Mwork : Int
  Bflops : Int → Int
  total_flops : Int

/-- The mask policy, lines 458-545: `total_flops`, `axbflops`, then the dense
branch (in place, or Gustavson with the work of the mask added to `Bflops`),
the discard branch, or no change. -/
def GB_AxB_saxpy3_mask_policy (I : Saxpy3Input) : MaskPolicy :=
  let total_flops := I.Bflops I.bnvec
  let axbflops : ℚ := ((total_flops - I.Mwork : Int) : ℚ)
  if I.M_is_dense ∧ (I.AxB_method = GxB_DEFAULT ∨ I.AxB_method = GxB_AxB_SAXPY) then
    let Mwork := I.cvlen * I.cvdim
    if axbflops < (Mwork : ℚ) * GB_MWORK_BETA then
      { M_present := I.M_present
        Mask_comp := I.Mask_comp_input
        M_dense_in_place := true
        AxB_method := GxB_AxB_HASH
        Mwork := Mwork
        Bflops := I.Bflops
        total_flops := total_flops }
    else
      let Bflops : Int → Int := fun kk =>
        if 0 ≤ kk ∧ kk ≤ I.bnvec then I.Bflops kk + I.cvlen * (kk + 1) else I.Bflops kk
      { M_present := I.M_present
        Mask_comp := I.Mask_comp_input
        M_dense_in_place := false
        AxB_method := GxB_AxB_GUSTAVSON
        Mwork := Mwork
        Bflops := Bflops
        total_flops := Bflops I.bnvec }
  else if I.M_present ∧ axbflops < (I.Mwork : ℚ) * GB_MWORK_ALPHA then
    { M_present := false
      Mask_comp := false
      M_dense_in_place := false
      AxB_method := I.AxB_method
      Mwork := I.Mwork_nomask
      Bflops := I.Bflops_nomask
      total_flops := I.Bflops_nomask I.bnvec }
  else
    { M_present := I.M_present
      Mask_comp := I.Mask_comp_input
      M_dense_in_place := false
      AxB_method := I.AxB_method
      Mwork := I.Mwork
      Bflops := I.Bflops
      total_flops := total_flops }

namespace Saxpy3Input

/-- `nthreads` of line 551. -/
def nthreads (I : Saxpy3Input) : Int :=
  I.GB_nthreads (to_double ((GB_AxB_saxpy3_mask_policy I).total_flops : ℚ)) I.chunk
    I.nthreads_max

/-- `ntasks_initial` of line 552. -/
def ntasks_initial (I : Saxpy3Input) : Int :=
  if I.nthreads = 1 then 1 else GB_NTASKS_PER_THREAD * I.nthreads

/-- `target_task_size` of lines 554-555: the `double` quotient of
`(double) total_flops` by `ntasks_initial`; `GB_IMAX` is the maximum. -/
def target_task_size (I : Saxpy3Input) : ℚ :=
  max (double_div (to_double ((GB_AxB_saxpy3_mask_policy I).total_flops : ℚ))
    (to_double (I.ntasks_initial : ℚ))) I.chunk

/-- `target_fine_size` of lines 556-557. -/
def target_fine_size (I : Saxpy3Input) : ℚ :=
  max (double_div I.target_task_size GB_FINE_WORK) I.chunk

/-- What the counting and creation passes read, after the mask policy. -/
def env (I : Saxpy3Input) : Saxpy3Env :=
  { Bflops := (GB_AxB_saxpy3_mask_policy I).Bflops
    Bp := I.Bp
    GBP_Bp := I.GBP_Bp
    bvlen := I.bvlen
    bnvec := I.bnvec
    bnz := I.bnz
    cvlen := I.cvlen
    AxB_method := (GB_AxB_saxpy3_mask_policy I).AxB_method
    ntasks_initial := I.ntasks_initial
    target_task_size := I.target_task_size
    target_fine_size := I.target_fine_size
    GB_pslice := I.GB_pslice
    Bflops2 := I.Bflops2 }

end Saxpy3Input

/-- The variables of `GB_AxB_saxpy3` at line 847, when no allocation fails. -/
structure Saxpy3Tasks where
  M_present : Bool
  Mask_comp : Bool
  M_dense_in_place : Bool
  AxB_method : GrB_Desc_Value
  nfine : Int
  ncoarse : Int
  ntasks : Int
  max_bjnz : Int
  TaskList : Int → GB_saxpy3task_struct

/-- Phase 0 of `GB_AxB_saxpy3`, lines 454-847: mask policy, counting pass,
`ntasks = ncoarse + nfine`, creation pass. -/
def GB_AxB_saxpy3_phase0 (I : Saxpy3Input) : Saxpy3Tasks :=
  let P := GB_AxB_saxpy3_mask_policy I
  let c := count_tasks I.env
  { M_present := P.M_present
    Mask_comp := P.Mask_comp
    M_dense_in_place := P.M_dense_in_place
    AxB_method := P.AxB_method
    nfine := c.nfine
    ncoarse := c.ncoarse
    ntasks := c.ncoarse + c.nfine
    max_bjnz := c.max_bjnz
    TaskList := create_tasks I.env c.nfine }


/-! ## Specification predicates -/

/-- The contract of `GB_pslice` for a slice array `S` of `nt` slices of `0..n`:
`S [0] = 0`, `S [nt] = n`, and `S` is non-decreasing. -/
def pslice_ok (S : Int → Int) (n nt : Int) : Prop :=
  S 0 = 0 ∧ S nt = n ∧ ∀ t, 0 ≤ t → t < nt → S t ≤ S (t + 1)

namespace Saxpy3Env

/-- Vector `k` lies in an initial coarse task that the creation pass splits
(the test of line 725 holds for that task). -/
def split_task (E : Saxpy3Env) (k : Int) : Prop :=
  ∃ t, 0 ≤ t ∧ t < E.ntasks_initial ∧ E.Coarse_initial t ≤ k ∧ k < E.Coarse_initial (t + 1) ∧
    E.task_costly (E.Coarse_initial t) (E.Coarse_initial (t + 1)) = true

/-- Vector `k` passes both tests of the creation pass (lines 725 and 740). -/
def pulled_out (E : Saxpy3Env) (k : Int) : Prop :=
  E.split_task k ∧ E.costly k = true

end Saxpy3Env

/-- Slots `m .. m + team_size - 1` of `T` hold the complete fine team of vector
`v`, as lines 791-806 write it. -/
def fine_team_at (E : Saxpy3Env) (T : Int → GB_saxpy3task_struct) (v m : Int) : Prop :=
  ∀ j, m ≤ j → j < m + E.team_size v → T j = fine_task E v m (j - m)

/-- The loop invariant of the creation pass: slots `0 .. nf-1` hold complete fine
teams, slots `N .. nc-1` hold coarse tasks, and together they cover the vectors
`0 .. b-1` once each. -/
structure TaskInv (E : Saxpy3Env) (N : Int) (s : TaskState) (b : Int) : Prop where
  b_nonneg : 0 ≤ b
  nf_nonneg : 0 ≤ s.nf
  nc_ge : N ≤ s.nc
  fine : ∀ i, 0 ≤ i → i < s.nf →
    fine_team_at E s.TaskList (s.TaskList i).vector (s.TaskList i).master ∧
    0 ≤ (s.TaskList i).master ∧ (s.TaskList i).master ≤ i ∧
    i < (s.TaskList i).master + E.team_size (s.TaskList i).vector ∧
    (s.TaskList i).master + E.team_size (s.TaskList i).vector ≤ s.nf ∧
    0 ≤ (s.TaskList i).vector ∧ (s.TaskList i).vector < b ∧
    E.pulled_out (s.TaskList i).vector
  coarse : ∀ i, N ≤ i → i < s.nc →
    s.TaskList i = coarse_task (s.TaskList i).start (s.TaskList i).end_ i E.Bflops E.cvlen
      E.AxB_method ∧
    0 ≤ (s.TaskList i).start ∧ (s.TaskList i).start ≤ (s.TaskList i).end_ ∧
    (s.TaskList i).end_ < b ∧
    ∀ k, (s.TaskList i).start ≤ k → k ≤ (s.TaskList i).end_ → ¬ E.pulled_out k
  cover : ∀ k, 0 ≤ k → k < b →
    (∃ i, 0 ≤ i ∧ i < s.nf ∧ (s.TaskList i).vector = k) ∨
    (∃ i, N ≤ i ∧ i < s.nc ∧ (s.TaskList i).start ≤ k ∧ k ≤ (s.TaskList i).end_)
  fine_team : ∀ i j, 0 ≤ i → i < s.nf → 0 ≤ j → j < s.nf →
    (s.TaskList i).vector = (s.TaskList j).vector → (s.TaskList i).master = (s.TaskList j).master
  coarse_disj : ∀ i j, N ≤ i → i < s.nc → N ≤ j → j < s.nc → i ≠ j →
    (s.TaskList i).end_ < (s.TaskList j).start ∨ (s.TaskList j).end_ < (s.TaskList i).start

/-- The flop count the creation pass hands to `GB_hash_table_size` for task `t`:
`jflops` of its vector for a member of a fine team (line 787), `flmax` of its
vectors for a coarse task (line 244), and `flmax` of all vectors for the single
task of lines 837-838. -/
def task_flmax (E : Saxpy3Env) (TaskList : Int → GB_saxpy3task_struct) (nfine t : Int) : Int :=
  if E.ntasks_initial > 1 then
    if t < nfine then E.jflops (TaskList t).vector
    else coarse_flmax E.Bflops ((TaskList t).end_ - (TaskList t).start + 1).toNat
      (TaskList t).start 1
  else coarse_flmax E.Bflops (E.bnvec - 1 - 0 + 1).toNat 0 1

/-! ## Concrete inputs -/

/-- An array given by its first entries (zero elsewhere). -/
def array_of (l : List Int) : Int → Int := fun i => l.getD i.toNat 0

/-- A slicing function that satisfies the contract of `GB_pslice`: boundary `i`
is `min n i`, the last boundary is `n`. -/
def unit_pslice : (Int → Int) → Int → Int → Int → Int :=
  fun _ n nt i => if i ≤ 0 then 0 else if i ≥ nt then n else min n i

/-- Two threads, three vectors with flop counts 1, 1 and 10; the third vector
has 3 entries and is split into a fine team. -/
def input_fine_team : Saxpy3Input :=
  { M_present := false, Mask_comp_input := false, M_is_dense := false
    AxB_method := GxB_DEFAULT
    Bflops := array_of [0, 1, 2, 12], Mwork := 0
    Bflops_nomask := array_of [0, 1, 2, 12], Mwork_nomask := 0
    cvlen := 1000, cvdim := 3, bnvec := 3, bvlen := 1000, bnz := 5
    Bp := some (array_of [0, 1, 2, 5]), GBP_Bp := array_of [0, 1, 2, 5]
    chunk := 1, nthreads_max := 2
    GB_nthreads := fun _ _ _ => 2
    GB_pslice := unit_pslice
    Bflops2 := fun _ => array_of [0, 3, 6, 10] }

/-- Two threads, two vectors with 2 flops and 2 entries each: every vector
exceeds `GB_COSTLY * target_task_size`, no initial task exceeds twice that. -/
def input_folded_column : Saxpy3Input :=
  { M_present := false, Mask_comp_input := false, M_is_dense := false
    AxB_method := GxB_DEFAULT
    Bflops := array_of [0, 2, 4], Mwork := 0
    Bflops_nomask := array_of [0, 2, 4], Mwork_nomask := 0
    cvlen := 1000, cvdim := 2, bnvec := 2, bvlen := 1000, bnz := 4
    Bp := some (array_of [0, 2, 4]), GBP_Bp := array_of [0, 2, 4]
    chunk := 1, nthreads_max := 2
    GB_nthreads := fun _ _ _ => 2
    GB_pslice := unit_pslice
    Bflops2 := fun _ => array_of [0, 1, 2] }

/-- One thread and a single vector of B with 3 entries (`GrB_mxv`). -/
def input_single_vector : Saxpy3Input :=
  { M_present := false, Mask_comp_input := false, M_is_dense := false
    AxB_method := GxB_DEFAULT
    Bflops := array_of [0, 6], Mwork := 0
    Bflops_nomask := array_of [0, 6], Mwork_nomask := 0
    cvlen := 1000, cvdim := 1, bnvec := 1, bvlen := 1000, bnz := 3
    Bp := some (array_of [0, 3]), GBP_Bp := array_of [0, 3]
    chunk := 1, nthreads_max := 1
    GB_nthreads := fun _ _ _ => 1
    GB_pslice := unit_pslice
    Bflops2 := fun _ => array_of [0, 2, 4, 6] }

/-- One thread, four vectors of one flop each, and a coarse task over all of
them (`GrB_mxm` on one thread). -/
def input_single_thread : Saxpy3Input :=
  { M_present := false, Mask_comp_input := false, M_is_dense := false
    AxB_method := GxB_DEFAULT
    Bflops := array_of [0, 1, 2, 3, 4], Mwork := 0
    Bflops_nomask := array_of [0, 1, 2, 3, 4], Mwork_nomask := 0
    cvlen := 1000, cvdim := 4, bnvec := 4, bvlen := 1000, bnz := 4
    Bp := some (array_of [0, 1, 2, 3, 4]), GBP_Bp := array_of [0, 1, 2, 3, 4]
    chunk := 1, nthreads_max := 1
    GB_nthreads := fun _ _ _ => 1
    GB_pslice := unit_pslice
    Bflops2 := fun _ => array_of [0, 1] }

/-- A dense mask on a short, wide product: `cvlen = 4`, `cvdim = 1000`, two
vectors of B of one flop each, one thread.  The A*B work (2 flops) is below
`0.10 * cvlen * cvdim = 400`. -/
def input_dense_mask_cheap : Saxpy3Input :=
  { M_present := true, Mask_comp_input := false, M_is_dense := true
    AxB_method := GxB_DEFAULT
    Bflops := array_of [0, 1, 2], Mwork := 0
    Bflops_nomask := array_of [0, 1, 2], Mwork_nomask := 0
    cvlen := 4, cvdim := 1000, bnvec := 2, bvlen := 4, bnz := 2
    Bp := some (array_of [0, 1, 2]), GBP_Bp := array_of [0, 1, 2]
    chunk := 1, nthreads_max := 1
    GB_nthreads := fun _ _ _ => 1
    GB_pslice := unit_pslice
    Bflops2 := fun _ => array_of [0, 1] }

/-- A dense mask on a tall product: `cvlen = 1000`, `cvdim = 3`, three vectors
of B with 1, 1 and 10 flops.  The A*B work (12 flops) is below
`0.10 * cvlen * cvdim = 300`. -/
def input_dense_mask_tall : Saxpy3Input :=
  { input_fine_team with M_present := true, M_is_dense := true }

/-- A dense mask with as much A*B work as mask entries: `cvlen = 8`,
`cvdim = 2`, two vectors of B of 8 flops each (16 flops, not below
`0.10 * 16`). -/
def input_dense_mask_costly : Saxpy3Input :=
  { M_present := true, Mask_comp_input := false, M_is_dense := true
    AxB_method := GxB_DEFAULT
    Bflops := array_of [0, 8, 16], Mwork := 0
    Bflops_nomask := array_of [0, 8, 16], Mwork_nomask := 0
    cvlen := 8, cvdim := 2, bnvec := 2, bvlen := 8, bnz := 4
    Bp := some (array_of [0, 2, 4]), GBP_Bp := array_of [0, 2, 4]
    chunk := 1, nthreads_max := 2
    GB_nthreads := fun _ _ _ => 2
    GB_pslice := unit_pslice
    Bflops2 := fun _ => array_of [0, 4, 8] }

/-- The slots `m .. m+n-1` of `T` have consecutive entry ranges `[start, end]`
that start at `lo`, end at `hi`, stay inside `lo .. hi`, and hold every position
of `lo .. hi` exactly once. -/
def partitions_entries (T : Int → GB_saxpy3task_struct) (m n lo hi : Int) : Prop :=
  (T m).start = lo ∧ (T (m + n - 1)).end_ = hi ∧
  (∀ j, m ≤ j → j + 1 < m + n → (T (j + 1)).start = (T j).end_ + 1) ∧
  (∀ j, m ≤ j → j < m + n → (T j).start ≤ (T j).end_ + 1) ∧
  (∀ j p, m ≤ j → j < m + n → (T j).start ≤ p → p ≤ (T j).end_ → lo ≤ p ∧ p ≤ hi) ∧
  (∀ p, lo ≤ p → p ≤ hi → ∃! j, m ≤ j ∧ j < m + n ∧ (T j).start ≤ p ∧ p ≤ (T j).end_)

/-! ## The whole of `GB_AxB_saxpy3`: status, output handle and `mask_applied` -/

/-- Modelled from the spec: the enum `GrB_Info` is declared in `GraphBLAS.h`,
which is not among the sources.  These are the three status values the sources
name: success, "no value" (no specialised worker), and out of memory. -/
inductive GrB_Info where
  | GrB_SUCCESS
  | GrB_NO_VALUE
  | GrB_OUT_OF_MEMORY
deriving DecidableEq

open GrB_Info

/-- The results of the calls and allocations of `GB_AxB_saxpy3` whose code is
not among the sources:

* `GB_new_info`: the status of `GB_new` (line 418);
* `flopcount_info`, `flopcount_nomask_info`: the status of the first and of the
  second call of `GB_AxB_saxpy3_flopcount` (lines 456, 536);
* `Coarse_initial_ok`: the value `GB_pslice` returns at line 576;
* `TaskList_ok`, `Coarse_Work_ok`, `Fine_slice_ok`, `Bflops2_ok`: whether the
  allocations of lines 681-688 return a non-`NULL` pointer;
* `ccode_is_UDT`: the test `ccode == GB_UDT_code`;
* `H_ok taskid`, `Hx_ok taskid`: whether `GB_calloc_memory` and
  `GB_malloc_memory` return a non-`NULL` pointer for task `taskid`;
* `worker_info`: the status of the built-in worker the switch factory launches,
  `none` when it launches no worker;
* `generic_info`: the status of `GB_AxB_saxpy3_generic`;
* `prune_info`: the status of `GB_hypermatrix_prune` (line 1167). -/
structure Saxpy3Calls where
  GB_new_info : GrB_Info
  flopcount_info : GrB_Info
  flopcount_nomask_info : GrB_Info
  Coarse_initial_ok : Bool
  TaskList_ok : Bool
  Coarse_Work_ok : Bool
  Fine_slice_ok : Bool
  Bflops2_ok : Bool
  ccode_is_UDT : Bool
  H_ok : Int → Bool
  Hx_ok : Int → Bool
  worker_info : Option GrB_Info
  generic_info : GrB_Info
  prune_info : GrB_Info

/-- The state of the workspace allocation (lines 951-1079): the flag `ok`, and
for every task the size in entries of the block `H` (and `Hx`) points to,
`none` for a `NULL` pointer. -/
structure WorkState where
  ok : Bool
  H : Int → Option Int
  Hx : Int → Option Int

/-- The allocation for one task (lines 1010-1018 and 1070-1078):
`hash_size = TaskList [taskid].hsize` entries for `H`, and for `Hx` when the type
is user-defined; `ok` is and-ed with the outcome. -/
def alloc_task (O : Saxpy3Calls) (TaskList : Int → GB_saxpy3task_struct) (taskid : Int)
    (w : WorkState) : WorkState :=
  let hash_size := (TaskList taskid).hsize
  let H1 : Int → Option Int :=
    fun i => if i = taskid then (if O.H_ok taskid then some hash_size else none) else w.H i
  let ok1 := w.ok && O.H_ok taskid
  if O.ccode_is_UDT then
    { ok := ok1 && O.Hx_ok taskid
      H := H1
      Hx := fun i =>
        if i = taskid then (if O.Hx_ok taskid then some hash_size else none) else w.Hx i }
  else
    { ok := ok1, H := H1, Hx := w.Hx }

/-- The loop over the fine tasks, lines 957-1019, with `n` iterations remaining:
a task that is not its own master is skipped. -/
def alloc_fine (O : Saxpy3Calls) (TaskList : Int → GB_saxpy3task_struct) :
    Nat → Int → WorkState → WorkState
  | 0, _, w => w
  | n + 1, taskid, w =>
      alloc_fine O TaskList n (taskid + 1)
        (if taskid ≠ (TaskList taskid).master then w else alloc_task O TaskList taskid w)

/-- The loop over the coarse tasks, lines 1022-1079, with `n` iterations
remaining. -/
def alloc_coarse (O : Saxpy3Calls) (TaskList : Int → GB_saxpy3task_struct) :
    Nat → Int → WorkState → WorkState
  | 0, _, w => w
  | n + 1, taskid, w =>
      alloc_coarse O TaskList n (taskid + 1) (alloc_task O TaskList taskid w)

/-- The workspace allocation, lines 951-1079: `ok = true`, all `H` and `Hx`
`NULL` after task creation, then the two loops. -/
def alloc_workspace (O : Saxpy3Calls) (R : Saxpy3Tasks) : WorkState :=
  let w0 : WorkState := { ok := true, H := fun _ => none, Hx := fun _ => none }
  let w1 := alloc_fine O R.TaskList R.nfine.toNat 0 w0
  alloc_coarse O R.TaskList (R.ntasks - R.nfine).toNat R.nfine w1

/-- What a call of `GB_AxB_saxpy3` leaves: the status it returns, whether
`*Chandle` is non-`NULL`, and `*mask_applied`. -/
structure Saxpy3Result where
  info : GrB_Info
  Chandle_set : Bool
  mask_applied : Bool
deriving DecidableEq

/-- The test of the discard branch (lines 477-480 and 518): the dense branch is
not taken, a mask is present, and `axbflops < Mwork * GB_MWORK_ALPHA`. -/
def discard_mask (I : Saxpy3Input) : Prop :=
  ¬ (I.M_is_dense ∧ (I.AxB_method = GxB_DEFAULT ∨ I.AxB_method = GxB_AxB_SAXPY)) ∧
    I.M_present ∧ ((I.Bflops I.bnvec - I.Mwork : Int) : ℚ) < (I.Mwork : ℚ) * GB_MWORK_ALPHA

instance (I : Saxpy3Input) : Decidable (discard_mask I) := by
  unfold discard_mask
  exact inferInstance

/-- `GB_AxB_saxpy3` without the MKL path (lines 252-1178): the variable `info`,
`*Chandle` and `*mask_applied` along every return.  `*mask_applied` is `false`
and `*Chandle` is `NULL` from lines 282 and 302 on; `GB_FREE_ALL` frees the
matrix and leaves `*Chandle` `NULL`; the macro `GB_OK` assigns the status of the
call to `info` and, when it is not `GrB_SUCCESS`, does `GB_FREE_ALL` and returns
it.  `GB_hypermatrix_prune` gets the matrix `C`, not the handle, so `*Chandle`
stays `C` (`ASSERT (*Chandle == C)`, line 1169). -/
def GB_AxB_saxpy3 (I : Saxpy3Input) (O : Saxpy3Calls) : Saxpy3Result :=
  let failed (info : GrB_Info) : Saxpy3Result :=
    { info := info, Chandle_set := false, mask_applied := false }
  -- info = GB_new (...), lines 418-425
  let info := O.GB_new_info
  if info ≠ GrB_SUCCESS then failed info
  -- GB_OK (GB_AxB_saxpy3_flopcount (...)), line 456
  else if O.flopcount_info ≠ GrB_SUCCESS then failed O.flopcount_info
  -- the discard branch: GB_OK (GB_AxB_saxpy3_flopcount (...)), line 536
  else if discard_mask I ∧ O.flopcount_nomask_info ≠ GrB_SUCCESS then
    failed O.flopcount_nomask_info
  else
    let info := GrB_SUCCESS
    let R := GB_AxB_saxpy3_phase0 I
    -- GB_pslice (&Coarse_initial, ...), lines 576-581
    if I.ntasks_initial > 1 ∧ O.Coarse_initial_ok = false then failed GrB_OUT_OF_MEMORY
    -- lines 681-696
    else if O.TaskList_ok = false ∨ O.Coarse_Work_ok = false ∨
        (R.max_bjnz > 0 ∧ (O.Fine_slice_ok = false ∨ O.Bflops2_ok = false)) then
      failed GrB_OUT_OF_MEMORY
    -- lines 951-1086
    else if (alloc_workspace O R).ok = false then failed info
    else
      -- lines 1104-1156
      let info :=
        match O.worker_info with
        | some i => if i ≠ GrB_NO_VALUE then i else O.generic_info
        | none => O.generic_info
      if info ≠ GrB_SUCCESS then failed GrB_OUT_OF_MEMORY
      else
        -- lines 1166-1177
        { info := O.prune_info, Chandle_set := true, mask_applied := R.M_present }

/-- Every call succeeds and every allocation returns a block; the switch
factory launches no built-in worker. -/
def calls_all_ok : Saxpy3Calls :=
  { GB_new_info := GrB_SUCCESS
    flopcount_info := GrB_SUCCESS
    flopcount_nomask_info := GrB_SUCCESS
    Coarse_initial_ok := true
    TaskList_ok := true
    Coarse_Work_ok := true
    Fine_slice_ok := true
    Bflops2_ok := true
    ccode_is_UDT := false
    H_ok := fun _ => true
    Hx_ok := fun _ => true
    worker_info := none
    generic_info := GrB_SUCCESS
    prune_info := GrB_SUCCESS }

/-- As `calls_all_ok`, but `GB_calloc_memory` returns `NULL` for every `H`. -/
def calls_H_fails : Saxpy3Calls :=
  { calls_all_ok with H_ok := fun _ => false }

/-- As `calls_all_ok`, but `GB_hypermatrix_prune` returns `GrB_OUT_OF_MEMORY`. -/
def calls_prune_fails : Saxpy3Calls :=
  { calls_all_ok with prune_info := GrB_OUT_OF_MEMORY }

/-- One thread, four vectors of one flop each, with a sparse mask of two
entries: `total_flops = 4`, `Mwork = 2`, so the A*B work (2) is not below
`0.01 * Mwork` and the mask is kept. -/
def input_sparse_mask : Saxpy3Input :=
  { input_single_thread with M_present := true, Mwork := 2 }

/-- As `input_sparse_mask` with a mask of 400 entries and `total_flops = 403`:
the A*B work (3) is below `0.01 * Mwork = 4` and the mask is discarded. -/
def input_large_mask : Saxpy3Input :=
  { input_single_thread with
    M_present := true, Mwork := 400, Bflops := array_of [0, 100, 200, 300, 403] }

/-- The input of a call without a mask that has the flop counts of the second
`GB_AxB_saxpy3_flopcount` (the one without the mask) from the start. -/
def without_mask (I : Saxpy3Input) : Saxpy3Input :=
  { I with
    M_present := false, Mask_comp_input := false, M_is_dense := false
    Bflops := I.Bflops_nomask, Mwork := I.Mwork_nomask }

/-- One thread and a matrix B without vectors (`bnvec = 0`). -/
def input_no_vectors : Saxpy3Input :=
  { M_present := false, Mask_comp_input := false, M_is_dense := false
    AxB_method := GxB_DEFAULT
    Bflops := array_of [0], Mwork := 0
    Bflops_nomask := array_of [0], Mwork_nomask := 0
    cvlen := 1000, cvdim := 0, bnvec := 0, bvlen := 1000, bnz := 0
    Bp := some (array_of [0]), GBP_Bp := array_of [0]
    chunk := 1, nthreads_max := 1
    GB_nthreads := fun _ _ _ => 1
    GB_pslice := unit_pslice
    Bflops2 := fun _ => array_of [0] }

/-- The example of the spec: A is the 3-by-3 identity pattern, B has the columns
`{(0,1)}`, `{(1,2)}` and `{(0,3),(2,4)}`, so the flop counts per column are 1, 1
and 2 and `cvlen = 3`; one thread, with the method hint `hint`. -/
def input_spec_example (hint : GrB_Desc_Value) : Saxpy3Input :=
  { M_present := false, Mask_comp_input := false, M_is_dense := false
    AxB_method := hint
    Bflops := array_of [0, 1, 2, 4], Mwork := 0
    Bflops_nomask := array_of [0, 1, 2, 4], Mwork_nomask := 0
    cvlen := 3, cvdim := 3, bnvec := 3, bvlen := 3, bnz := 4
    Bp := some (array_of [0, 1, 2, 4]), GBP_Bp := array_of [0, 1, 2, 4]
    chunk := 1, nthreads_max := 1
    GB_nthreads := fun _ _ _ => 1
    GB_pslice := unit_pslice
    Bflops2 := fun _ => array_of [0, 1, 2] }

/-! ## `GB_convert_to_full` -/

/-- Modelled from the spec: the struct behind `GrB_Matrix` is declared in
`GB_matrix.h`, which is not among the sources.  These are the fields
`GB_convert_to_full` reads or writes, the size of the type of the entries, and
the pointers to the content (`none` is `NULL`, `some n` names a block). -/
structure GB_Matrix where
  vlen : Int
  vdim : Int
  plen : Int
  nvec : Int
  nvec_nonempty : Int
  nzmax : Int
  magic : Int
  type_size : Int
  p : Option Nat
  h : Option Nat
  b : Option Nat
  i : Option Nat
  x : Option Nat
deriving DecidableEq

/-- What `GB_convert_to_full` calls and names but the sources do not hold:
`GB_Index_multiply a b` is `some c` when the call returns `true` with `c` in its
first argument and `none` when it returns `false`; `GB_MALLOC n` is the pointer
the allocation of `n` bytes returns; `GB_phbix_free` is the effect of that call
on the matrix; `GB_MAGIC` is the constant. -/
structure ConvertCalls where
  GB_Index_multiply : Int → Int → Option Int
  GB_MALLOC : Int → Option Nat
  GB_phbix_free : GB_Matrix → GB_Matrix
  GB_MAGIC : Int

/-- What a call of `GB_convert_to_full` leaves: the status, the matrix, and
whether the allocation of lines 45-51 was reached. -/
structure ConvertResult where
  info : GrB_Info
  A : GB_Matrix
  allocation_reached : Bool
deriving DecidableEq

/-- `GB_convert_to_full` (`GB_convert_to_full.c`, lines 12-78). -/
def GB_convert_to_full (K : ConvertCalls) (A : GB_Matrix) : ConvertResult :=
  let avdim := A.vdim
  let avlen := A.vlen
  match K.GB_Index_multiply avlen avdim with
  | none =>
      -- problem too large
      { info := GrB_OUT_OF_MEMORY, A := A, allocation_reached := false }
  | some anzmax =>
      match K.GB_MALLOC (anzmax * A.type_size) with
      | none =>
          -- out of memory
          { info := GrB_OUT_OF_MEMORY, A := A, allocation_reached := true }
      | some Ax_new =>
          let A1 := K.GB_phbix_free A
          { info := GrB_SUCCESS
            A := { A1 with
              x := some Ax_new
              plen := -1
              nvec := avdim
              nvec_nonempty := if avlen = 0 then 0 else avdim
              nzmax := max anzmax 1
              magic := K.GB_MAGIC }
            allocation_reached := true }

/-- A matrix of 4-by-5 entries of 8 bytes with sparse content. -/
def matrix_4x5 : GB_Matrix :=
  { vlen := 4, vdim := 5, plen := 5, nvec := 5, nvec_nonempty := 2, nzmax := 3
    magic := 1, type_size := 8, p := some 1, h := none, b := none, i := some 2, x := some 3 }

/-- A `GB_phbix_free` that leaves every pointer `NULL`. -/
def phbix_free_all (A : GB_Matrix) : GB_Matrix :=
  { A with p := none, h := none, b := none, i := none, x := none }

/-- Calls for which the size computation overflows. -/
def convert_calls_overflow : ConvertCalls :=
  { GB_Index_multiply := fun _ _ => none
    GB_MALLOC := fun _ => some 7
    GB_phbix_free := phbix_free_all
    GB_MAGIC := 1 }

/-- Calls for which the size computation succeeds and the allocation fails. -/
def convert_calls_no_memory : ConvertCalls :=
  { GB_Index_multiply := fun a b => some (a * b)
    GB_MALLOC := fun _ => none
    GB_phbix_free := phbix_free_all
    GB_MAGIC := 1 }

/-- Calls for which the size computation and the allocation succeed. -/
def convert_calls_ok : ConvertCalls :=
  { GB_Index_multiply := fun a b => some (a * b)
    GB_MALLOC := fun _ => some 7
    GB_phbix_free := phbix_free_all
    GB_MAGIC := 1 }

/-! ## Opcodes, `GB_AxB_semiring_builtin` and the monoids of `GB_iso_AxB` -/

/-- Modelled from the spec: the enum `GB_Opcode` is declared in `GB_opcode.h`,
which is not among the sources.  These are the opcodes the sources name (in code
or in comments); `GB_OTHER_opcode` stands for every other built-in operator.
The sources test `opcode >= GB_USER_opcode` for a user-defined operator; here
`GB_USER_opcode` is the one opcode of all user-defined operators. -/
inductive GB_Opcode where
  | GB_NOP_opcode
  | GB_FIRST_opcode
  | GB_SECOND_opcode
  | GB_ANY_opcode
  | GB_PAIR_opcode
  | GB_MIN_opcode
  | GB_MAX_opcode
  | GB_PLUS_opcode
  | GB_TIMES_opcode
  | GB_LOR_opcode
  | GB_LAND_opcode
  | GB_LXOR_opcode
  | GB_EQ_opcode
  | GB_BOR_opcode
  | GB_BAND_opcode
  | GB_BXOR_opcode
  | GB_BXNOR_opcode
  | GB_OTHER_opcode (code : Nat)
  | GB_USER_opcode
deriving DecidableEq

open GB_Opcode

/-- Modelled from the spec: the enum `GB_Type_code` is declared in `GB_type.h`,
which is not among the sources.  These are the type codes the sources name. -/
inductive GB_Type_code where
  | GB_ignore_code
  | GB_BOOL_code
  | GB_INT8_code
  | GB_INT16_code
  | GB_INT32_code
  | GB_INT64_code
  | GB_UINT8_code
  | GB_UINT16_code
  | GB_UINT32_code
  | GB_UINT64_code
  | GB_FP32_code
  | GB_FP64_code
  | GB_FC32_code
  | GB_FC64_code
  | GB_UDT_code
deriving DecidableEq

open GB_Type_code

/-- What `GB_binop_builtin` (not among the sources) leaves: the value it
returns and the values of its four output arguments. -/
structure BinopBuiltin where
  ok : Bool
  mult_opcode : GB_Opcode
  xcode : GB_Type_code
  ycode : GB_Type_code
  zcode : GB_Type_code

/-- What `GB_AxB_semiring_builtin` leaves: the value it returns and its five
output arguments. -/
structure SemiringBuiltin where
  result : Bool
  mult_opcode : GB_Opcode
  add_opcode : GB_Opcode
  xcode : GB_Type_code
  ycode : GB_Type_code
  zcode : GB_Type_code
deriving DecidableEq

/-- `GB_AxB_semiring_builtin` (`GB_AxB_semiring_builtin.c`, lines 20-114).
`add_op` is `add->opcode`, `add_ztype_code` is `add->ztype->code`,
`GB_boolean_rename` is the function of that name and `B` is what the call of
`GB_binop_builtin` leaves. -/
def GB_AxB_semiring_builtin (add_op : GB_Opcode) (add_ztype_code : GB_Type_code)
    (GB_boolean_rename : GB_Opcode → GB_Opcode) (B : BinopBuiltin) : SemiringBuiltin :=
  let add_opcode := add_op
  if add_opcode = GB_USER_opcode then
    { result := false, mult_opcode := GB_NOP_opcode, add_opcode := add_opcode
      xcode := GB_ignore_code, ycode := GB_ignore_code, zcode := GB_ignore_code }
  else
    let add_opcode :=
      if add_ztype_code = GB_BOOL_code then GB_boolean_rename add_opcode else add_opcode
    if B.ok = false then
      { result := false, mult_opcode := B.mult_opcode, add_opcode := add_opcode
        xcode := B.xcode, ycode := B.ycode, zcode := B.zcode }
    else
      let add_opcode :=
        if B.mult_opcode = GB_PAIR_opcode then
          if add_opcode = GB_EQ_opcode ∨ add_opcode = GB_LAND_opcode ∨
              add_opcode = GB_BAND_opcode ∨ add_opcode = GB_LOR_opcode ∨
              add_opcode = GB_BOR_opcode ∨ add_opcode = GB_MAX_opcode ∨
              add_opcode = GB_MIN_opcode ∨ add_opcode = GB_TIMES_opcode then
            GB_PAIR_opcode
          else add_opcode
        else add_opcode
      { result := true, mult_opcode := B.mult_opcode, add_opcode := add_opcode
        xcode := B.xcode, ycode := B.ycode, zcode := B.zcode }

/-- The flag `is_any_pair_semiring` of `GB_AxB_saxpy3` (lines 377-385), from
what `GB_AxB_semiring_builtin` leaves. -/
def is_any_pair_semiring (S : SemiringBuiltin) : Bool :=
  S.result && decide (S.add_opcode = GB_ANY_opcode) && decide (S.mult_opcode = GB_PAIR_opcode)

/-- The monoid opcode after the boolean renaming, as the claim names it. -/
def renamed_monoid (add_op : GB_Opcode) (add_ztype_code : GB_Type_code)
    (GB_boolean_rename : GB_Opcode → GB_Opcode) : GB_Opcode :=
  if add_ztype_code = GB_BOOL_code then GB_boolean_rename add_op else add_op

/-- The flag `nice_monoid` of `GB_iso_AxB` (`GB_iso_AxB.c`, lines 103-107). -/
def nice_monoid (add_opcode : GB_Opcode) : Bool :=
  decide (add_opcode = GB_ANY_opcode) ||
  decide (add_opcode = GB_LAND_opcode) || decide (add_opcode = GB_LOR_opcode) ||
  decide (add_opcode = GB_BAND_opcode) || decide (add_opcode = GB_BOR_opcode) ||
  decide (add_opcode = GB_MAX_opcode) || decide (add_opcode = GB_MIN_opcode)

/-- The flag `nice_with_pair` of `GB_iso_AxB` (lines 112-113). -/
def nice_with_pair (add_opcode : GB_Opcode) : Bool :=
  nice_monoid add_opcode ||
  decide (add_opcode = GB_EQ_opcode) || decide (add_opcode = GB_TIMES_opcode)

/-- A `GB_binop_builtin` that accepts a `PAIR` multiply on `bool`. -/
def binop_pair_bool : BinopBuiltin :=
  { ok := true, mult_opcode := GB_PAIR_opcode, xcode := GB_BOOL_code, ycode := GB_BOOL_code
    zcode := GB_BOOL_code }

/-- Modelled from the spec: the binary functions of the built-in monoids are
defined in files that are not among the sources.  This is the function of each
monoid that `GB_iso_AxB` names, on the 8-bit unsigned integers `0 .. 255`:
`ANY` returns one of its arguments (`pick` says which), `MIN`, `MAX`, `PLUS` and
`TIMES` (modulo 256), and the bitwise `BOR`, `BAND`, `BXOR`, `BXNOR`. -/
def GB_monoid_uint8 (pick : Bool) : GB_Opcode → Option (Nat → Nat → Nat)
  | GB_ANY_opcode => some (fun x y => if pick then x else y)
  | GB_MIN_opcode => some (fun x y => min x y)
  | GB_MAX_opcode => some (fun x y => max x y)
  | GB_PLUS_opcode => some (fun x y => (x + y) % 256)
  | GB_TIMES_opcode => some (fun x y => (x * y) % 256)
  | GB_BOR_opcode => some (fun x y => x ||| y)
  | GB_BAND_opcode => some (fun x y => x &&& y)
  | GB_BXOR_opcode => some (fun x y => x ^^^ y)
  | GB_BXNOR_opcode => some (fun x y => 255 - (x ^^^ y))
  | _ => none

/-- Modelled from the spec: the function of each monoid that `GB_iso_AxB` names
on `bool`: `ANY` (one of its arguments), `LOR`, `LAND`, `LXOR` and `EQ`
(`LXNOR`). -/
def GB_monoid_bool (pick : Bool) : GB_Opcode → Option (Bool → Bool → Bool)
  | GB_ANY_opcode => some (fun x y => if pick then x else y)
  | GB_LOR_opcode => some (fun x y => x || y)
  | GB_LAND_opcode => some (fun x y => x && y)
  | GB_LXOR_opcode => some (fun x y => xor x y)
  | GB_EQ_opcode => some (fun x y => x == y)
  | _ => none

/-- The reduction `reduce ([x x ... x])` of `n + 1` copies of `x` by the
function `f` of a monoid. -/
def reduce_copies {α : Type} (f : α → α → α) (x : α) : Nat → α
  | 0 => x
  | n + 1 => f (reduce_copies f x n) x

/-! ## The parallel reduction of `GB_create_coarse_task` -/

/-- The loop of one thread, lines 211-216: `my_flmax` over `i` from `istart`,
with `n` iterations remaining. -/
def thread_flmax (Bflops : Int → Int) (kfirst : Int) : Nat → Int → Int → Int
  | 0, _, my_flmax => my_flmax
  | n + 1, i, my_flmax =>
      thread_flmax Bflops kfirst n (i + 1)
        (max my_flmax (Bflops (kfirst + i + 1) - Bflops (kfirst + i)))

/-- `Coarse_Work [tid]` after the parallel loop of lines 207-218.  The macro
`GB_PARTITION` is not among the sources: `part tid` is the pair
`(istart, iend)` it gives thread `tid`. -/
def Coarse_Work (Bflops : Int → Int) (kfirst : Int) (part : Int → Int × Int) (tid : Int) :
    Int :=
  thread_flmax Bflops kfirst ((part tid).2 - (part tid).1).toNat (part tid).1 1

/-- The loop of lines 221-225 that combines the results of the threads, with `n`
iterations remaining. -/
def combine_flmax (W : Int → Int) : Nat → Int → Int → Int
  | 0, _, flmax => flmax
  | n + 1, tid, flmax => combine_flmax W n (tid + 1) (max flmax (W tid))

/-- The value `flmax` of `GB_create_coarse_task` at line 226, with `nth`
threads. -/
def coarse_flmax_parallel (Bflops : Int → Int) (kfirst : Int) (nth : Int)
    (part : Int → Int × Int) : Int :=
  combine_flmax (Coarse_Work Bflops kfirst part) nth.toNat 0 1

/-- The contract of `GB_PARTITION` for `nk` items and `nth` threads: the ranges
`[istart, iend)` of the threads are consecutive, from `0` to `nk`. -/
def partition_ok (part : Int → Int × Int) (nk nth : Int) : Prop :=
  (part 0).1 = 0 ∧ (part (nth - 1)).2 = nk ∧
  (∀ tid, 0 ≤ tid → tid < nth → (part tid).1 ≤ (part tid).2) ∧
  (∀ tid, 0 ≤ tid → tid + 1 < nth → (part tid).2 = (part (tid + 1)).1)

/-- The value `v` is `max (1, max over a ≤ k < b of Bflops [k+1] - Bflops [k])`. -/
def is_flmax (Bflops : Int → Int) (a b v : Int) : Prop :=
  1 ≤ v ∧ (∀ k, a ≤ k → k < b → Bflops (k + 1) - Bflops k ≤ v) ∧
  (v = 1 ∨ ∃ k, a ≤ k ∧ k < b ∧ v = Bflops (k + 1) - Bflops k)

/-- A partition of `nk` items that gives thread `tid` the items
`[2 * tid, 2 * tid + 2)`, cut at `nk`. -/
def pair_partition (nk : Int) (tid : Int) : Int × Int :=
  (min nk (2 * tid), min nk (2 * tid + 2))

/-! ## `GB_ix_resize` -/

/-- What `GB_ix_resize` calls but the sources do not hold: `GB_ix_realloc A n`
is the status of the call `GB_ix_realloc (A, n, true, Context)` with the matrix
it leaves, and `GB_phbix_free` is the effect of that call on the matrix. -/
structure ResizeCalls where
  GB_ix_realloc : GB_Matrix → Int → GrB_Info × GB_Matrix
  GB_phbix_free : GB_Matrix → GB_Matrix

/-- What a call of `GB_ix_resize` leaves: the status, the matrix, and the
capacity `anzmax_new` it asked `GB_ix_realloc` for. -/
structure ResizeResult where
  info : GrB_Info
  A : GB_Matrix
  anzmax_new : Int
deriving DecidableEq

/-- `GB_ix_resize` (`GB_ix_resize.c`, lines 16-121); the branches under `#if 0`
are not compiled. -/
def GB_ix_resize (K : ResizeCalls) (A : GB_Matrix) (anz_new : Int) : ResizeResult :=
  let anzmax_new := 2 * anz_new
  let r := K.GB_ix_realloc A anzmax_new
  if r.1 ≠ GrB_SUCCESS then
    -- out of memory
    { info := r.1, A := K.GB_phbix_free r.2, anzmax_new := anzmax_new }
  else
    { info := GrB_SUCCESS, A := r.2, anzmax_new := anzmax_new }

/-- A `GB_ix_realloc` that succeeds and sets `nzmax` to the capacity asked for. -/
def resize_calls_ok : ResizeCalls :=
  { GB_ix_realloc := fun A n => (GrB_SUCCESS, { A with nzmax := n })
    GB_phbix_free := phbix_free_all }

/-! ## The semiring `LOR_GE_UINT16` (`Generated/GB_AxB_defs__lor_ge_uint16.h`) -/

/-- `GB_MULT (z, x, y, i, k, j)`: `z = (x >= y)`, on `uint16_t` values. -/
def GB_MULT (x y : Nat) : Bool := decide (x ≥ y)

/-- The add of the monoid, `cij |= z`. -/
def GB_ADD (cij z : Bool) : Bool := cij || z

/-- `GB_MULTADD (z, x, y, i, k, j)`: `z |= (x >= y)`. -/
def GB_MULTADD (z : Bool) (x y : Nat) : Bool := z || decide (x ≥ y)

/-- `GB_IDENTITY`: `false`. -/
def GB_IDENTITY : Bool := false

/-- The test of `GB_DOT_TERMINAL (cij)`: `cij == true`. -/
def GB_DOT_TERMINAL (cij : Bool) : Bool := cij == true

/-- Folding every product `(aik, bkj)` of a list into `cij` with `GB_MULTADD`. -/
def fold_products : List (Nat × Nat) → Bool → Bool
  | [], cij => cij
  | (aik, bkj) :: rest, cij => fold_products rest (GB_MULTADD cij aik bkj)

/-- Modelled from the spec: the dot-product loop that uses `GB_DOT_TERMINAL` is
in a template that is not among the sources.  After each `GB_MULTADD` the loop
breaks when `cij` has reached the terminal value, and the further products are
skipped. -/
def fold_products_terminal : List (Nat × Nat) → Bool → Bool
  | [], cij => cij
  | (aik, bkj) :: rest, cij =>
      let cij1 := GB_MULTADD cij aik bkj
      if GB_DOT_TERMINAL cij1 then cij1 else fold_products_terminal rest cij1

/-! ## `GB_dense_subassign_25_template` -/

/-- A loop `for (i = a ; i < a+n ; i++) body` on a state. -/
def for_loop {σ : Type} (body : Int → σ → σ) : Nat → Int → σ → σ
  | 0, _, s => s
  | n + 1, i, s => for_loop body n (i + 1) (body i s)

/-- What `GB_dense_subassign_25_template` reads.  The macros `GBH`, `GBB`, `GBI`
and the function `GB_get_pA` are not among the sources: `GBH_Mh k` is
`GBH (Mh, k)`, `GBB_Mb pM` is `GBB (Mb, pM)`, `GBI_Mi pM` is
`GBI (Mi, pM, mvlen)`, and `GB_get_pA tid k` is the pair `(pM_start, pM_end)` the
call leaves for task `tid` and vector `k`. -/
structure Subassign25 where
  ntasks : Int
  kfirst_slice : Int → Int
  klast_slice : Int → Int
  GBH_Mh : Int → Int
  GB_get_pA : Int → Int → Int × Int
  M_is_bitmap : Bool
  GBB_Mb : Int → Bool
  GBI_Mi : Int → Int
  Ax : Int → Int
  avlen : Int

/-- `GB_COPY_A_TO_C (Cx, pC, Ax, pA)`: `Cx [pC] = Ax [pA]`. -/
def GB_COPY_A_TO_C (Cx : Int → Int) (pC : Int) (Ax : Int → Int) (pA : Int) : Int → Int :=
  fun q => if q = pC then Ax pA else Cx q

/-- The body of the loop over `k`, lines 50-84. -/
def subassign_25_vector (S : Subassign25) (tid k : Int) (Cx : Int → Int) : Int → Int :=
  let j := S.GBH_Mh k
  let pM_start := (S.GB_get_pA tid k).1
  let pM_end := (S.GB_get_pA tid k).2
  if S.M_is_bitmap then
    for_loop (fun pM Cx => if ¬ S.GBB_Mb pM then Cx else GB_COPY_A_TO_C Cx pM S.Ax pM)
      (pM_end - pM_start).toNat pM_start Cx
  else
    let pA := j * S.avlen
    for_loop (fun pM Cx => GB_COPY_A_TO_C Cx pM S.Ax (pA + S.GBI_Mi pM))
      (pM_end - pM_start).toNat pM_start Cx

/-- The body of the loop over the tasks, lines 38-86. -/
def subassign_25_task (S : Subassign25) (tid : Int) (Cx : Int → Int) : Int → Int :=
  let kfirst := S.kfirst_slice tid
  let klast := S.klast_slice tid
  for_loop (fun k Cx => subassign_25_vector S tid k Cx) (klast - kfirst + 1).toNat kfirst Cx

/-- `GB_dense_subassign_25_template` (lines 35-86): the array `Cx` it leaves.
Every position is written by one value only, so the tasks are run in order. -/
def GB_dense_subassign_25_template (S : Subassign25) (Cx : Int → Int) : Int → Int :=
  for_loop (fun tid Cx => subassign_25_task S tid Cx) S.ntasks.toNat 0 Cx

/-- A sparse mask of two vectors with the entries `(0,0)`, `(2,0)` and `(1,1)` of
a 3-by-2 matrix, and a dense `A` with `A (i,j) = 10 * j + i`; one task. -/
def subassign_25_example : Subassign25 :=
  { ntasks := 1
    kfirst_slice := fun _ => 0
    klast_slice := fun _ => 1
    GBH_Mh := fun k => k
    GB_get_pA := fun _ k => (array_of [0, 2, 3] k, array_of [0, 2, 3] (k + 1))
    M_is_bitmap := false
    GBB_Mb := fun _ => true
    GBI_Mi := array_of [0, 2, 1]
    Ax := array_of [0, 1, 2, 10, 11, 12]
    avlen := 3 }

/-! ## `GB_iso_AxB` -/

/-- What `GB_iso_AxB` reads, over a type `V` of scalars.  Not among the sources
and taken as parameters: `mult_is_positional` is `GB_OP_IS_POSITIONAL
(multiply)`; `GB_boolean_rename`; `A_nnz` is `GB_nnz (A)`, `A_is_bitmap` is
`GB_IS_BITMAP (A)`, `A_as_if_full` is `GB_as_if_full (A)`, `Ax0` is the scalar
`A->x` points to (and the same for `B`); `GB_cast_one zcode` is the scalar
`GB_cast_one (c, zcode)` writes; `GB_cast_scalar zcode xcode x` is the scalar
`GB_cast_scalar (z, zcode, x, xcode, size)` writes; `GB_iso_reduce_worker f t n`
is the scalar `GB_iso_reduce_worker (c, f, t, n, zsize)` writes. -/
structure IsoAxB (V : Type) where
  add_opcode : GB_Opcode
  mult_opcode : GB_Opcode
  mult_is_positional : Bool
  fmult : V → V → V
  freduce : V → V → V
  xcode : GB_Type_code
  ycode : GB_Type_code
  zcode : GB_Type_code
  acode : GB_Type_code
  bcode : GB_Type_code
  GB_boolean_rename : GB_Opcode → GB_Opcode
  A_iso_flag : Bool
  A_nnz : Int
  A_is_bitmap : Bool
  A_as_if_full : Bool
  Ax0 : V
  B_iso_flag : Bool
  B_nnz : Int
  B_is_bitmap : Bool
  B_as_if_full : Bool
  Bx0 : V
  n : Nat
  GB_cast_one : GB_Type_code → V
  GB_cast_scalar : GB_Type_code → GB_Type_code → V → V
  GB_iso_reduce_worker : (V → V → V) → V → Nat → V

namespace IsoAxB

variable {V : Type}

/-- `add_opcode` after lines 84-90. -/
def add_renamed (P : IsoAxB V) : GB_Opcode :=
  if P.zcode = GB_BOOL_code then P.GB_boolean_rename P.add_opcode else P.add_opcode

/-- `mult_opcode` after lines 92-96. -/
def mult_renamed (P : IsoAxB V) : GB_Opcode :=
  if P.xcode = GB_BOOL_code then P.GB_boolean_rename P.mult_opcode else P.mult_opcode

/-- The flag `first` (lines 116-117). -/
def first (P : IsoAxB V) : Bool :=
  decide (P.mult_renamed = GB_FIRST_opcode) || decide (P.mult_renamed = GB_ANY_opcode)

/-- The flag `second` (lines 120-121). -/
def second (P : IsoAxB V) : Bool :=
  decide (P.mult_renamed = GB_SECOND_opcode) || decide (P.mult_renamed = GB_ANY_opcode)

/-- The flag `A_iso` (line 128). -/
def A_iso (P : IsoAxB V) : Bool :=
  P.A_iso_flag || (decide (P.A_nnz = 1) && !P.A_is_bitmap)

/-- The flag `B_iso` (line 129). -/
def B_iso (P : IsoAxB V) : Bool :=
  P.B_iso_flag || (decide (P.B_nnz = 1) && !P.B_is_bitmap)

/-- The scalar `fmult` is applied to for the first entries of `A` and `B`
(lines 200-215 and 235-250). -/
def product0 (P : IsoAxB V) : V :=
  if P.acode = P.xcode ∧ P.bcode = P.ycode then P.fmult P.Ax0 P.Bx0
  else P.fmult (P.GB_cast_scalar P.xcode P.acode P.Ax0) (P.GB_cast_scalar P.ycode P.bcode P.Bx0)

end IsoAxB

/-- `GB_iso_AxB` (`GB_iso_AxB.c`, lines 26-271): `some c` when it returns `true`
with the scalar `c`, `none` when it returns `false`. -/
def GB_iso_AxB {V : Type} (P : IsoAxB V) : Option V :=
  if P.mult_is_positional ∨ P.add_opcode = GB_USER_opcode then none
  else if nice_with_pair P.add_renamed ∧ P.mult_renamed = GB_PAIR_opcode then
    -- C is iso, with c = 1
    some (P.GB_cast_one P.zcode)
  else if P.B_iso ∧ nice_monoid P.add_renamed ∧ P.second then
    -- C is iso, with c = b
    if P.zcode = P.ycode ∧ P.bcode = P.ycode then some P.Bx0
    else some (P.GB_cast_scalar P.zcode P.ycode (P.GB_cast_scalar P.ycode P.bcode P.Bx0))
  else if P.A_iso ∧ nice_monoid P.add_renamed ∧ P.first then
    -- C is iso, with c = a
    if P.zcode = P.xcode ∧ P.acode = P.xcode then some P.Ax0
    else some (P.GB_cast_scalar P.zcode P.xcode (P.GB_cast_scalar P.xcode P.acode P.Ax0))
  else if P.A_iso ∧ P.B_iso then
    if nice_monoid P.add_renamed then
      -- C is iso, with c = fmult(a,b)
      some P.product0
    else if P.A_as_if_full ∧ P.B_as_if_full then
      -- reduce n copies of t to the single scalar c
      some (P.GB_iso_reduce_worker P.freduce P.product0 P.n)
    else none
  else none

/-- The entry `C(i,j)` of `C = A*B` as the claim states it: the reduction by the
monoid of the products `fmult (A(i,k), B(k,j))`, the entries cast to the types
of the operator, over the pairs `(A(i,k), B(k,j))` that are both present
(`first` with `rest`). -/
def iso_entry {V : Type} (P : IsoAxB V) (first : V × V) (rest : List (V × V)) : V :=
  let prod := fun (p : V × V) =>
    P.fmult (P.GB_cast_scalar P.xcode P.acode p.1) (P.GB_cast_scalar P.ycode P.bcode p.2)
  rest.foldl (fun c p => P.freduce c (prod p)) (prod first)

/-- An instance on `Nat`: the `MAX_FIRST` semiring on one type, without casts,
`A` iso with value 7. -/
def iso_example_max_first : IsoAxB Nat :=
  { add_opcode := GB_MAX_opcode
    mult_opcode := GB_FIRST_opcode
    mult_is_positional := false
    fmult := fun x _ => x
    freduce := fun x y => max x y
    xcode := GB_UINT64_code, ycode := GB_UINT64_code, zcode := GB_UINT64_code
    acode := GB_UINT64_code, bcode := GB_UINT64_code
    GB_boolean_rename := id
    A_iso_flag := true, A_nnz := 4, A_is_bitmap := false, A_as_if_full := false, Ax0 := 7
    B_iso_flag := false, B_nnz := 4, B_is_bitmap := false, B_as_if_full := false, Bx0 := 1
    n := 2
    GB_cast_one := fun _ => 1
    GB_cast_scalar := fun _ _ v => v
    GB_iso_reduce_worker := fun f t n => reduce_copies f t (n - 1) }

/-! ## The creation pass with the list of the slots it writes -/

/-- The state of the creation pass together with the indices of the slots of
`TaskList` it has written, in the order of the writes. -/
structure TaskTrace where
  s : TaskState
  log : List Int

/-- `fine_team_loop` with the written slots: each iteration writes
`TaskList [nf]` (lines 795-803) and then does `nf++`. -/
def fine_team_loop_trace (E : Saxpy3Env) (kk master : Int) :
    Nat → Int → TaskTrace → TaskTrace
  | 0, _, r => r
  | n + 1, fid, r =>
      fine_team_loop_trace E kk master n (fid + 1)
        { s :=
            { TaskList := setTask r.s.TaskList r.s.nf (fine_task E kk master fid)
              nf := r.s.nf + 1
              nc := r.s.nc }
          log := r.log ++ [r.s.nf] }

/-- `create_kk` with the written slots: `GB_create_coarse_task (..., nc++, ...)`
writes `TaskList [nc]`. -/
def create_kk_trace (E : Saxpy3Env) (kk : Int) (st : Int × TaskTrace) : Int × TaskTrace :=
  if E.costly kk then
    let r := st.2
    let r1 : TaskTrace :=
      if st.1 < kk then
        { s :=
            { TaskList := GB_create_coarse_task st.1 (kk - 1) r.s.TaskList r.s.nc E.Bflops
                E.cvlen E.AxB_method
              nf := r.s.nf
              nc := r.s.nc + 1 }
          log := r.log ++ [r.s.nc] }
      else r
    (kk + 1, fine_team_loop_trace E kk r1.s.nf (E.team_size kk).toNat 0 r1)
  else st

/-- `create_inner` with the written slots. -/
def create_inner_trace (E : Saxpy3Env) : Nat → Int → Int × TaskTrace → Int × TaskTrace
  | 0, _, st => st
  | n + 1, kk, st => create_inner_trace E n (kk + 1) (create_kk_trace E kk st)

/-- `create_task` with the written slots. -/
def create_task_trace (E : Saxpy3Env) (taskid : Int) (r : TaskTrace) : TaskTrace :=
  let kfirst := E.Coarse_initial taskid
  let klast := E.Coarse_initial (taskid + 1)
  let task_ncols := klast - kfirst
  if task_ncols = 0 then r
  else if E.task_costly kfirst klast then
    let st := create_inner_trace E (klast - kfirst).toNat kfirst (kfirst, r)
    if st.1 < klast then
      { s :=
          { TaskList := GB_create_coarse_task st.1 (klast - 1) st.2.s.TaskList st.2.s.nc
              E.Bflops E.cvlen E.AxB_method
            nf := st.2.s.nf
            nc := st.2.s.nc + 1 }
        log := st.2.log ++ [st.2.s.nc] }
    else st.2
  else
    { s :=
        { TaskList := GB_create_coarse_task kfirst (klast - 1) r.s.TaskList r.s.nc E.Bflops
            E.cvlen E.AxB_method
          nf := r.s.nf
          nc := r.s.nc + 1 }
      log := r.log ++ [r.s.nc] }

/-- `create_outer` with the written slots. -/
def create_outer_trace (E : Saxpy3Env) : Nat → Int → TaskTrace → TaskTrace
  | 0, _, r => r
  | n + 1, taskid, r => create_outer_trace E n (taskid + 1) (create_task_trace E taskid r)

/-- `create_multi` with the written slots: no slot is written before the loop. -/
def create_multi_trace (E : Saxpy3Env) (nfine : Int) : TaskTrace :=
  create_outer_trace E E.ntasks_initial.toNat 0 { s := create_init nfine, log := [] }

/-- The step from `r` to `r1` writes each slot between the fine cursors and
each slot between the coarse cursors once, and no other slot. -/
def trace_step (r r1 : TaskTrace) : Prop :=
  r.s.nf ≤ r1.s.nf ∧ r.s.nc ≤ r1.s.nc ∧
  ∀ i : Int, r1.log.count i =
    r.log.count i + (if r.s.nf ≤ i ∧ i < r1.s.nf then 1 else 0) +
      (if r.s.nc ≤ i ∧ i < r1.s.nc then 1 else 0)

/-! ## Inputs at which the `double` rounding decides -/

/-- Three threads, four vectors with 14, 7, 7 and 7 flops; the first vector has
two entries.  `target_task_size` is the `double` of `35 / 6`, and the `double`
product `2 * 1.2 * target_task_size` lies just below 14. -/
def input_rounded_threshold : Saxpy3Input :=
  { M_present := false, Mask_comp_input := false, M_is_dense := false
    AxB_method := GxB_DEFAULT
    Bflops := array_of [0, 14, 21, 28, 35], Mwork := 0
    Bflops_nomask := array_of [0, 14, 21, 28, 35], Mwork_nomask := 0
    cvlen := 1000, cvdim := 4, bnvec := 4, bvlen := 1000, bnz := 5
    Bp := some (array_of [0, 2, 3, 4, 5]), GBP_Bp := array_of [0, 2, 3, 4, 5]
    chunk := 1, nthreads_max := 3
    GB_nthreads := fun _ _ _ => 3
    GB_pslice := unit_pslice
    Bflops2 := fun _ => array_of [0, 7, 14] }

/-- Five threads, two vectors with 21 and 7 flops; the first vector has three
entries.  `target_task_size` is the `double` of `2.8`, `target_fine_size` the
`double` of `1.4`, and the `double` quotient `21 / target_fine_size` lies just
above 15. -/
def input_rounded_team : Saxpy3Input :=
  { M_present := false, Mask_comp_input := false, M_is_dense := false
    AxB_method := GxB_DEFAULT
    Bflops := array_of [0, 21, 28], Mwork := 0
    Bflops_nomask := array_of [0, 21, 28], Mwork_nomask := 0
    cvlen := 1000, cvdim := 2, bnvec := 2, bvlen := 1000, bnz := 4
    Bp := some (array_of [0, 3, 4]), GBP_Bp := array_of [0, 3, 4]
    chunk := 1, nthreads_max := 5
    GB_nthreads := fun _ _ _ => 5
    GB_pslice := unit_pslice
    Bflops2 := fun _ => array_of [0, 7, 14, 21] }

/-- The input `input_dense_mask_tall` (a dense mask, 12 flops of A*B against
3000 mask entries) with the method hint `hint`. -/
def input_dense_mask_hint (hint : GrB_Desc_Value) : Saxpy3Input :=
  { input_dense_mask_tall with AxB_method := hint }

/-! # Lemmas -/

/-! ## `GB_hash_table_size` -/

theorem floor_log2_aux_eq_log (fuel : Nat) : ∀ n : Nat, n ≤ fuel → floor_log2_aux fuel n = Nat.log 2 n := by
  induction fuel with
  | zero =>
    intro n hn
    have : n = 0 := by omega
    subst this
    simp [floor_log2_aux]
  | succ fuel ih =>
    intro n hn
    unfold floor_log2_aux
    by_cases h2 : n < 2
    · simp [h2, Nat.log_of_lt h2]
    · have h2' : 2 ≤ n := by omega
      rw [if_neg h2, Nat.log_of_one_lt_of_le Nat.one_lt_two h2', ih (n / 2) (by omega)]

theorem floor_log2_eq_log (n : Nat) : floor_log2 n = Nat.log 2 n :=
  floor_log2_aux_eq_log n n (le_refl n)

theorem GB_hash_size_eq (f : Int) : GB_hash_size f = 2 * 2 ^ (Nat.log 2 f.toNat + 1) := by
  unfold GB_hash_size
  rw [floor_log2_eq_log, Nat.shiftLeft_eq]
  push_cast
  rfl

theorem lt_two_pow_log_succ (f : Int) : f < 2 ^ (Nat.log 2 f.toNat + 1) := by
  have h := Nat.lt_pow_succ_log_self Nat.one_lt_two f.toNat
  have h' : ((f.toNat : Nat) : Int) < ((2 ^ (Nat.log 2 f.toNat + 1) : Nat) : Int) := by
    exact_mod_cast h
  have : f ≤ (f.toNat : Int) := Int.self_le_toNat f
  push_cast at h'
  omega

theorem two_pow_log_le (f : Int) (hf : 1 ≤ f) : (2 : Int) ^ Nat.log 2 f.toNat ≤ f := by
  have h := Nat.pow_log_le_self 2 (x := f.toNat) (by omega)
  have h' : ((2 ^ Nat.log 2 f.toNat : Nat) : Int) ≤ ((f.toNat : Nat) : Int) := by
    exact_mod_cast h
  have : (f.toNat : Int) = f := Int.toNat_of_nonneg (by omega)
  push_cast at h'
  omega

theorem GB_hash_size_gt (f : Int) : 2 * f < GB_hash_size f := by
  rw [GB_hash_size_eq]
  have := lt_two_pow_log_succ f
  omega

theorem GB_hash_table_size_of_hash (f L : Int) (m : GrB_Desc_Value)
    (h : GB_use_Gustavson f L m = false) : GB_hash_table_size f L m = GB_hash_size f := by
  simp [GB_hash_table_size, h]

theorem GB_hash_table_size_of_gus (f L : Int) (m : GrB_Desc_Value)
    (h : GB_use_Gustavson f L m = true) : GB_hash_table_size f L m = L := by
  simp [GB_hash_table_size, h]

theorem tdiv16_le (L : Int) (hL : 0 ≤ L) : Int.tdiv L 16 ≤ L := by
  rw [Int.tdiv_eq_ediv hL (by decide)]
  omega

theorem GB_hash_size_lt_of_hash (f L : Int) (m : GrB_Desc_Value) (hL : 0 ≤ L)
    (h : GB_use_Gustavson f L m = false) : GB_hash_size f < L := by
  unfold GB_use_Gustavson at h
  have := tdiv16_le L hL
  split_ifs at h with h1 h2
  · simp at h; exact h
  · simp at h; omega


/-! ## The creation pass keeps its invariant -/

theorem fine_team_loop_spec (E : Saxpy3Env) (kk m : Int) :
    ∀ (n : Nat) (fid : Int) (s : TaskState),
      (fine_team_loop E kk m n fid s).nf = s.nf + n ∧
      (fine_team_loop E kk m n fid s).nc = s.nc ∧
      (∀ i, s.nf ≤ i → i < s.nf + n →
        (fine_team_loop E kk m n fid s).TaskList i = fine_task E kk m (fid + (i - s.nf))) ∧
      (∀ i, (i < s.nf ∨ s.nf + n ≤ i) →
        (fine_team_loop E kk m n fid s).TaskList i = s.TaskList i) := by
  intro n
  induction n with
  | zero =>
    intro fid s
    refine ⟨by simp [fine_team_loop], rfl, ?_, ?_⟩
    · intro i h1 h2; simp at h2; omega
    · intro i _; rfl
  | succ n ih =>
    intro fid s
    obtain ⟨h1, h2, h3, h4⟩ := ih (fid + 1)
      { TaskList := setTask s.TaskList s.nf (fine_task E kk m fid), nf := s.nf + 1, nc := s.nc }
    simp only [fine_team_loop]
    refine ⟨?_, ?_, ?_, ?_⟩
    · rw [h1]; push_cast; ring
    · rw [h2]
    · intro i hi1 hi2
      by_cases hi : i = s.nf
      · subst hi
        rw [h4 _ (Or.inl (by simp))]
        simp [setTask]
      · rw [h3 i (by simp; omega) (by simp; push_cast at hi2; omega)]
        congr 1
        simp; ring
    · intro i hi
      rw [h4 i (by simp; push_cast at hi; omega)]
      simp only [setTask]
      rw [if_neg]
      push_cast at hi; omega

theorem coarse_task_start (a e i : Int) (B : Int → Int) (L : Int) (m : GrB_Desc_Value) :
    (coarse_task a e i B L m).start = a := rfl

theorem coarse_task_end (a e i : Int) (B : Int → Int) (L : Int) (m : GrB_Desc_Value) :
    (coarse_task a e i B L m).end_ = e := rfl

theorem fine_task_vector (E : Saxpy3Env) (v m f : Int) : (fine_task E v m f).vector = v := rfl

theorem fine_task_master (E : Saxpy3Env) (v m f : Int) : (fine_task E v m f).master = m := rfl

/-- Writing a coarse task over `b..e` into slot `nc` keeps the invariant and
moves the frontier to `e + 1`. -/
theorem TaskInv.add_coarse {E : Saxpy3Env} {N : Int} {s : TaskState} {b : Int}
    (h : TaskInv E N s b) (e : Int) (hbe : b ≤ e) (hnf : s.nf ≤ N)
    (hnp : ∀ k, b ≤ k → k ≤ e → ¬ E.pulled_out k)
    (s' : TaskState) (hnf' : s'.nf = s.nf) (hnc' : s'.nc = s.nc + 1)
    (hT : ∀ j, j ≠ s.nc → s'.TaskList j = s.TaskList j)
    (hTc : s'.TaskList s.nc = coarse_task b e s.nc E.Bflops E.cvlen E.AxB_method) :
    TaskInv E N s' (e + 1) := by
  have hb := h.b_nonneg
  have hnc := h.nc_ge
  constructor
  · omega
  · rw [hnf']; exact h.nf_nonneg
  · omega
  · intro i hi0 hi1
    rw [hnf'] at hi1 ⊢
    rw [hT i (by omega)]
    obtain ⟨f1, f2, f3, f4, f5, f6, f7, f8⟩ := h.fine i hi0 hi1
    refine ⟨?_, f2, f3, f4, f5, f6, by omega, f8⟩
    intro j hj1 hj2
    rw [hT j (by omega)]
    exact f1 j hj1 hj2
  · intro i hi0 hi1
    rw [hnc'] at hi1
    by_cases hi : i = s.nc
    · subst hi
      rw [hTc]
      simp only [coarse_task_start, coarse_task_end]
      exact ⟨trivial, hb, hbe, by omega, hnp⟩
    · rw [hT i hi]
      obtain ⟨c1, c2, c3, c4, c5⟩ := h.coarse i hi0 (by omega)
      exact ⟨c1, c2, c3, by omega, c5⟩
  · intro k hk0 hk1
    rw [hnf', hnc']
    by_cases hkb : k < b
    · rcases h.cover k hk0 hkb with ⟨i, h1, h2, h3⟩ | ⟨i, h1, h2, h3, h4⟩
      · left
        exact ⟨i, h1, h2, by rw [hT i (by omega)]; exact h3⟩
      · right
        refine ⟨i, h1, by omega, ?_⟩
        rw [hT i (by omega)]
        exact ⟨h3, h4⟩
    · right
      refine ⟨s.nc, hnc, by omega, ?_⟩
      rw [hTc]
      simp only [coarse_task_start, coarse_task_end]
      omega
  · intro i j hi0 hi1 hj0 hj1
    rw [hnf'] at hi1 hj1
    rw [hT i (by omega), hT j (by omega)]
    exact h.fine_team i j hi0 hi1 hj0 hj1
  · intro i j hi0 hi1 hj0 hj1 hij
    rw [hnc'] at hi1 hj1
    by_cases hi : i = s.nc
    · subst hi
      rw [hTc, hT j (by omega)]
      simp only [coarse_task_start, coarse_task_end]
      have := (h.coarse j hj0 (by omega)).2.2.2.1
      omega
    · by_cases hj : j = s.nc
      · subst hj
        rw [hTc, hT i hi]
        simp only [coarse_task_start, coarse_task_end]
        have := (h.coarse i hi0 (by omega)).2.2.2.1
        omega
      · rw [hT i hi, hT j hj]
        exact h.coarse_disj i j hi0 (by omega) hj0 (by omega) hij

/-- Writing the fine team of vector `kk` into slots `nf .. nf + team_size - 1`
keeps the invariant and moves the frontier to `kk + 1`. -/
theorem TaskInv.add_team {E : Saxpy3Env} {N : Int} {s : TaskState} {kk : Int}
    (h : TaskInv E N s kk) (hp : E.pulled_out kk) (hts : 1 ≤ E.team_size kk)
    (hN : s.nf + E.team_size kk ≤ N)
    (s' : TaskState) (hnf' : s'.nf = s.nf + E.team_size kk) (hnc' : s'.nc = s.nc)
    (hTn : ∀ i, s.nf ≤ i → i < s.nf + E.team_size kk →
      s'.TaskList i = fine_task E kk s.nf (i - s.nf))
    (hT : ∀ i, (i < s.nf ∨ s.nf + E.team_size kk ≤ i) → s'.TaskList i = s.TaskList i) :
    TaskInv E N s' (kk + 1) := by
  have hb := h.b_nonneg
  have hnc := h.nc_ge
  have hnf0 := h.nf_nonneg
  constructor
  · omega
  · omega
  · omega
  · intro i hi0 hi1
    rw [hnf'] at hi1 ⊢
    by_cases hi : i < s.nf
    · rw [hT i (Or.inl hi)]
      obtain ⟨f1, f2, f3, f4, f5, f6, f7, f8⟩ := h.fine i hi0 hi
      refine ⟨?_, f2, f3, f4, by omega, f6, by omega, f8⟩
      intro j hj1 hj2
      rw [hT j (Or.inl (by omega))]
      exact f1 j hj1 hj2
    · rw [hTn i (by omega) hi1]
      simp only [fine_task_vector, fine_task_master]
      exact ⟨hTn, hnf0, by omega, hi1, le_refl _, hb, by omega, hp⟩
  · intro i hi0 hi1
    rw [hnc'] at hi1
    rw [hT i (Or.inr (by omega))]
    obtain ⟨c1, c2, c3, c4, c5⟩ := h.coarse i hi0 hi1
    exact ⟨c1, c2, c3, by omega, c5⟩
  · intro k hk0 hk1
    rw [hnf', hnc']
    by_cases hkb : k < kk
    · rcases h.cover k hk0 hkb with ⟨i, h1, h2, h3⟩ | ⟨i, h1, h2, h3, h4⟩
      · left
        exact ⟨i, h1, by omega, by rw [hT i (Or.inl h2)]; exact h3⟩
      · right
        refine ⟨i, h1, h2, ?_⟩
        rw [hT i (Or.inr (by omega))]
        exact ⟨h3, h4⟩
    · left
      refine ⟨s.nf, hnf0, by omega, ?_⟩
      rw [hTn s.nf (le_refl _) (by omega)]
      simp only [fine_task_vector]
      omega
  · intro i j hi0 hi1 hj0 hj1
    rw [hnf'] at hi1 hj1
    by_cases hi : i < s.nf
    · by_cases hj : j < s.nf
      · rw [hT i (Or.inl hi), hT j (Or.inl hj)]
        exact h.fine_team i j hi0 hi hj0 hj
      · rw [hT i (Or.inl hi), hTn j (by omega) hj1]
        simp only [fine_task_vector, fine_task_master]
        intro hv
        have := (h.fine i hi0 hi).2.2.2.2.2.2.1
        omega
    · by_cases hj : j < s.nf
      · rw [hT j (Or.inl hj), hTn i (by omega) hi1]
        simp only [fine_task_vector, fine_task_master]
        intro hv
        have := (h.fine j hj0 hj).2.2.2.2.2.2.1
        omega
      · rw [hTn i (by omega) hi1, hTn j (by omega) hj1]
        simp only [fine_task_vector, fine_task_master]
        intro _; trivial
  · intro i j hi0 hi1 hj0 hj1 hij
    rw [hnc'] at hi1 hj1
    rw [hT i (Or.inr (by omega)), hT j (Or.inr (by omega))]
    exact h.coarse_disj i j hi0 hi1 hj0 hj1 hij

theorem fine_team_loop_nf (E : Saxpy3Env) (kk m : Int) (n : Nat) (fid : Int) (s : TaskState) :
    (fine_team_loop E kk m n fid s).nf = s.nf + n :=
  (fine_team_loop_spec E kk m n fid s).1

/-- The state of `create_kk` after the optional flush of the pending coarse
task (lines 744-750). -/
theorem create_kk_costly (E : Saxpy3Env) (kk : Int) (st : Int × TaskState)
    (hc : E.costly kk = true) :
    create_kk E kk st =
      (kk + 1, fine_team_loop E kk
        (if st.1 < kk then
          ({ TaskList := GB_create_coarse_task st.1 (kk - 1) st.2.TaskList st.2.nc E.Bflops
              E.cvlen E.AxB_method
             nf := st.2.nf
             nc := st.2.nc + 1 } : TaskState)
         else st.2).nf (E.team_size kk).toNat 0
        (if st.1 < kk then
          ({ TaskList := GB_create_coarse_task st.1 (kk - 1) st.2.TaskList st.2.nc E.Bflops
              E.cvlen E.AxB_method
             nf := st.2.nf
             nc := st.2.nc + 1 } : TaskState)
         else st.2)) := by
  simp [create_kk, hc]

theorem create_kk_not_costly (E : Saxpy3Env) (kk : Int) (st : Int × TaskState)
    (hc : E.costly kk = false) : create_kk E kk st = st := by
  simp [create_kk, hc]

theorem create_kk_nf_mono (E : Saxpy3Env) (kk : Int) (st : Int × TaskState) :
    st.2.nf ≤ (create_kk E kk st).2.nf := by
  cases hc : E.costly kk
  · rw [create_kk_not_costly E kk st hc]
  · rw [create_kk_costly E kk st hc]
    simp only [fine_team_loop_nf]
    split_ifs <;> simp

theorem create_inner_nf_mono (E : Saxpy3Env) :
    ∀ (n : Nat) (kk : Int) (st : Int × TaskState), st.2.nf ≤ (create_inner E n kk st).2.nf := by
  intro n
  induction n with
  | zero => intro kk st; exact le_refl _
  | succ n ih =>
    intro kk st
    simp only [create_inner]
    exact le_trans (create_kk_nf_mono E kk st) (ih (kk + 1) _)

theorem create_kk_inv (E : Saxpy3Env) (N : Int)
    (hts : ∀ k, E.costly k = true → 1 ≤ E.team_size k) (kk : Int) (st : Int × TaskState)
    (hinv : TaskInv E N st.2 st.1) (hle : st.1 ≤ kk)
    (hpend : ∀ k, st.1 ≤ k → k < kk → E.costly k = false) (hsplit : E.split_task kk)
    (hN : (create_kk E kk st).2.nf ≤ N) :
    TaskInv E N (create_kk E kk st).2 (create_kk E kk st).1 ∧ (create_kk E kk st).1 ≤ kk + 1 ∧
      (∀ k, (create_kk E kk st).1 ≤ k → k < kk + 1 → E.costly k = false) := by
  cases hc : E.costly kk
  · rw [create_kk_not_costly E kk st hc]
    refine ⟨hinv, by omega, ?_⟩
    intro k hk1 hk2
    by_cases hk : k < kk
    · exact hpend k hk1 hk
    · have : k = kk := by omega
      rw [this]; exact hc
  · have hts1 := hts kk hc
    have hcast : (((E.team_size kk).toNat : Nat) : Int) = E.team_size kk :=
      Int.toNat_of_nonneg (by omega)
    rw [create_kk_costly E kk st hc] at hN ⊢
    obtain ⟨s1, hs1def⟩ : ∃ s1 : TaskState, s1 = (if st.1 < kk then
          ({ TaskList := GB_create_coarse_task st.1 (kk - 1) st.2.TaskList st.2.nc E.Bflops
              E.cvlen E.AxB_method
             nf := st.2.nf
             nc := st.2.nc + 1 } : TaskState)
         else st.2) := ⟨_, rfl⟩
    rw [← hs1def] at hN ⊢
    have hs1nf : s1.nf = st.2.nf := by
      rw [hs1def]; split_ifs <;> rfl
    simp only [fine_team_loop_nf, hcast] at hN
    have hs1 : TaskInv E N s1 kk := by
      by_cases hlt : st.1 < kk
      · rw [if_pos hlt] at hs1def
        have h2 := TaskInv.add_coarse hinv (kk - 1) (by omega) (by omega)
          (fun k hk1 hk2 hp => by
            have h3 := hpend k hk1 (by omega)
            rw [hp.2] at h3
            exact Bool.noConfusion h3)
          s1 (by rw [hs1def]) (by rw [hs1def])
          (fun j hj => by rw [hs1def]; simp [GB_create_coarse_task, setTask, hj])
          (by rw [hs1def]; simp [GB_create_coarse_task, setTask])
        rw [show kk - 1 + 1 = kk by ring] at h2
        exact h2
      · rw [if_neg hlt] at hs1def
        have h1 : st.1 = kk := by omega
        rw [hs1def, ← h1]
        exact hinv
    obtain ⟨g1, g2, g3, g4⟩ := fine_team_loop_spec E kk s1.nf (E.team_size kk).toNat 0 s1
    rw [hcast] at g1 g3 g4
    refine ⟨?_, le_refl _, ?_⟩
    · refine TaskInv.add_team hs1 ⟨hsplit, hc⟩ hts1 hN _ g1 g2 ?_ g4
      intro i hi1 hi2
      rw [g3 i hi1 hi2, zero_add]
    · intro k hk1 hk2
      exfalso
      exact absurd hk1 (not_le.mpr hk2)

theorem create_inner_inv (E : Saxpy3Env) (N : Int)
    (hts : ∀ k, E.costly k = true → 1 ≤ E.team_size k) (klast : Int) :
    ∀ (n : Nat) (kk : Int) (st : Int × TaskState), kk + n = klast →
      TaskInv E N st.2 st.1 → st.1 ≤ kk →
      (∀ k, st.1 ≤ k → k < kk → E.costly k = false) →
      (∀ k, kk ≤ k → k < klast → E.split_task k) →
      (create_inner E n kk st).2.nf ≤ N →
      TaskInv E N (create_inner E n kk st).2 (create_inner E n kk st).1 ∧
        (create_inner E n kk st).1 ≤ klast ∧
        (∀ k, (create_inner E n kk st).1 ≤ k → k < klast → E.costly k = false) := by
  intro n
  induction n with
  | zero =>
    intro kk st hk hinv hle hpend _ _
    simp only [create_inner]
    have : kk = klast := by simpa using hk
    subst this
    exact ⟨hinv, hle, hpend⟩
  | succ n ih =>
    intro kk st hk hinv hle hpend hsplit hN
    simp only [create_inner] at hN ⊢
    have hmono := create_inner_nf_mono E n (kk + 1) (create_kk E kk st)
    obtain ⟨a1, a2, a3⟩ := create_kk_inv E N hts kk st hinv hle hpend
      (hsplit kk (le_refl _) (by push_cast at hk; omega)) (by omega)
    exact ih (kk + 1) (create_kk E kk st) (by push_cast at hk; omega) a1 a2 a3
      (fun k hk1 hk2 => hsplit k (by omega) hk2) hN

theorem slice_mono (S : Int → Int) (nt : Int) (h : ∀ t, 0 ≤ t → t < nt → S t ≤ S (t + 1)) :
    ∀ (d : Nat) (t : Int), 0 ≤ t → t + d ≤ nt → S t ≤ S (t + d) := by
  intro d
  induction d with
  | zero => intro t _ _; simp
  | succ d ih =>
    intro t ht0 ht1
    push_cast at ht1
    have h1 := ih t ht0 (by omega)
    have h2 := h (t + d) (by omega) (by omega)
    have h3 : t + ((d + 1 : Nat) : Int) = t + d + 1 := by push_cast; ring
    rw [h3]
    omega

theorem slice_mono_le (S : Int → Int) (nt : Int)
    (h : ∀ t, 0 ≤ t → t < nt → S t ≤ S (t + 1)) (t u : Int) (ht0 : 0 ≤ t) (htu : t ≤ u)
    (hu : u ≤ nt) : S t ≤ S u := by
  have h1 := slice_mono S nt h (u - t).toNat t ht0 (by omega)
  have h2 : t + ((u - t).toNat : Int) = u := by omega
  rw [h2] at h1
  exact h1

theorem slice_unique (S : Int → Int) (nt : Int)
    (h : ∀ t, 0 ≤ t → t < nt → S t ≤ S (t + 1)) (t u k : Int) (ht0 : 0 ≤ t) (ht1 : t < nt)
    (hu0 : 0 ≤ u) (hu1 : u < nt) (htk : S t ≤ k) (hkt : k < S (t + 1)) (huk : S u ≤ k)
    (hku : k < S (u + 1)) : t = u := by
  rcases lt_trichotomy t u with hlt | heq | hgt
  · have := slice_mono_le S nt h (t + 1) u (by omega) (by omega) (by omega)
    omega
  · exact heq
  · have := slice_mono_le S nt h (u + 1) t (by omega) (by omega) (by omega)
    omega

theorem create_task_nf_mono (E : Saxpy3Env) (t : Int) (s : TaskState) :
    s.nf ≤ (create_task E t s).nf := by
  unfold create_task
  simp only []
  split_ifs
  · exact le_refl _
  · exact create_inner_nf_mono E _ _ (_, s)
  · exact create_inner_nf_mono E _ _ (_, s)
  · exact le_refl _

theorem create_outer_nf_mono (E : Saxpy3Env) :
    ∀ (n : Nat) (t : Int) (s : TaskState), s.nf ≤ (create_outer E n t s).nf := by
  intro n
  induction n with
  | zero => intro t s; exact le_refl _
  | succ n ih =>
    intro t s
    simp only [create_outer]
    exact le_trans (create_task_nf_mono E t s) (ih (t + 1) _)

theorem create_task_inv (E : Saxpy3Env) (N : Int)
    (hts : ∀ k, E.costly k = true → 1 ≤ E.team_size k)
    (hmono : ∀ t, 0 ≤ t → t < E.ntasks_initial → E.Coarse_initial t ≤ E.Coarse_initial (t + 1))
    (t : Int) (ht0 : 0 ≤ t) (ht1 : t < E.ntasks_initial) (s : TaskState)
    (hinv : TaskInv E N s (E.Coarse_initial t)) (hN : (create_task E t s).nf ≤ N) :
    TaskInv E N (create_task E t s) (E.Coarse_initial (t + 1)) := by
  have hle := hmono t ht0 ht1
  unfold create_task at hN ⊢
  simp only [] at hN ⊢
  by_cases h0 : E.Coarse_initial (t + 1) - E.Coarse_initial t = 0
  · rw [if_pos h0]
    have : E.Coarse_initial (t + 1) = E.Coarse_initial t := by omega
    rw [this]; exact hinv
  · rw [if_neg h0] at hN ⊢
    cases hc : E.task_costly (E.Coarse_initial t) (E.Coarse_initial (t + 1))
    · simp only [hc, Bool.false_eq_true, if_false] at hN ⊢
      have h2 := TaskInv.add_coarse hinv (E.Coarse_initial (t + 1) - 1) (by omega) hN
        (fun k hk1 hk2 hp => by
          obtain ⟨u, hu0, hu1, hu2, hu3, hu4⟩ := hp.1
          have := slice_unique E.Coarse_initial E.ntasks_initial hmono t u k ht0 ht1 hu0 hu1
            hk1 (by omega) hu2 hu3
          subst this
          rw [hc] at hu4
          exact Bool.noConfusion hu4)
        { TaskList := GB_create_coarse_task (E.Coarse_initial t) (E.Coarse_initial (t + 1) - 1)
            s.TaskList s.nc E.Bflops E.cvlen E.AxB_method
          nf := s.nf
          nc := s.nc + 1 } rfl rfl
        (fun j hj => by simp [GB_create_coarse_task, setTask, hj])
        (by simp [GB_create_coarse_task, setTask])
      rw [show E.Coarse_initial (t + 1) - 1 + 1 = E.Coarse_initial (t + 1) by ring] at h2
      exact h2
    · simp only [hc, if_true] at hN ⊢
      obtain ⟨r, hr⟩ : ∃ r, r = create_inner E (E.Coarse_initial (t + 1) - E.Coarse_initial t).toNat
          (E.Coarse_initial t) (E.Coarse_initial t, s) := ⟨_, rfl⟩
      rw [← hr] at hN ⊢
      have hrN : r.2.nf ≤ N := by
        split_ifs at hN
        · exact hN
        · exact hN
      obtain ⟨a1, a2, a3⟩ := create_inner_inv E N hts (E.Coarse_initial (t + 1))
        (E.Coarse_initial (t + 1) - E.Coarse_initial t).toNat (E.Coarse_initial t)
        (E.Coarse_initial t, s) (by omega) hinv (le_refl _)
        (fun k hk1 hk2 => absurd hk1 (not_le.mpr hk2))
        (fun k hk1 hk2 => ⟨t, ht0, ht1, hk1, hk2, hc⟩) (by rw [← hr]; exact hrN)
      rw [← hr] at a1 a2 a3
      by_cases hfl : r.1 < E.Coarse_initial (t + 1)
      · rw [if_pos hfl]
        have h2 := TaskInv.add_coarse a1 (E.Coarse_initial (t + 1) - 1) (by omega) hrN
          (fun k hk1 hk2 hp => by
            have h3 := a3 k hk1 (by omega)
            rw [hp.2] at h3
            exact Bool.noConfusion h3)
          { TaskList := GB_create_coarse_task r.1 (E.Coarse_initial (t + 1) - 1)
              r.2.TaskList r.2.nc E.Bflops E.cvlen E.AxB_method
            nf := r.2.nf
            nc := r.2.nc + 1 } rfl rfl
          (fun j hj => by simp [GB_create_coarse_task, setTask, hj])
          (by simp [GB_create_coarse_task, setTask])
        rw [show E.Coarse_initial (t + 1) - 1 + 1 = E.Coarse_initial (t + 1) by ring] at h2
        exact h2
      · rw [if_neg hfl]
        have : r.1 = E.Coarse_initial (t + 1) := by omega
        rw [← this]
        exact a1

theorem create_outer_inv (E : Saxpy3Env) (N : Int)
    (hts : ∀ k, E.costly k = true → 1 ≤ E.team_size k)
    (hmono : ∀ t, 0 ≤ t → t < E.ntasks_initial → E.Coarse_initial t ≤ E.Coarse_initial (t + 1)) :
    ∀ (n : Nat) (t : Int) (s : TaskState), 0 ≤ t → t + n = E.ntasks_initial →
      TaskInv E N s (E.Coarse_initial t) → (create_outer E n t s).nf ≤ N →
      TaskInv E N (create_outer E n t s) (E.Coarse_initial E.ntasks_initial) := by
  intro n
  induction n with
  | zero =>
    intro t s _ ht hinv _
    simp only [create_outer]
    have : t = E.ntasks_initial := by simpa using ht
    rw [← this]; exact hinv
  | succ n ih =>
    intro t s ht0 ht hinv hN
    simp only [create_outer] at hN ⊢
    push_cast at ht
    have hm := create_outer_nf_mono E n (t + 1) (create_task E t s)
    exact ih (t + 1) (create_task E t s) (by omega) (by omega)
      (create_task_inv E N hts hmono t ht0 (by omega) s hinv (by omega)) hN

theorem count_create_kk (E : Saxpy3Env) (hnn : ∀ k, E.costly k = true → 0 ≤ E.team_size k)
    (kk : Int) (sc : Int × TaskCount) (ss : Int × TaskState) (h1 : sc.1 = ss.1) :
    (count_kk E kk sc).1 = (create_kk E kk ss).1 ∧
    (create_kk E kk ss).2.nf - ss.2.nf = (count_kk E kk sc).2.nfine - sc.2.nfine ∧
    (create_kk E kk ss).2.nc - ss.2.nc = (count_kk E kk sc).2.ncoarse - sc.2.ncoarse := by
  cases hc : E.costly kk
  · rw [create_kk_not_costly E kk ss hc]
    simp [count_kk, hc, h1]
  · have hcast : (((E.team_size kk).toNat : Nat) : Int) = E.team_size kk :=
      Int.toNat_of_nonneg (hnn kk hc)
    rw [create_kk_costly E kk ss hc]
    obtain ⟨g1, g2, _, _⟩ := fine_team_loop_spec E kk
      (if ss.1 < kk then
          ({ TaskList := GB_create_coarse_task ss.1 (kk - 1) ss.2.TaskList ss.2.nc E.Bflops
              E.cvlen E.AxB_method
             nf := ss.2.nf
             nc := ss.2.nc + 1 } : TaskState)
         else ss.2).nf (E.team_size kk).toNat 0
      (if ss.1 < kk then
          ({ TaskList := GB_create_coarse_task ss.1 (kk - 1) ss.2.TaskList ss.2.nc E.Bflops
              E.cvlen E.AxB_method
             nf := ss.2.nf
             nc := ss.2.nc + 1 } : TaskState)
         else ss.2)
    simp only [g1, g2, hcast, count_kk, hc, if_true, h1]
    by_cases hlt : ss.1 < kk
    · simp only [hlt, if_true]
      refine ⟨trivial, by ring, by ring⟩
    · simp only [hlt, if_false]
      refine ⟨trivial, by ring, by ring⟩

theorem count_create_inner (E : Saxpy3Env)
    (hnn : ∀ k, E.costly k = true → 0 ≤ E.team_size k) :
    ∀ (n : Nat) (kk : Int) (sc : Int × TaskCount) (ss : Int × TaskState), sc.1 = ss.1 →
      (count_inner E n kk sc).1 = (create_inner E n kk ss).1 ∧
      (create_inner E n kk ss).2.nf - ss.2.nf = (count_inner E n kk sc).2.nfine - sc.2.nfine ∧
      (create_inner E n kk ss).2.nc - ss.2.nc =
        (count_inner E n kk sc).2.ncoarse - sc.2.ncoarse := by
  intro n
  induction n with
  | zero =>
    intro kk sc ss h1
    simp [count_inner, create_inner, h1]
  | succ n ih =>
    intro kk sc ss h1
    simp only [count_inner, create_inner]
    obtain ⟨a1, a2, a3⟩ := count_create_kk E hnn kk sc ss h1
    obtain ⟨b1, b2, b3⟩ := ih (kk + 1) (count_kk E kk sc) (create_kk E kk ss) a1
    exact ⟨b1, by omega, by omega⟩

theorem count_create_task (E : Saxpy3Env)
    (hnn : ∀ k, E.costly k = true → 0 ≤ E.team_size k) (t : Int) (c : TaskCount)
    (s : TaskState) :
    (create_task E t s).nf - s.nf = (count_task E t c).nfine - c.nfine ∧
    (create_task E t s).nc - s.nc = (count_task E t c).ncoarse - c.ncoarse := by
  unfold create_task count_task
  simp only []
  by_cases h0 : E.Coarse_initial (t + 1) - E.Coarse_initial t = 0
  · simp [h0]
  · rw [if_neg h0, if_neg h0]
    cases hc : E.task_costly (E.Coarse_initial t) (E.Coarse_initial (t + 1))
    · simp
    · simp only [if_true]
      obtain ⟨a1, a2, a3⟩ := count_create_inner E hnn
        (E.Coarse_initial (t + 1) - E.Coarse_initial t).toNat (E.Coarse_initial t)
        (E.Coarse_initial t, c) (E.Coarse_initial t, s) rfl
      rw [a1]
      simp only [] at a2 a3
      by_cases hfl : (create_inner E (E.Coarse_initial (t + 1) - E.Coarse_initial t).toNat
          (E.Coarse_initial t) (E.Coarse_initial t, s)).1 < E.Coarse_initial (t + 1)
      · simp only [hfl, if_true]
        exact ⟨a2, by omega⟩
      · simp only [hfl, if_false]
        exact ⟨a2, a3⟩

theorem count_create_outer (E : Saxpy3Env)
    (hnn : ∀ k, E.costly k = true → 0 ≤ E.team_size k) :
    ∀ (n : Nat) (t : Int) (c : TaskCount) (s : TaskState),
      (create_outer E n t s).nf - s.nf = (count_outer E n t c).nfine - c.nfine ∧
      (create_outer E n t s).nc - s.nc = (count_outer E n t c).ncoarse - c.ncoarse := by
  intro n
  induction n with
  | zero => intro t c s; simp [create_outer, count_outer]
  | succ n ih =>
    intro t c s
    simp only [create_outer, count_outer]
    obtain ⟨a1, a2⟩ := count_create_task E hnn t c s
    obtain ⟨b1, b2⟩ := ih (t + 1) (count_task E t c) (create_task E t s)
    exact ⟨by omega, by omega⟩

/-- In the branch `ntasks_initial > 1` the creation pass ends with `nf = nfine`
and `nc = nfine + ncoarse`. -/
theorem create_multi_cursors (E : Saxpy3Env)
    (hnn : ∀ k, E.costly k = true → 0 ≤ E.team_size k) (h : E.ntasks_initial > 1) :
    (create_multi E (count_tasks E).nfine).nf = (count_tasks E).nfine ∧
    (create_multi E (count_tasks E).nfine).nc = (count_tasks E).nfine + (count_tasks E).ncoarse := by
  obtain ⟨a1, a2⟩ := count_create_outer E hnn E.ntasks_initial.toNat 0
    { nfine := 0, ncoarse := 0, max_bjnz := 0 } (create_init (count_tasks E).nfine)
  have hct : count_tasks E =
      count_outer E E.ntasks_initial.toNat 0 { nfine := 0, ncoarse := 0, max_bjnz := 0 } := by
    simp [count_tasks, h]
  rw [← hct] at a1 a2
  simp only [create_init] at a1 a2
  unfold create_multi
  simp only [create_init]
  constructor <;> omega

/-- The invariant at the end of the creation pass, branch `ntasks_initial > 1`. -/
theorem create_multi_inv (E : Saxpy3Env)
    (hts : ∀ k, E.costly k = true → 1 ≤ E.team_size k) (h : E.ntasks_initial > 1)
    (hps : pslice_ok E.Coarse_initial E.bnvec E.ntasks_initial) :
    TaskInv E (count_tasks E).nfine (create_multi E (count_tasks E).nfine) E.bnvec := by
  have hnn : ∀ k, E.costly k = true → 0 ≤ E.team_size k := fun k hk => by
    have := hts k hk; omega
  obtain ⟨c1, c2⟩ := create_multi_cursors E hnn h
  obtain ⟨p0, p1, p2⟩ := hps
  have hnf0 : 0 ≤ (count_tasks E).nfine := by
    have := create_outer_nf_mono E E.ntasks_initial.toNat 0 (create_init (count_tasks E).nfine)
    unfold create_multi at c1
    rw [c1] at this
    simpa [create_init] using this
  have h0 : TaskInv E (count_tasks E).nfine (create_init (count_tasks E).nfine)
      (E.Coarse_initial 0) := by
    rw [p0]
    constructor
    · exact le_refl _
    · exact le_refl _
    · exact le_refl _
    · intro i hi0 hi1; simp only [create_init] at hi1; omega
    · intro i hi0 hi1; simp only [create_init] at hi1; omega
    · intro k hk0 hk1; omega
    · intro i j hi0 hi1; simp only [create_init] at hi1; omega
    · intro i j hi0 hi1; simp only [create_init] at hi1; omega
  have := create_outer_inv E (count_tasks E).nfine hts p2 E.ntasks_initial.toNat 0
    (create_init (count_tasks E).nfine) (le_refl _) (by omega) h0
    (by unfold create_multi at c1; rw [c1])
  rw [p1] at this
  exact this

theorem coarse_flmax_ge_one (B : Int → Int) :
    ∀ (n : Nat) (kk f : Int), 1 ≤ f → 1 ≤ coarse_flmax B n kk f := by
  intro n
  induction n with
  | zero => intro kk f hf; exact hf
  | succ n ih =>
    intro kk f hf
    simp only [coarse_flmax]
    exact ih (kk + 1) _ (le_trans hf (le_max_left _ _))

/-! ## Double-precision arithmetic: the relative error of `to_double` -/

theorem two_pow_eq (e : Int) : two_pow e = (2 : ℚ) ^ e := by
  unfold two_pow
  by_cases h : 0 ≤ e
  · rw [if_pos h]
    obtain ⟨n, rfl⟩ := Int.eq_ofNat_of_zero_le h
    simp
  · rw [if_neg h]
    obtain ⟨n, hn⟩ : ∃ n : Nat, e = -(n : Int) :=
      ⟨(-e).toNat, by rw [Int.toNat_of_nonneg (by omega)]; ring⟩
    subst hn
    simp

theorem two_pow_pos (e : Int) : 0 < two_pow e := by
  rw [two_pow_eq]; positivity

theorem binade_le (q : ℚ) (hq : q ≠ 0) : two_pow (binade q) ≤ |q| := by
  unfold binade
  simp only []
  by_cases h : two_pow ((floor_log2 q.num.natAbs : Int) - (floor_log2 q.den : Int)) ≤ |q|
  · rw [if_pos h]; exact h
  · rw [if_neg h]
    rw [floor_log2_eq_log, floor_log2_eq_log, two_pow_eq]
    have hn : q.num.natAbs ≠ 0 := by
      simpa using hq
    have h1 : 2 ^ Nat.log 2 q.num.natAbs ≤ q.num.natAbs := Nat.pow_log_le_self 2 hn
    have h2 : q.den < 2 ^ (Nat.log 2 q.den + 1) := Nat.lt_pow_succ_log_self Nat.one_lt_two _
    have h1q : (2 : ℚ) ^ (Nat.log 2 q.num.natAbs : Int) ≤ (q.num.natAbs : ℚ) := by
      rw [zpow_natCast]; exact_mod_cast h1
    have h2q : (q.den : ℚ) ≤ (2 : ℚ) ^ ((Nat.log 2 q.den : Int) + 1) := by
      have : (q.den : ℚ) < (2 : ℚ) ^ (Nat.log 2 q.den + 1) := by exact_mod_cast h2
      rw [show ((Nat.log 2 q.den : Int) + 1) = ((Nat.log 2 q.den + 1 : Nat) : Int) by push_cast; rfl,
        zpow_natCast]
      exact le_of_lt this
    have hd : (0 : ℚ) < q.den := by exact_mod_cast q.den_pos
    have habs : |q| = (q.num.natAbs : ℚ) / (q.den : ℚ) := by
      conv_lhs => rw [← Rat.num_div_den q]
      rw [abs_div, Nat.abs_cast]
      congr 1
      rw [Nat.cast_natAbs]
      simp
    rw [habs, le_div_iff₀ hd]
    calc (2 : ℚ) ^ ((Nat.log 2 q.num.natAbs : Int) - (Nat.log 2 q.den : Int) - 1) * (q.den : ℚ)
        ≤ (2 : ℚ) ^ ((Nat.log 2 q.num.natAbs : Int) - (Nat.log 2 q.den : Int) - 1) *
            (2 : ℚ) ^ ((Nat.log 2 q.den : Int) + 1) :=
          mul_le_mul_of_nonneg_left h2q (by positivity)
      _ = (2 : ℚ) ^ (Nat.log 2 q.num.natAbs : Int) := by
          rw [← zpow_add₀ (by norm_num : (2 : ℚ) ≠ 0)]
          congr 1; ring
      _ ≤ (q.num.natAbs : ℚ) := h1q

theorem round_half_even_err (m : ℚ) : |(round_half_even m : ℚ) - m| ≤ 1 / 2 := by
  have h1 : (⌊m⌋ : ℚ) ≤ m := Int.floor_le m
  have h2 : m < (⌊m⌋ : ℚ) + 1 := Int.lt_floor_add_one m
  unfold round_half_even
  simp only []
  rw [abs_le]
  split_ifs with a b c
  · constructor <;> linarith
  · push_cast; constructor <;> linarith
  · constructor <;> linarith
  · push_cast; constructor <;> linarith

theorem to_double_err (q : ℚ) : |to_double q - q| ≤ |q| / 2 ^ 53 := by
  unfold to_double
  by_cases h0 : q = 0
  · rw [if_pos h0, h0]; simp
  · rw [if_neg h0]
    simp only []
    have hu : 0 < two_pow (binade q - 52) := two_pow_pos _
    have hr := round_half_even_err (q / two_pow (binade q - 52))
    have e1 : (round_half_even (q / two_pow (binade q - 52)) : ℚ) * two_pow (binade q - 52) - q =
        ((round_half_even (q / two_pow (binade q - 52)) : ℚ) - q / two_pow (binade q - 52)) *
          two_pow (binade q - 52) := by
      field_simp
    rw [e1, abs_mul, abs_of_pos hu]
    have hb := binade_le q h0
    have e2 : two_pow (binade q - 52) = two_pow (binade q) / 2 ^ 52 := by
      rw [two_pow_eq, two_pow_eq, zpow_sub₀ (by norm_num : (2 : ℚ) ≠ 0)]
      norm_num
    calc |(round_half_even (q / two_pow (binade q - 52)) : ℚ) - q / two_pow (binade q - 52)| *
          two_pow (binade q - 52)
        ≤ 1 / 2 * two_pow (binade q - 52) := mul_le_mul_of_nonneg_right hr (le_of_lt hu)
      _ = two_pow (binade q) / 2 ^ 53 := by rw [e2]; ring
      _ ≤ |q| / 2 ^ 53 := by
          apply div_le_div_of_nonneg_right hb (by positivity)

theorem to_double_ge (q : ℚ) (hq : 0 ≤ q) : q * (1 - 1 / 2 ^ 53) ≤ to_double q := by
  have h := to_double_err q
  rw [abs_of_nonneg hq, abs_le] at h
  linarith [h.1]

theorem to_double_le (q : ℚ) (hq : 0 ≤ q) : to_double q ≤ q * (1 + 1 / 2 ^ 53) := by
  have h := to_double_err q
  rw [abs_of_nonneg hq, abs_le] at h
  linarith [h.2]

theorem to_double_nonneg (q : ℚ) (hq : 0 ≤ q) : 0 ≤ to_double q := by
  have h := to_double_ge q hq
  have : 0 ≤ q * (1 - 1 / 2 ^ 53) := mul_nonneg hq (by norm_num)
  linarith

theorem pos_of_to_double_pos (q : ℚ) (h : 0 < to_double q) : 0 < q := by
  by_contra hq
  have hq : q ≤ 0 := not_lt.1 hq
  have he := to_double_err q
  rw [abs_of_nonpos hq, abs_le] at he
  have : q * (1 - 1 / 2 ^ 53) ≤ 0 := mul_nonpos_of_nonpos_of_nonneg hq (by norm_num)
  linarith [he.2]

/-- The `double` constant `1.2` is `0x3FF3333333333333`. -/
theorem GB_COSTLY_value : GB_COSTLY = 5404319552844595 / 4503599627370496 := by decide!

theorem GB_COSTLY_gt : (119 / 100 : ℚ) < GB_COSTLY := by decide!

theorem costly_iff (E : Saxpy3Env) (k : Int) :
    E.costly k = true ↔
      (to_double (E.jflops k : ℚ) > double_mul GB_COSTLY E.target_task_size ∧
        E.bjnz k > 1) := by
  simp [Saxpy3Env.costly]

theorem jflops_pos_of_costly (E : Saxpy3Env) (h0 : 0 ≤ E.target_task_size) (k : Int)
    (hc : E.costly k = true) : 1 ≤ E.jflops k := by
  have h1 := ((costly_iff E k).1 hc).1
  have hc0 : (0 : ℚ) ≤ GB_COSTLY := le_of_lt (lt_trans (by norm_num) GB_COSTLY_gt)
  have h2 : (0 : ℚ) ≤ double_mul GB_COSTLY E.target_task_size :=
    to_double_nonneg _ (mul_nonneg hc0 h0)
  have h3 : (0 : ℚ) < (E.jflops k : ℚ) := pos_of_to_double_pos _ (lt_of_le_of_lt h2 h1)
  have h4 : 0 < E.jflops k := by exact_mod_cast h3
  omega

/-- A column whose `double` flop count exceeds `1.18 * target_task_size` gets a
team of at least two: the quotient by `target_fine_size ≤ target_task_size`
exceeds `1.18`, and rounding it loses less than `2^-53` of it. -/
theorem team_size_ge_two_of_double (E : Saxpy3Env) (hf0 : 0 < E.target_fine_size)
    (hle : E.target_fine_size ≤ E.target_task_size) (k : Int)
    (h : 118 / 100 * E.target_task_size < to_double (E.jflops k : ℚ)) :
    2 ≤ E.team_size k := by
  have h1 : 118 / 100 * E.target_fine_size < to_double (E.jflops k : ℚ) :=
    lt_of_le_of_lt (by linarith) h
  have h2 : (118 / 100 : ℚ) < to_double (E.jflops k : ℚ) / E.target_fine_size := by
    rw [lt_div_iff₀ hf0]; exact h1
  have h3 := to_double_ge (to_double (E.jflops k : ℚ) / E.target_fine_size)
    (le_of_lt (lt_trans (by norm_num) h2))
  have h4 : (999 / 1000 : ℚ) ≤ 1 - 1 / 2 ^ 53 := by norm_num
  have h5 : (1 : ℚ) < double_div (to_double (E.jflops k : ℚ)) E.target_fine_size := by
    unfold double_div
    nlinarith
  have h6 : (1 : Int) < E.team_size k := by
    unfold Saxpy3Env.team_size
    rw [Int.lt_ceil]
    exact_mod_cast h5
  omega

theorem team_size_ge_two (E : Saxpy3Env) (hf0 : 0 < E.target_fine_size)
    (hle : E.target_fine_size ≤ E.target_task_size) (k : Int) (hc : E.costly k = true) :
    2 ≤ E.team_size k := by
  have h1 := ((costly_iff E k).1 hc).1
  have ht0 : 0 < E.target_task_size := lt_of_lt_of_le hf0 hle
  have hg := GB_COSTLY_gt
  have h2 : 119 / 100 * E.target_task_size ≤ GB_COSTLY * E.target_task_size :=
    mul_le_mul_of_nonneg_right (le_of_lt hg) (le_of_lt ht0)
  have h3 := to_double_ge (GB_COSTLY * E.target_task_size) (by nlinarith)
  have h4 : (999 / 1000 : ℚ) ≤ 1 - 1 / 2 ^ 53 := by norm_num
  have h5 : 118 / 100 * E.target_task_size < double_mul GB_COSTLY E.target_task_size := by
    unfold double_mul
    nlinarith
  exact team_size_ge_two_of_double E hf0 hle k (lt_trans h5 h1)

theorem target_sizes_pos (I : Saxpy3Input) (hchunk : 0 < I.chunk) :
    0 < I.target_task_size ∧ 0 < I.target_fine_size ∧
      I.target_fine_size ≤ I.target_task_size := by
  have h1 : I.chunk ≤ I.target_task_size := le_max_right _ _
  have h2 : I.chunk ≤ I.target_fine_size := le_max_right _ _
  have h3 : 0 < I.target_task_size := lt_of_lt_of_le hchunk h1
  refine ⟨h3, lt_of_lt_of_le hchunk h2, ?_⟩
  unfold Saxpy3Input.target_fine_size
  apply max_le _ h1
  have e : GB_FINE_WORK = 2 := rfl
  rw [e]
  have h4 := to_double_le (I.target_task_size / 2) (by positivity)
  have h5 : (1 : ℚ) + 1 / 2 ^ 53 ≤ 2 := by norm_num
  unfold double_div
  nlinarith

theorem env_team_size_ge_two (I : Saxpy3Input) (hchunk : 0 < I.chunk) (k : Int)
    (hc : I.env.costly k = true) : 2 ≤ I.env.team_size k := by
  obtain ⟨_, h2, h3⟩ := target_sizes_pos I hchunk
  exact team_size_ge_two I.env h2 h3 k hc

/-- The invariant for the task list phase 0 returns, branch `ntasks_initial > 1`. -/
theorem phase0_multi_inv (I : Saxpy3Input) (hchunk : 0 < I.chunk) (hm : I.ntasks_initial > 1)
    (hps : pslice_ok I.env.Coarse_initial I.bnvec I.ntasks_initial) :
    TaskInv I.env (GB_AxB_saxpy3_phase0 I).nfine
      { TaskList := (GB_AxB_saxpy3_phase0 I).TaskList
        nf := (GB_AxB_saxpy3_phase0 I).nfine
        nc := (GB_AxB_saxpy3_phase0 I).ntasks } I.bnvec := by
  have hts : ∀ k, I.env.costly k = true → 1 ≤ I.env.team_size k := fun k hk => by
    have := env_team_size_ge_two I hchunk k hk; omega
  have hnn : ∀ k, I.env.costly k = true → 0 ≤ I.env.team_size k := fun k hk => by
    have := hts k hk; omega
  have hm' : I.env.ntasks_initial > 1 := hm
  obtain ⟨c1, c2⟩ := create_multi_cursors I.env hnn hm'
  have hinv := create_multi_inv I.env hts hm' hps
  have hT : (GB_AxB_saxpy3_phase0 I).TaskList =
      (create_multi I.env (count_tasks I.env).nfine).TaskList := by
    simp [GB_AxB_saxpy3_phase0, create_tasks, hm']
  have hnf : (GB_AxB_saxpy3_phase0 I).nfine = (create_multi I.env (count_tasks I.env).nfine).nf :=
    c1.symm
  have hnc : (GB_AxB_saxpy3_phase0 I).ntasks =
      (create_multi I.env (count_tasks I.env).nfine).nc := by
    rw [c2]; simp [GB_AxB_saxpy3_phase0]; ring
  rw [hT, hnc]
  have hN : (GB_AxB_saxpy3_phase0 I).nfine = (count_tasks I.env).nfine := rfl
  rw [hN]
  obtain ⟨s, hs⟩ : ∃ s, s = create_multi I.env (count_tasks I.env).nfine := ⟨_, rfl⟩
  rw [← hs] at c1 hinv ⊢
  have hst : ({ TaskList := s.TaskList, nf := (count_tasks I.env).nfine, nc := s.nc } :
      TaskState) = s := by
    cases s
    simp only [TaskState.mk.injEq, true_and, and_true]
    exact c1.symm
  rw [hst]
  exact hinv

/-- Under the invariant every vector below the frontier lies in exactly one
coarse task and in no fine team, or belongs to exactly one fine team and to no
coarse task. -/
theorem TaskInv.cover_once {E : Saxpy3Env} {N : Int} {s : TaskState} {b : Int}
    (h : TaskInv E N s b) (k : Int) (hk0 : 0 ≤ k) (hk1 : k < b) :
    ((∃! t, N ≤ t ∧ t < s.nc ∧ (s.TaskList t).start ≤ k ∧ k ≤ (s.TaskList t).end_) ∧
      (∀ t, 0 ≤ t → t < s.nf → (s.TaskList t).vector ≠ k)) ∨
    ((∃! m, ∃ t, 0 ≤ t ∧ t < s.nf ∧ (s.TaskList t).vector = k ∧ (s.TaskList t).master = m) ∧
      (∀ t, N ≤ t → t < s.nc → ¬ ((s.TaskList t).start ≤ k ∧ k ≤ (s.TaskList t).end_))) := by
  have hexcl : ∀ i j, 0 ≤ i → i < s.nf → N ≤ j → j < s.nc → (s.TaskList i).vector = k →
      ¬ ((s.TaskList j).start ≤ k ∧ k ≤ (s.TaskList j).end_) := by
    intro i j hi0 hi1 hj0 hj1 hv hcov
    have hp := (h.fine i hi0 hi1).2.2.2.2.2.2.2
    rw [hv] at hp
    exact (h.coarse j hj0 hj1).2.2.2.2 k hcov.1 hcov.2 hp
  rcases h.cover k hk0 hk1 with ⟨i, hi0, hi1, hv⟩ | ⟨j, hj0, hj1, hj2, hj3⟩
  · right
    refine ⟨⟨(s.TaskList i).master, ⟨i, hi0, hi1, hv, rfl⟩, ?_⟩, ?_⟩
    · rintro m ⟨t, ht0, ht1, htv, htm⟩
      rw [← htm]
      exact h.fine_team t i ht0 ht1 hi0 hi1 (by rw [htv, hv])
    · intro t ht0 ht1
      exact hexcl i t hi0 hi1 ht0 ht1 hv
  · left
    refine ⟨⟨j, ⟨hj0, hj1, hj2, hj3⟩, ?_⟩, ?_⟩
    · rintro t ⟨ht0, ht1, ht2, ht3⟩
      by_contra hne
      rcases h.coarse_disj t j ht0 ht1 hj0 hj1 hne with hd | hd <;> omega
    · intro t ht0 ht1 hv
      exact hexcl t j ht0 ht1 hj0 hj1 hv ⟨hj2, hj3⟩

theorem phase0_single_nfine (I : Saxpy3Input) (hs : ¬ I.ntasks_initial > 1) :
    (GB_AxB_saxpy3_phase0 I).TaskList = create_single I.env ∧
    (I.bnvec = 1 → (GB_AxB_saxpy3_phase0 I).nfine = 1 ∧ (GB_AxB_saxpy3_phase0 I).ncoarse = 0 ∧
      (GB_AxB_saxpy3_phase0 I).ntasks = 1) ∧
    (I.bnvec ≠ 1 → (GB_AxB_saxpy3_phase0 I).nfine = 0 ∧ (GB_AxB_saxpy3_phase0 I).ncoarse = 1 ∧
      (GB_AxB_saxpy3_phase0 I).ntasks = 1) := by
  have hs' : ¬ I.env.ntasks_initial > 1 := hs
  refine ⟨by simp [GB_AxB_saxpy3_phase0, create_tasks, hs'], ?_, ?_⟩
  · intro hb
    have hb' : I.env.bnvec = 1 := hb
    simp [GB_AxB_saxpy3_phase0, count_tasks, hs', hb']
  · intro hb
    have hb' : ¬ I.env.bnvec = 1 := hb
    simp [GB_AxB_saxpy3_phase0, count_tasks, hs', hb']

theorem create_single_fine (E : Saxpy3Env) (hb : E.bnvec = 1) :
    create_single E 0 =
      { coarse_task 0 (E.bnvec - 1) 0 E.Bflops E.cvlen E.AxB_method with
        start := 0, end_ := E.bnz - 1, vector := 0 } := by
  simp [create_single, hb, setTask, GB_create_coarse_task]

theorem create_single_coarse (E : Saxpy3Env) (hb : E.bnvec ≠ 1) :
    create_single E 0 = coarse_task 0 (E.bnvec - 1) 0 E.Bflops E.cvlen E.AxB_method := by
  simp [create_single, hb, setTask, GB_create_coarse_task]


/-! ## Concrete inputs -/

theorem unit_pslice_ok (W : Int → Int) (n nt : Int) (hn : 0 ≤ n) (hnt : 1 ≤ nt) :
    pslice_ok (unit_pslice W n nt) n nt := by
  refine ⟨by simp [unit_pslice], ?_, ?_⟩
  · simp only [unit_pslice]
    rw [if_neg (by omega), if_pos (by omega)]
  · intro t ht0 ht1
    simp only [unit_pslice]
    split_ifs <;> omega

/-! ## Fine teams -/

theorem slice_locate (S : Int → Int) :
    ∀ (d : Nat) (x : Int), S 0 ≤ x → x < S d →
      ∃ f : Int, 0 ≤ f ∧ f < d ∧ S f ≤ x ∧ x < S (f + 1) := by
  intro d
  induction d with
  | zero =>
    intro x h1 h2
    simp at h2
    omega
  | succ d ih =>
    intro x h1 h2
    by_cases hx : x < S d
    · obtain ⟨f, hf0, hf1, hf2, hf3⟩ := ih x h1 hx
      exact ⟨f, hf0, by push_cast; omega, hf2, hf3⟩
    · refine ⟨d, by omega, by push_cast; omega, by omega, ?_⟩
      push_cast at h2
      exact h2

theorem fine_team_partition (E : Saxpy3Env) (T : Int → GB_saxpy3task_struct) (v m : Int)
    (hT : fine_team_at E T v m) (hn : 1 ≤ E.team_size v)
    (hok : pslice_ok (E.Fine_slice v) (E.bjnz v) (E.team_size v)) :
    (∀ j, m ≤ j → j < m + E.team_size v →
      (T j).vector = v ∧ (T j).master = m ∧ (T j).team_size = E.team_size v) ∧
    partitions_entries T m (E.team_size v) (E.GBP_Bp v) (E.GBP_Bp v + E.bjnz v - 1) := by
  obtain ⟨p0, p1, p2⟩ := hok
  have hs : ∀ j, m ≤ j → j < m + E.team_size v →
      (T j).start = E.GBP_Bp v + E.Fine_slice v (j - m) := by
    intro j h1 h2; rw [hT j h1 h2]; rfl
  have he : ∀ j, m ≤ j → j < m + E.team_size v →
      (T j).end_ = E.GBP_Bp v + E.Fine_slice v (j - m + 1) - 1 := by
    intro j h1 h2; rw [hT j h1 h2]; rfl
  refine ⟨?_, ?_, ?_, ?_, ?_, ?_, ?_⟩
  · intro j h1 h2
    rw [hT j h1 h2]
    exact ⟨rfl, rfl, rfl⟩
  · rw [hs m (le_refl _) (by omega)]
    simp [p0]
  · rw [he _ (by omega) (by omega)]
    have : m + E.team_size v - 1 - m + 1 = E.team_size v := by ring
    rw [this, p1]
  · intro j h1 h2
    rw [hs _ (by omega) (by omega), he j h1 (by omega)]
    have : j + 1 - m = j - m + 1 := by ring
    rw [this]; ring
  · intro j h1 h2
    rw [hs j h1 h2, he j h1 h2]
    have := p2 (j - m) (by omega) (by omega)
    omega
  · intro j p h1 h2 h3 h4
    rw [hs j h1 h2] at h3
    rw [he j h1 h2] at h4
    have a1 := slice_mono_le (E.Fine_slice v) (E.team_size v) p2 0 (j - m) (le_refl _)
      (by omega) (by omega)
    have a2 := slice_mono_le (E.Fine_slice v) (E.team_size v) p2 (j - m + 1) (E.team_size v)
      (by omega) (by omega) (le_refl _)
    rw [p0] at a1
    rw [p1] at a2
    constructor <;> omega
  · intro p h1 h2
    obtain ⟨f, hf0, hf1, hf2, hf3⟩ := slice_locate (E.Fine_slice v) (E.team_size v).toNat
      (p - E.GBP_Bp v) (by rw [p0]; omega)
      (by rw [Int.toNat_of_nonneg (by omega), p1]; omega)
    rw [Int.toNat_of_nonneg (by omega)] at hf1
    refine ⟨m + f, ⟨by omega, by omega, ?_, ?_⟩, ?_⟩
    · rw [hs _ (by omega) (by omega)]
      have : m + f - m = f := by ring
      rw [this]; omega
    · rw [he _ (by omega) (by omega)]
      have : m + f - m + 1 = f + 1 := by ring
      rw [this]; omega
    · rintro j ⟨j1, j2, j3, j4⟩
      rw [hs j j1 j2] at j3
      rw [he j j1 j2] at j4
      have := slice_unique (E.Fine_slice v) (E.team_size v) p2 (j - m) f (p - E.GBP_Bp v)
        (by omega) (by omega) hf0 hf1 (by omega) (by omega) hf2 hf3
      omega

theorem phase0_fine (I : Saxpy3Input) (hchunk : 0 < I.chunk) (hm : I.ntasks_initial > 1)
    (hps : pslice_ok I.env.Coarse_initial I.bnvec I.ntasks_initial)
    (i : Int) (hi0 : 0 ≤ i) (hi1 : i < (GB_AxB_saxpy3_phase0 I).nfine) :
    fine_team_at I.env (GB_AxB_saxpy3_phase0 I).TaskList
      ((GB_AxB_saxpy3_phase0 I).TaskList i).vector ((GB_AxB_saxpy3_phase0 I).TaskList i).master ∧
    0 ≤ ((GB_AxB_saxpy3_phase0 I).TaskList i).master ∧
    ((GB_AxB_saxpy3_phase0 I).TaskList i).master ≤ i ∧
    i < ((GB_AxB_saxpy3_phase0 I).TaskList i).master +
      I.env.team_size ((GB_AxB_saxpy3_phase0 I).TaskList i).vector ∧
    ((GB_AxB_saxpy3_phase0 I).TaskList i).master +
      I.env.team_size ((GB_AxB_saxpy3_phase0 I).TaskList i).vector ≤
        (GB_AxB_saxpy3_phase0 I).nfine ∧
    0 ≤ ((GB_AxB_saxpy3_phase0 I).TaskList i).vector ∧
    ((GB_AxB_saxpy3_phase0 I).TaskList i).vector < I.bnvec ∧
    I.env.pulled_out ((GB_AxB_saxpy3_phase0 I).TaskList i).vector :=
  (phase0_multi_inv I hchunk hm hps).fine i hi0 hi1

theorem phase0_coarse (I : Saxpy3Input) (hchunk : 0 < I.chunk) (hm : I.ntasks_initial > 1)
    (hps : pslice_ok I.env.Coarse_initial I.bnvec I.ntasks_initial)
    (i : Int) (hi0 : (GB_AxB_saxpy3_phase0 I).nfine ≤ i)
    (hi1 : i < (GB_AxB_saxpy3_phase0 I).ntasks) :
    (GB_AxB_saxpy3_phase0 I).TaskList i =
      coarse_task ((GB_AxB_saxpy3_phase0 I).TaskList i).start
        ((GB_AxB_saxpy3_phase0 I).TaskList i).end_ i I.env.Bflops I.env.cvlen
        I.env.AxB_method ∧
    0 ≤ ((GB_AxB_saxpy3_phase0 I).TaskList i).start ∧
    ((GB_AxB_saxpy3_phase0 I).TaskList i).start ≤ ((GB_AxB_saxpy3_phase0 I).TaskList i).end_ ∧
    ((GB_AxB_saxpy3_phase0 I).TaskList i).end_ < I.bnvec ∧
    ∀ k, ((GB_AxB_saxpy3_phase0 I).TaskList i).start ≤ k →
      k ≤ ((GB_AxB_saxpy3_phase0 I).TaskList i).end_ → ¬ I.env.pulled_out k :=
  (phase0_multi_inv I hchunk hm hps).coarse i hi0 hi1

theorem phase0_cover (I : Saxpy3Input) (hchunk : 0 < I.chunk) (hm : I.ntasks_initial > 1)
    (hps : pslice_ok I.env.Coarse_initial I.bnvec I.ntasks_initial)
    (k : Int) (hk0 : 0 ≤ k) (hk1 : k < I.bnvec) :
    (∃ i, 0 ≤ i ∧ i < (GB_AxB_saxpy3_phase0 I).nfine ∧
      ((GB_AxB_saxpy3_phase0 I).TaskList i).vector = k) ∨
    (∃ i, (GB_AxB_saxpy3_phase0 I).nfine ≤ i ∧ i < (GB_AxB_saxpy3_phase0 I).ntasks ∧
      ((GB_AxB_saxpy3_phase0 I).TaskList i).start ≤ k ∧
      k ≤ ((GB_AxB_saxpy3_phase0 I).TaskList i).end_) :=
  (phase0_multi_inv I hchunk hm hps).cover k hk0 hk1

theorem fine_task_team_size (E : Saxpy3Env) (v m f : Int) :
    (fine_task E v m f).team_size = E.team_size v := rfl

theorem pulled_out_costly (E : Saxpy3Env) (k : Int) (h : E.pulled_out k) : E.costly k = true :=
  h.2

theorem partitions_entries_single (T : Int → GB_saxpy3task_struct) (lo hi : Int)
    (hs : (T 0).start = lo) (he : (T 0).end_ = hi) (hle : lo ≤ hi + 1) :
    partitions_entries T 0 1 lo hi := by
  refine ⟨hs, by simpa using he, ?_, ?_, ?_, ?_⟩
  · intro j h1 h2; omega
  · intro j h1 h2
    have : j = 0 := by omega
    subst this
    omega
  · intro j p h1 h2 h3 h4
    have : j = 0 := by omega
    subst this
    constructor <;> omega
  · intro p h1 h2
    refine ⟨0, ⟨le_refl _, by norm_num, by omega, by omega⟩, ?_⟩
    rintro j ⟨j1, j2, _, _⟩
    omega

/-! ## The capacity of every task -/

theorem coarse_task_hsize (a e i : Int) (B : Int → Int) (L : Int) (m : GrB_Desc_Value) :
    (coarse_task a e i B L m).hsize =
      GB_hash_table_size (coarse_flmax B (e - a + 1).toNat a 1) L m := rfl

theorem fine_task_hsize (E : Saxpy3Env) (v m f : Int) :
    (fine_task E v m f).hsize = GB_hash_table_size (E.jflops v) E.cvlen E.AxB_method := rfl

theorem phase0_hsize (I : Saxpy3Input) (hchunk : 0 < I.chunk)
    (hps : I.ntasks_initial > 1 → pslice_ok I.env.Coarse_initial I.bnvec I.ntasks_initial)
    (t : Int) (ht0 : 0 ≤ t) (ht1 : t < (GB_AxB_saxpy3_phase0 I).ntasks) :
    ((GB_AxB_saxpy3_phase0 I).TaskList t).hsize =
      GB_hash_table_size
        (task_flmax I.env (GB_AxB_saxpy3_phase0 I).TaskList (GB_AxB_saxpy3_phase0 I).nfine t)
        I.cvlen (GB_AxB_saxpy3_phase0 I).AxB_method ∧
    1 ≤ task_flmax I.env (GB_AxB_saxpy3_phase0 I).TaskList (GB_AxB_saxpy3_phase0 I).nfine t := by
  have hmeth : (GB_AxB_saxpy3_phase0 I).AxB_method = I.env.AxB_method := rfl
  have hcv : I.cvlen = I.env.cvlen := rfl
  by_cases hm : I.ntasks_initial > 1
  · have hm2 : I.env.ntasks_initial > 1 := hm
    by_cases hf : t < (GB_AxB_saxpy3_phase0 I).nfine
    · obtain ⟨f1, f2, f3, f4, f5, f6, f7, f8⟩ := phase0_fine I hchunk hm (hps hm) t ht0 hf
      have e := congrArg GB_saxpy3task_struct.hsize (f1 t f3 f4)
      rw [fine_task_hsize] at e
      simp only [task_flmax, if_pos hm2, if_pos hf]
      refine ⟨by rw [e, hmeth, hcv], ?_⟩
      exact jflops_pos_of_costly I.env (le_of_lt (target_sizes_pos I hchunk).1) _
        (pulled_out_costly _ _ f8)
    · have hc := (phase0_coarse I hchunk hm (hps hm) t (by omega) ht1).1
      have e := congrArg GB_saxpy3task_struct.hsize hc
      rw [coarse_task_hsize] at e
      simp only [task_flmax, if_pos hm2, if_neg hf]
      exact ⟨by rw [e, hmeth, hcv], coarse_flmax_ge_one _ _ _ _ (le_refl _)⟩
  · have hm2 : ¬ I.env.ntasks_initial > 1 := hm
    obtain ⟨hT, a, b⟩ := phase0_single_nfine I hm
    have ht : t = 0 := by
      by_cases hb : I.bnvec = 1
      · have := (a hb).2.2; omega
      · have := (b hb).2.2; omega
    subst ht
    simp only [task_flmax, if_neg hm2]
    refine ⟨?_, coarse_flmax_ge_one _ _ _ _ (le_refl _)⟩
    by_cases hb : I.bnvec = 1
    · rw [hT, create_single_fine I.env hb]
      rfl
    · rw [hT, create_single_coarse I.env hb]
      rfl

theorem mask_policy_dense_cheap (I : Saxpy3Input) (hd : I.M_is_dense = true)
    (hmeth : I.AxB_method = GxB_DEFAULT ∨ I.AxB_method = GxB_AxB_SAXPY)
    (hcheap : ((I.Bflops I.bnvec - I.Mwork : Int) : ℚ) <
      ((I.cvlen * I.cvdim : Int) : ℚ) * GB_MWORK_BETA) :
    (GB_AxB_saxpy3_mask_policy I).M_dense_in_place = true ∧
    (GB_AxB_saxpy3_mask_policy I).AxB_method = GxB_AxB_HASH ∧
    (GB_AxB_saxpy3_mask_policy I).Bflops = I.Bflops := by
  unfold GB_AxB_saxpy3_mask_policy
  simp only []
  rw [if_pos ⟨hd, hmeth⟩, if_pos hcheap]
  exact ⟨rfl, rfl, rfl⟩

theorem mask_policy_dense_costly (I : Saxpy3Input) (hd : I.M_is_dense = true)
    (hmeth : I.AxB_method = GxB_DEFAULT ∨ I.AxB_method = GxB_AxB_SAXPY)
    (hcostly : ¬ ((I.Bflops I.bnvec - I.Mwork : Int) : ℚ) <
      ((I.cvlen * I.cvdim : Int) : ℚ) * GB_MWORK_BETA) :
    (GB_AxB_saxpy3_mask_policy I).M_dense_in_place = false ∧
    (GB_AxB_saxpy3_mask_policy I).AxB_method = GxB_AxB_GUSTAVSON ∧
    (∀ kk, 0 ≤ kk → kk ≤ I.bnvec →
      (GB_AxB_saxpy3_mask_policy I).Bflops kk = I.Bflops kk + I.cvlen * (kk + 1)) ∧
    (GB_AxB_saxpy3_mask_policy I).total_flops =
      (GB_AxB_saxpy3_mask_policy I).Bflops I.bnvec := by
  unfold GB_AxB_saxpy3_mask_policy
  simp only []
  rw [if_pos ⟨hd, hmeth⟩, if_neg hcostly]
  refine ⟨rfl, rfl, ?_, rfl⟩
  intro kk h0 h1
  simp only []
  rw [if_pos ⟨h0, h1⟩]

/-! ## The mask policy and the status of `GB_AxB_saxpy3` -/

theorem dense_costly_total_flops (I : Saxpy3Input) (hd : I.M_is_dense = true)
    (hmeth : I.AxB_method = GxB_DEFAULT ∨ I.AxB_method = GxB_AxB_SAXPY)
    (hcostly : ¬ ((I.Bflops I.bnvec - I.Mwork : Int) : ℚ) <
      ((I.cvlen * I.cvdim : Int) : ℚ) * GB_MWORK_BETA)
    (hb : 0 ≤ I.bnvec) :
    (GB_AxB_saxpy3_mask_policy I).total_flops =
      I.Bflops I.bnvec + I.cvlen * (I.bnvec + 1) ∧
    (GB_AxB_saxpy3_mask_policy I).Bflops I.bnvec - (GB_AxB_saxpy3_mask_policy I).Bflops 0 =
      (I.Bflops I.bnvec - I.Bflops 0) + I.cvlen * I.bnvec := by
  obtain ⟨_, _, h3, h4⟩ := mask_policy_dense_costly I hd hmeth hcostly
  rw [h4, h3 I.bnvec hb (le_refl _), h3 0 (le_refl _) hb]
  constructor
  · rfl
  · ring

theorem mask_policy_discard (I : Saxpy3Input) (h : discard_mask I) :
    (GB_AxB_saxpy3_mask_policy I).M_present = false ∧
    (GB_AxB_saxpy3_mask_policy I).Mask_comp = false ∧
    (GB_AxB_saxpy3_mask_policy I).M_dense_in_place = false ∧
    (GB_AxB_saxpy3_mask_policy I).AxB_method = I.AxB_method ∧
    (GB_AxB_saxpy3_mask_policy I).Mwork = I.Mwork_nomask ∧
    (GB_AxB_saxpy3_mask_policy I).Bflops = I.Bflops_nomask ∧
    (GB_AxB_saxpy3_mask_policy I).total_flops = I.Bflops_nomask I.bnvec := by
  obtain ⟨h1, h2, h3⟩ := h
  unfold GB_AxB_saxpy3_mask_policy
  simp only []
  rw [if_neg h1, if_pos ⟨h2, h3⟩]
  exact ⟨rfl, rfl, rfl, rfl, rfl, rfl, rfl⟩

theorem mask_policy_keep (I : Saxpy3Input) (h : ¬ discard_mask I) :
    (GB_AxB_saxpy3_mask_policy I).M_present = I.M_present := by
  unfold GB_AxB_saxpy3_mask_policy
  simp only []
  by_cases h1 : I.M_is_dense = true ∧
      (I.AxB_method = GxB_DEFAULT ∨ I.AxB_method = GxB_AxB_SAXPY)
  · rw [if_pos h1]
    by_cases h2 : ((I.Bflops I.bnvec - I.Mwork : Int) : ℚ) <
        ((I.cvlen * I.cvdim : Int) : ℚ) * GB_MWORK_BETA
    · rw [if_pos h2]
    · rw [if_neg h2]
  · rw [if_neg h1]
    by_cases h3 : I.M_present = true ∧
        ((I.Bflops I.bnvec - I.Mwork : Int) : ℚ) < (I.Mwork : ℚ) * GB_MWORK_ALPHA
    · exact absurd ⟨h1, h3.1, h3.2⟩ h
    · rw [if_neg h3]

theorem saxpy3_mask_applied_le (I : Saxpy3Input) (O : Saxpy3Calls) :
    (GB_AxB_saxpy3 I O).mask_applied = true →
      (GB_AxB_saxpy3_mask_policy I).M_present = true := by
  unfold GB_AxB_saxpy3
  simp only []
  split_ifs <;> first | (intro h; exact absurd h (by decide)) | exact id

/-! ## `GB_iso_AxB` -/

theorem foldl_all_equal {V : Type} (f : V → V → V) (g : V × V → V) (t : V) :
    ∀ (rest : List (V × V)) (c : V), (∀ p ∈ rest, g p = t) →
      rest.foldl (fun c p => f c (g p)) c = (fun c => f c t)^[rest.length] c := by
  intro rest
  induction rest with
  | nil => intro c _; rfl
  | cons p rest ih =>
    intro c h
    simp only [List.foldl_cons, List.length_cons, Function.iterate_succ, Function.comp]
    rw [h p (List.mem_cons_self _ _)]
    exact ih _ (fun q hq => h q (List.mem_cons_of_mem _ hq))

theorem reduce_copies_eq_iterate {V : Type} (f : V → V → V) (t : V) (n : Nat) :
    reduce_copies f t n = (fun c => f c t)^[n] t := by
  induction n with
  | zero => rfl
  | succ n ih =>
    rw [Function.iterate_succ_apply']
    simp only [reduce_copies]
    rw [ih]

theorem reduce_copies_idem {V : Type} (f : V → V → V) (t : V) (h : f t t = t) (n : Nat) :
    reduce_copies f t n = t := by
  induction n with
  | zero => rfl
  | succ n ih => simp only [reduce_copies]; rw [ih, h]

theorem iso_entry_all_equal {V : Type} (P : IsoAxB V) (p0 : V × V) (rest : List (V × V))
    (t : V)
    (h : ∀ p ∈ p0 :: rest,
      P.fmult (P.GB_cast_scalar P.xcode P.acode p.1) (P.GB_cast_scalar P.ycode P.bcode p.2) = t) :
    iso_entry P p0 rest = reduce_copies P.freduce t rest.length := by
  unfold iso_entry
  simp only []
  rw [h p0 (List.mem_cons_self _ _), reduce_copies_eq_iterate]
  exact foldl_all_equal P.freduce _ t rest t (fun q hq => h q (List.mem_cons_of_mem _ hq))

theorem product0_eq {V : Type} (P : IsoAxB V)
    (hcast : ∀ code v, P.GB_cast_scalar code code v = v) :
    P.product0 =
      P.fmult (P.GB_cast_scalar P.xcode P.acode P.Ax0) (P.GB_cast_scalar P.ycode P.bcode P.Bx0) := by
  unfold IsoAxB.product0
  split_ifs with h
  · rw [h.1, h.2, hcast, hcast]
  · rfl

/-! ## Team sizes, team linkage and coarse tasks -/

theorem team_size_ge_two_of_flops (E : Saxpy3Env) (hf0 : 0 < E.target_fine_size)
    (hle : E.target_fine_size ≤ E.target_task_size) (k : Int)
    (h1 : (E.jflops k : ℚ) > 12 / 10 * E.target_task_size) : 2 ≤ E.team_size k := by
  have ht0 : 0 < E.target_task_size := lt_of_lt_of_le hf0 hle
  have hj : (0 : ℚ) ≤ (E.jflops k : ℚ) := by nlinarith
  have h2 := to_double_ge (E.jflops k : ℚ) hj
  have h4 : (999 / 1000 : ℚ) ≤ 1 - 1 / 2 ^ 53 := by norm_num
  exact team_size_ge_two_of_double E hf0 hle k (by nlinarith)

theorem coarse_flmax_one_step (B : Int → Int) (a : Int) :
    coarse_flmax B 1 a 1 = max 1 (B (a + 1) - B a) := by
  simp [coarse_flmax]

theorem tdiv16_nonpos (L : Int) (hL : L < 0) : Int.tdiv L 16 ≤ 0 := by
  have h1 : L = -(-L) := by ring
  have h2 : 0 ≤ Int.tdiv (-L) 16 := Int.tdiv_nonneg (by omega) (by decide)
  rw [h1, Int.neg_tdiv]
  omega

theorem GB_hash_size_pos (f : Int) : 0 < GB_hash_size f := by
  rw [GB_hash_size_eq]
  positivity

theorem GB_hash_size_lt_of_hash_any (f L : Int) (m : GrB_Desc_Value)
    (h : GB_use_Gustavson f L m = false) : GB_hash_size f < L := by
  by_cases hL : 0 ≤ L
  · exact GB_hash_size_lt_of_hash f L m hL h
  · exfalso
    have hp := GB_hash_size_pos f
    have ht := tdiv16_nonpos L (by omega)
    unfold GB_use_Gustavson at h
    split_ifs at h with h1 h2
    · simp at h; omega
    · simp at h; omega

/-! ## The reduction of `GB_create_coarse_task` -/

theorem is_flmax_unique (B : Int → Int) (a b v w : Int) (hv : is_flmax B a b v)
    (hw : is_flmax B a b w) : v = w := by
  obtain ⟨v1, v2, v3⟩ := hv
  obtain ⟨w1, w2, w3⟩ := hw
  rcases v3 with hv1 | ⟨k, k1, k2, hk⟩
  · rcases w3 with hw1 | ⟨j, j1, j2, hj⟩
    · omega
    · have := v2 j j1 j2
      omega
  · have h1 := w2 k k1 k2
    rcases w3 with hw1 | ⟨j, j1, j2, hj⟩
    · omega
    · have h2 := v2 j j1 j2
      omega

theorem is_flmax_empty (B : Int → Int) (a : Int) : is_flmax B a a 1 :=
  ⟨le_refl _, fun k h1 h2 => by omega, Or.inl rfl⟩

theorem is_flmax_merge (B : Int → Int) (a b c v w : Int) (hab : a ≤ b) (hbc : b ≤ c)
    (hv : is_flmax B a b v) (hw : is_flmax B b c w) : is_flmax B a c (max v w) := by
  obtain ⟨v1, v2, v3⟩ := hv
  obtain ⟨w1, w2, w3⟩ := hw
  refine ⟨le_trans v1 (le_max_left _ _), ?_, ?_⟩
  · intro k k1 k2
    by_cases hk : k < b
    · exact le_trans (v2 k k1 hk) (le_max_left _ _)
    · exact le_trans (w2 k (by omega) k2) (le_max_right _ _)
  · rcases le_total v w with h | h
    · rw [max_eq_right h]
      rcases w3 with hw1 | ⟨j, j1, j2, hj⟩
      · exact Or.inl hw1
      · exact Or.inr ⟨j, by omega, j2, hj⟩
    · rw [max_eq_left h]
      rcases v3 with hv1 | ⟨j, j1, j2, hj⟩
      · exact Or.inl hv1
      · exact Or.inr ⟨j, j1, by omega, hj⟩

theorem is_flmax_step (B : Int → Int) (a b v : Int) (hab : a ≤ b) (hv : is_flmax B a b v) :
    is_flmax B a (b + 1) (max v (B (b + 1) - B b)) := by
  obtain ⟨v1, v2, v3⟩ := hv
  refine ⟨le_trans v1 (le_max_left _ _), ?_, ?_⟩
  · intro k k1 k2
    by_cases hk : k < b
    · exact le_trans (v2 k k1 hk) (le_max_left _ _)
    · have : k = b := by omega
      subst this
      exact le_max_right _ _
  · rcases le_total v (B (b + 1) - B b) with h | h
    · rw [max_eq_right h]
      exact Or.inr ⟨b, hab, by omega, rfl⟩
    · rw [max_eq_left h]
      rcases v3 with hv1 | ⟨j, j1, j2, hj⟩
      · exact Or.inl hv1
      · exact Or.inr ⟨j, j1, by omega, hj⟩

theorem coarse_flmax_spec (B : Int → Int) (a : Int) :
    ∀ (n : Nat) (kk f : Int), a ≤ kk → is_flmax B a kk f →
      is_flmax B a (kk + n) (coarse_flmax B n kk f) := by
  intro n
  induction n with
  | zero => intro kk f _ h; simpa [coarse_flmax] using h
  | succ n ih =>
    intro kk f hk h
    simp only [coarse_flmax]
    have := ih (kk + 1) _ (by omega) (is_flmax_step B a kk f hk h)
    have e : kk + 1 + (n : Int) = kk + ((n + 1 : Nat) : Int) := by push_cast; ring
    rw [e] at this
    exact this

theorem thread_flmax_eq (B : Int → Int) (kfirst : Int) :
    ∀ (n : Nat) (i m : Int),
      thread_flmax B kfirst n i m = coarse_flmax B n (kfirst + i) m := by
  intro n
  induction n with
  | zero => intro i m; rfl
  | succ n ih =>
    intro i m
    simp only [thread_flmax, coarse_flmax]
    rw [ih]
    have e : kfirst + (i + 1) = kfirst + i + 1 := by ring
    rw [e]

theorem Coarse_Work_spec (B : Int → Int) (kfirst : Int) (part : Int → Int × Int) (tid : Int)
    (h : (part tid).1 ≤ (part tid).2) :
    is_flmax B (kfirst + (part tid).1) (kfirst + (part tid).2)
      (Coarse_Work B kfirst part tid) := by
  unfold Coarse_Work
  rw [thread_flmax_eq]
  have := coarse_flmax_spec B (kfirst + (part tid).1) ((part tid).2 - (part tid).1).toNat
    (kfirst + (part tid).1) 1 (le_refl _) (is_flmax_empty B _)
  have e : kfirst + (part tid).1 + (((part tid).2 - (part tid).1).toNat : Int) =
      kfirst + (part tid).2 := by
    rw [Int.toNat_of_nonneg (by omega)]
    ring
  rw [e] at this
  exact this

theorem partition_start_nonneg (part : Int → Int × Int) (nk nth : Int)
    (hpart : partition_ok part nk nth) :
    ∀ (e : Nat) (t : Int), t = e → t < nth → 0 ≤ (part t).1 := by
  obtain ⟨p0, _, p2, p3⟩ := hpart
  intro e
  induction e with
  | zero => intro t ht0 _; rw [ht0]; simp [p0]
  | succ e ihe =>
    intro t ht1 hlt
    push_cast at ht1
    have hprev := ihe (t - 1) (by omega) (by omega)
    have h2 := p2 (t - 1) (by omega) (by omega)
    have h3 := p3 (t - 1) (by omega) (by omega)
    have e1 : t - 1 + 1 = t := by ring
    rw [e1] at h3
    omega

theorem combine_flmax_spec (B : Int → Int) (kfirst nk nth : Int) (part : Int → Int × Int)
    (hpart : partition_ok part nk nth) :
    ∀ (n : Nat) (tid f : Int), 0 ≤ tid → tid + n = nth →
      (1 ≤ n → is_flmax B kfirst (kfirst + (part tid).1) f) →
      (n = 0 → is_flmax B kfirst (kfirst + nk) f) →
      is_flmax B kfirst (kfirst + nk)
        (combine_flmax (Coarse_Work B kfirst part) n tid f) := by
  have hnn := partition_start_nonneg part nk nth hpart
  obtain ⟨p0, p1, p2, p3⟩ := hpart
  intro n
  induction n with
  | zero =>
    intro tid f _ _ _ h0
    exact h0 rfl
  | succ n ih =>
    intro tid f ht0 ht1 h1 _
    simp only [combine_flmax]
    push_cast at ht1
    have hlt : tid < nth := by omega
    have hle := p2 tid ht0 hlt
    have hstart : 0 ≤ (part tid).1 := hnn tid.toNat tid (by omega) hlt
    have hW := Coarse_Work_spec B kfirst part tid hle
    have hm := is_flmax_merge B kfirst (kfirst + (part tid).1) (kfirst + (part tid).2) f _
      (by omega) (by omega) (h1 (by omega)) hW
    apply ih (tid + 1) _ (by omega) (by omega)
    · intro hn
      rw [← p3 tid ht0 (by omega)]
      exact hm
    · intro hn
      have ht : tid = nth - 1 := by subst hn; push_cast at ht1; omega
      have hend : (part tid).2 = nk := by rw [ht]; exact p1
      rw [hend] at hm
      exact hm

/-! ## Loops that write an array -/

theorem for_loop_written (body : Int → (Int → Int) → (Int → Int)) (P : Int → Int → Prop)
    (W : Int → Int → Int → Prop)
    (hb : ∀ i C q, (P i q → W i q (body i C q)) ∧ (¬ P i q → body i C q = C q)) :
    ∀ (n : Nat) (a : Int) (C : Int → Int) (q : Int),
      ((∃ i, a ≤ i ∧ i < a + n ∧ P i q) →
        ∃ i, a ≤ i ∧ i < a + n ∧ P i q ∧ W i q (for_loop body n a C q)) ∧
      ((¬ ∃ i, a ≤ i ∧ i < a + n ∧ P i q) → for_loop body n a C q = C q) := by
  intro n
  induction n with
  | zero =>
    intro a C q
    constructor
    · rintro ⟨i, h1, h2, _⟩
      simp at h2
      omega
    · intro _; rfl
  | succ n ih =>
    intro a C q
    simp only [for_loop]
    obtain ⟨ih1, ih2⟩ := ih (a + 1) (body a C) q
    by_cases hex : ∃ i, a + 1 ≤ i ∧ i < a + 1 + n ∧ P i q
    · obtain ⟨i, i1, i2, i3, i4⟩ := ih1 hex
      constructor
      · intro _
        exact ⟨i, by omega, by push_cast; omega, i3, i4⟩
      · intro hn
        exact absurd ⟨i, by omega, by push_cast; omega, i3⟩ hn
    · have hval := ih2 hex
      by_cases hP : P a q
      · constructor
        · intro _
          refine ⟨a, le_refl _, by push_cast; omega, hP, ?_⟩
          rw [hval]
          exact (hb a C q).1 hP
        · intro hn
          exact absurd ⟨a, le_refl _, by push_cast; omega, hP⟩ hn
      · constructor
        · rintro ⟨i, i1, i2, i3⟩
          push_cast at i2
          by_cases hia : i = a
          · subst hia; exact absurd i3 hP
          · exact absurd ⟨i, by omega, by omega, i3⟩ hex
        · intro _
          rw [hval]
          exact (hb a C q).2 hP

/-- Position `q` is written by task `tid` for vector `k`. -/
theorem subassign_25_vector_spec (S : Subassign25) (tid k : Int) (C : Int → Int) (q : Int) :
    (((S.GB_get_pA tid k).1 ≤ q ∧ q < (S.GB_get_pA tid k).2 ∧
        (S.M_is_bitmap = true → S.GBB_Mb q = true)) →
      subassign_25_vector S tid k C q =
        if S.M_is_bitmap then S.Ax q else S.Ax (S.GBH_Mh k * S.avlen + S.GBI_Mi q)) ∧
    (¬ ((S.GB_get_pA tid k).1 ≤ q ∧ q < (S.GB_get_pA tid k).2 ∧
        (S.M_is_bitmap = true → S.GBB_Mb q = true)) →
      subassign_25_vector S tid k C q = C q) := by
  unfold subassign_25_vector
  simp only []
  cases hbm : S.M_is_bitmap
  · simp only [Bool.false_eq_true, if_false, false_implies, and_true]
    have key := for_loop_written
      (fun pM Cx => GB_COPY_A_TO_C Cx pM S.Ax (S.GBH_Mh k * S.avlen + S.GBI_Mi pM))
      (fun pM q => q = pM)
      (fun _ q x => x = S.Ax (S.GBH_Mh k * S.avlen + S.GBI_Mi q))
      (by
        intro i C q
        constructor
        · intro h; subst h; simp [GB_COPY_A_TO_C]
        · intro h; simp [GB_COPY_A_TO_C, h])
      ((S.GB_get_pA tid k).2 - (S.GB_get_pA tid k).1).toNat (S.GB_get_pA tid k).1 C q
    constructor
    · rintro ⟨h1, h2⟩
      obtain ⟨i, _, _, _, hv⟩ := key.1 ⟨q, h1, by omega, rfl⟩
      exact hv
    · intro hn
      apply key.2
      rintro ⟨i, i1, i2, i3⟩
      subst i3
      exact hn ⟨i1, by omega⟩
  · simp only [if_true, true_implies]
    have key := for_loop_written
      (fun pM Cx => if ¬ S.GBB_Mb pM = true then Cx else GB_COPY_A_TO_C Cx pM S.Ax pM)
      (fun pM q => q = pM ∧ S.GBB_Mb pM = true)
      (fun _ q x => x = S.Ax q)
      (by
        intro i C q
        constructor
        · rintro ⟨h, hm⟩; subst h; simp [GB_COPY_A_TO_C, hm]
        · intro h
          by_cases hm : S.GBB_Mb i = true
          · have : q ≠ i := fun e => h ⟨e, hm⟩
            simp [GB_COPY_A_TO_C, hm, this]
          · simp [hm])
      ((S.GB_get_pA tid k).2 - (S.GB_get_pA tid k).1).toNat (S.GB_get_pA tid k).1 C q
    constructor
    · rintro ⟨h1, h2, h3⟩
      obtain ⟨i, _, _, _, hv⟩ := key.1 ⟨q, h1, by omega, rfl, h3⟩
      exact hv
    · intro hn
      apply key.2
      rintro ⟨i, i1, i2, i3, i4⟩
      subst i3
      exact hn ⟨i1, by omega, i4⟩

theorem subassign_25_task_spec (S : Subassign25) (tid : Int) (C : Int → Int) (q : Int) :
    ((∃ k, S.kfirst_slice tid ≤ k ∧ k ≤ S.klast_slice tid ∧
        (S.GB_get_pA tid k).1 ≤ q ∧ q < (S.GB_get_pA tid k).2 ∧
        (S.M_is_bitmap = true → S.GBB_Mb q = true)) →
      ∃ k, S.kfirst_slice tid ≤ k ∧ k ≤ S.klast_slice tid ∧
        (S.GB_get_pA tid k).1 ≤ q ∧ q < (S.GB_get_pA tid k).2 ∧
        (S.M_is_bitmap = true → S.GBB_Mb q = true) ∧
        subassign_25_task S tid C q =
          if S.M_is_bitmap then S.Ax q else S.Ax (S.GBH_Mh k * S.avlen + S.GBI_Mi q)) ∧
    ((¬ ∃ k, S.kfirst_slice tid ≤ k ∧ k ≤ S.klast_slice tid ∧
        (S.GB_get_pA tid k).1 ≤ q ∧ q < (S.GB_get_pA tid k).2 ∧
        (S.M_is_bitmap = true → S.GBB_Mb q = true)) →
      subassign_25_task S tid C q = C q) := by
  have key := for_loop_written (fun k Cx => subassign_25_vector S tid k Cx)
    (fun k q => (S.GB_get_pA tid k).1 ≤ q ∧ q < (S.GB_get_pA tid k).2 ∧
      (S.M_is_bitmap = true → S.GBB_Mb q = true))
    (fun k q x => x = if S.M_is_bitmap then S.Ax q
      else S.Ax (S.GBH_Mh k * S.avlen + S.GBI_Mi q))
    (fun k C q => subassign_25_vector_spec S tid k C q)
    (S.klast_slice tid - S.kfirst_slice tid + 1).toNat (S.kfirst_slice tid) C q
  unfold subassign_25_task
  constructor
  · rintro ⟨k, k1, k2, k3, k4, k5⟩
    obtain ⟨i, i1, i2, ⟨i3, i4, i5⟩, i6⟩ := key.1 ⟨k, k1, by omega, k3, k4, k5⟩
    exact ⟨i, i1, by omega, i3, i4, i5, i6⟩
  · intro hn
    apply key.2
    rintro ⟨k, k1, k2, k3, k4, k5⟩
    exact hn ⟨k, k1, by omega, k3, k4, k5⟩

theorem subassign_25_template_spec (S : Subassign25) (C : Int → Int) (q : Int) :
    ((∃ tid k, 0 ≤ tid ∧ tid < S.ntasks ∧ S.kfirst_slice tid ≤ k ∧ k ≤ S.klast_slice tid ∧
        (S.GB_get_pA tid k).1 ≤ q ∧ q < (S.GB_get_pA tid k).2 ∧
        (S.M_is_bitmap = true → S.GBB_Mb q = true)) →
      ∃ tid k, 0 ≤ tid ∧ tid < S.ntasks ∧ S.kfirst_slice tid ≤ k ∧ k ≤ S.klast_slice tid ∧
        (S.GB_get_pA tid k).1 ≤ q ∧ q < (S.GB_get_pA tid k).2 ∧
        GB_dense_subassign_25_template S C q =
          if S.M_is_bitmap then S.Ax q else S.Ax (S.GBH_Mh k * S.avlen + S.GBI_Mi q)) ∧
    ((¬ ∃ tid k, 0 ≤ tid ∧ tid < S.ntasks ∧ S.kfirst_slice tid ≤ k ∧
        k ≤ S.klast_slice tid ∧
        (S.GB_get_pA tid k).1 ≤ q ∧ q < (S.GB_get_pA tid k).2 ∧
        (S.M_is_bitmap = true → S.GBB_Mb q = true)) →
      GB_dense_subassign_25_template S C q = C q) := by
  have key := for_loop_written (fun tid Cx => subassign_25_task S tid Cx)
    (fun tid q => ∃ k, S.kfirst_slice tid ≤ k ∧ k ≤ S.klast_slice tid ∧
      (S.GB_get_pA tid k).1 ≤ q ∧ q < (S.GB_get_pA tid k).2 ∧
      (S.M_is_bitmap = true → S.GBB_Mb q = true))
    (fun tid q x => ∃ k, S.kfirst_slice tid ≤ k ∧ k ≤ S.klast_slice tid ∧
      (S.GB_get_pA tid k).1 ≤ q ∧ q < (S.GB_get_pA tid k).2 ∧
      (S.M_is_bitmap = true → S.GBB_Mb q = true) ∧
      x = if S.M_is_bitmap then S.Ax q else S.Ax (S.GBH_Mh k * S.avlen + S.GBI_Mi q))
    (fun tid C q => subassign_25_task_spec S tid C q)
    S.ntasks.toNat 0 C q
  unfold GB_dense_subassign_25_template
  constructor
  · rintro ⟨tid, k, t1, t2, k1, k2, k3, k4, k5⟩
    obtain ⟨i, i1, i2, _, ⟨k', a1, a2, a3, a4, _, a6⟩⟩ :=
      key.1 ⟨tid, t1, by omega, k, k1, k2, k3, k4, k5⟩
    exact ⟨i, k', i1, by omega, a1, a2, a3, a4, a6⟩
  · intro hn
    apply key.2
    rintro ⟨tid, t1, t2, k, k1, k2, k3, k4, k5⟩
    exact hn ⟨tid, k, t1, by omega, k1, k2, k3, k4, k5⟩

/-! ## The workspace allocation -/

theorem alloc_task_H (O : Saxpy3Calls) (T : Int → GB_saxpy3task_struct) (taskid : Int)
    (w : WorkState) (i : Int) :
    (alloc_task O T taskid w).H i =
      if i = taskid then (if O.H_ok taskid = true then some (T taskid).hsize else none)
      else w.H i := by
  unfold alloc_task
  simp only []
  by_cases hu : O.ccode_is_UDT = true
  · rw [if_pos hu]
  · rw [if_neg hu]

theorem alloc_fine_H (O : Saxpy3Calls) (T : Int → GB_saxpy3task_struct) :
    ∀ (n : Nat) (a : Int) (w : WorkState) (i : Int),
      (alloc_fine O T n a w).H i =
        if a ≤ i ∧ i < a + n ∧ (T i).master = i then
          (if O.H_ok i = true then some (T i).hsize else none)
        else w.H i := by
  intro n
  induction n with
  | zero =>
    intro a w i
    simp only [alloc_fine]
    rw [if_neg]
    rintro ⟨h1, h2, _⟩
    simp at h2
    omega
  | succ n ih =>
    intro a w i
    simp only [alloc_fine]
    rw [ih]
    by_cases hin : a + 1 ≤ i ∧ i < a + 1 + n ∧ (T i).master = i
    · have h2 : a ≤ i ∧ i < a + ((n + 1 : Nat) : Int) ∧ (T i).master = i :=
        ⟨by omega, by push_cast; omega, hin.2.2⟩
      rw [if_pos hin, if_pos h2]
    · rw [if_neg hin]
      by_cases hia : i = a
      · subst hia
        by_cases hm : i ≠ (T i).master
        · rw [if_pos hm, if_neg]
          rintro ⟨_, _, h⟩
          exact hm h.symm
        · push_neg at hm
          have h2 : i ≤ i ∧ i < i + ((n + 1 : Nat) : Int) ∧ (T i).master = i :=
            ⟨le_refl _, by push_cast; omega, hm.symm⟩
          have h3 : ¬ i ≠ (T i).master := fun h => h hm
          have h4 : i = i := rfl
          rw [if_neg h3, alloc_task_H, if_pos h4, if_pos h2]
      · have hout : ¬ (a ≤ i ∧ i < a + ((n + 1 : Nat) : Int) ∧ (T i).master = i) := by
          rintro ⟨h1, h2, h3⟩
          push_cast at h2
          exact hin ⟨by omega, by omega, h3⟩
        rw [if_neg hout]
        by_cases hm : a ≠ (T a).master
        · rw [if_pos hm]
        · rw [if_neg hm, alloc_task_H, if_neg hia]

theorem alloc_coarse_H (O : Saxpy3Calls) (T : Int → GB_saxpy3task_struct) :
    ∀ (n : Nat) (a : Int) (w : WorkState) (i : Int),
      (alloc_coarse O T n a w).H i =
        if a ≤ i ∧ i < a + n then
          (if O.H_ok i = true then some (T i).hsize else none)
        else w.H i := by
  intro n
  induction n with
  | zero =>
    intro a w i
    simp only [alloc_coarse]
    rw [if_neg]
    rintro ⟨h1, h2⟩
    simp at h2
    omega
  | succ n ih =>
    intro a w i
    simp only [alloc_coarse]
    rw [ih]
    by_cases hin : a + 1 ≤ i ∧ i < a + 1 + n
    · have h2 : a ≤ i ∧ i < a + ((n + 1 : Nat) : Int) := ⟨by omega, by push_cast; omega⟩
      rw [if_pos hin, if_pos h2]
    · rw [if_neg hin, alloc_task_H]
      by_cases hia : i = a
      · subst hia
        have h2 : i ≤ i ∧ i < i + ((n + 1 : Nat) : Int) := ⟨le_refl _, by push_cast; omega⟩
        have h4 : i = i := rfl
        rw [if_pos h4, if_pos h2]
      · have h2 : ¬ (a ≤ i ∧ i < a + ((n + 1 : Nat) : Int)) := by
          rintro ⟨h1, h2⟩
          push_cast at h2
          exact hin ⟨by omega, by omega⟩
        rw [if_neg hia, if_neg h2]

theorem alloc_workspace_H (O : Saxpy3Calls) (R : Saxpy3Tasks) (h0 : 0 ≤ R.nfine)
    (h1 : R.nfine ≤ R.ntasks) (i : Int) :
    (alloc_workspace O R).H i =
      if (R.nfine ≤ i ∧ i < R.ntasks) ∨ (0 ≤ i ∧ i < R.nfine ∧ (R.TaskList i).master = i) then
        (if O.H_ok i = true then some (R.TaskList i).hsize else none)
      else none := by
  unfold alloc_workspace
  simp only []
  rw [alloc_coarse_H, alloc_fine_H]
  rw [Int.toNat_of_nonneg (by omega), Int.toNat_of_nonneg h0]
  by_cases hc : R.nfine ≤ i ∧ i < R.nfine + (R.ntasks - R.nfine)
  · have h2 : (R.nfine ≤ i ∧ i < R.ntasks) ∨
        (0 ≤ i ∧ i < R.nfine ∧ (R.TaskList i).master = i) := Or.inl ⟨hc.1, by omega⟩
    rw [if_pos hc, if_pos h2]
  · rw [if_neg hc]
    by_cases hf : 0 ≤ i ∧ i < 0 + R.nfine ∧ (R.TaskList i).master = i
    · have h2 : (R.nfine ≤ i ∧ i < R.ntasks) ∨
          (0 ≤ i ∧ i < R.nfine ∧ (R.TaskList i).master = i) :=
        Or.inr ⟨hf.1, by omega, hf.2.2⟩
      rw [if_pos hf, if_pos h2]
    · have h2 : ¬ ((R.nfine ≤ i ∧ i < R.ntasks) ∨
          (0 ≤ i ∧ i < R.nfine ∧ (R.TaskList i).master = i)) := by
        rintro (⟨a, b⟩ | ⟨a, b, c⟩)
        · exact hc ⟨a, by omega⟩
        · exact hf ⟨a, by omega, c⟩
      rw [if_neg hf, if_neg h2]

theorem phase0_counts (I : Saxpy3Input) (hchunk : 0 < I.chunk)
    (hps : I.ntasks_initial > 1 → pslice_ok I.env.Coarse_initial I.bnvec I.ntasks_initial) :
    0 ≤ (GB_AxB_saxpy3_phase0 I).nfine ∧ 0 ≤ (GB_AxB_saxpy3_phase0 I).ncoarse ∧
    (GB_AxB_saxpy3_phase0 I).ntasks =
      (GB_AxB_saxpy3_phase0 I).nfine + (GB_AxB_saxpy3_phase0 I).ncoarse := by
  have hsum : (GB_AxB_saxpy3_phase0 I).ntasks =
      (GB_AxB_saxpy3_phase0 I).nfine + (GB_AxB_saxpy3_phase0 I).ncoarse := by
    simp only [GB_AxB_saxpy3_phase0]; ring
  by_cases hm : I.ntasks_initial > 1
  · have inv := phase0_multi_inv I hchunk hm (hps hm)
    have a : 0 ≤ (GB_AxB_saxpy3_phase0 I).nfine := inv.nf_nonneg
    have b : (GB_AxB_saxpy3_phase0 I).nfine ≤ (GB_AxB_saxpy3_phase0 I).ntasks := inv.nc_ge
    exact ⟨a, by omega, hsum⟩
  · obtain ⟨_, h1, h2⟩ := phase0_single_nfine I hm
    by_cases hb : I.bnvec = 1
    · have := h1 hb
      exact ⟨by omega, by omega, hsum⟩
    · have := h2 hb
      exact ⟨by omega, by omega, hsum⟩

theorem phase0_coarse_master (I : Saxpy3Input) (hchunk : 0 < I.chunk)
    (hps : I.ntasks_initial > 1 → pslice_ok I.env.Coarse_initial I.bnvec I.ntasks_initial)
    (t : Int) (ht0 : (GB_AxB_saxpy3_phase0 I).nfine ≤ t)
    (ht1 : t < (GB_AxB_saxpy3_phase0 I).ntasks) :
    ((GB_AxB_saxpy3_phase0 I).TaskList t).master = t := by
  by_cases hm : I.ntasks_initial > 1
  · have hc := (phase0_coarse I hchunk hm (hps hm) t ht0 ht1).1
    rw [hc]
    rfl
  · obtain ⟨hT, h1, h2⟩ := phase0_single_nfine I hm
    have hb : I.bnvec ≠ 1 := by
      intro hb
      have := h1 hb
      omega
    have := h2 hb
    have ht : t = 0 := by omega
    subst ht
    rw [hT, create_single_coarse I.env hb]
    rfl

/-! ## The slots the creation pass writes -/

theorem trace_step_refl (r : TaskTrace) : trace_step r r := by
  refine ⟨le_refl _, le_refl _, ?_⟩
  intro i
  rw [if_neg (by omega), if_neg (by omega)]
  rfl

theorem trace_step_trans (a b c : TaskTrace) (h1 : trace_step a b) (h2 : trace_step b c) :
    trace_step a c := by
  obtain ⟨a1, a2, a3⟩ := h1
  obtain ⟨b1, b2, b3⟩ := h2
  refine ⟨le_trans a1 b1, le_trans a2 b2, ?_⟩
  intro i
  rw [b3 i, a3 i]
  split_ifs <;> omega

theorem count_append_singleton (l : List Int) (x i : Int) :
    (l ++ [x]).count i = l.count i + (if x = i then 1 else 0) := by
  rw [List.count_append, List.count_singleton]
  simp

theorem trace_step_fine_write (r : TaskTrace) (T : Int → GB_saxpy3task_struct) :
    trace_step r
      { s := { TaskList := T, nf := r.s.nf + 1, nc := r.s.nc }, log := r.log ++ [r.s.nf] } := by
  refine ⟨by simp, le_refl _, ?_⟩
  intro i
  simp only []
  rw [count_append_singleton]
  split_ifs <;> omega

theorem trace_step_coarse_write (r : TaskTrace) (T : Int → GB_saxpy3task_struct) :
    trace_step r
      { s := { TaskList := T, nf := r.s.nf, nc := r.s.nc + 1 }, log := r.log ++ [r.s.nc] } := by
  refine ⟨le_refl _, by simp, ?_⟩
  intro i
  simp only []
  rw [count_append_singleton]
  split_ifs <;> omega

theorem fine_team_loop_trace_step (E : Saxpy3Env) (kk m : Int) :
    ∀ (n : Nat) (fid : Int) (r : TaskTrace),
      trace_step r (fine_team_loop_trace E kk m n fid r) := by
  intro n
  induction n with
  | zero => intro fid r; exact trace_step_refl r
  | succ n ih =>
    intro fid r
    simp only [fine_team_loop_trace]
    exact trace_step_trans _ _ _ (trace_step_fine_write r _) (ih _ _)

theorem create_kk_trace_step (E : Saxpy3Env) (kk : Int) (st : Int × TaskTrace) :
    trace_step st.2 (create_kk_trace E kk st).2 := by
  unfold create_kk_trace
  by_cases hc : E.costly kk = true
  · rw [if_pos hc]
    simp only []
    by_cases hlt : st.1 < kk
    · rw [if_pos hlt]
      exact trace_step_trans _ _ _ (trace_step_coarse_write st.2 _)
        (fine_team_loop_trace_step E kk _ _ _ _)
    · rw [if_neg hlt]
      exact fine_team_loop_trace_step E kk _ _ _ _
  · rw [if_neg hc]
    exact trace_step_refl _

theorem create_inner_trace_step (E : Saxpy3Env) :
    ∀ (n : Nat) (kk : Int) (st : Int × TaskTrace),
      trace_step st.2 (create_inner_trace E n kk st).2 := by
  intro n
  induction n with
  | zero => intro kk st; exact trace_step_refl _
  | succ n ih =>
    intro kk st
    simp only [create_inner_trace]
    exact trace_step_trans _ _ _ (create_kk_trace_step E kk st) (ih _ _)

theorem create_task_trace_step (E : Saxpy3Env) (taskid : Int) (r : TaskTrace) :
    trace_step r (create_task_trace E taskid r) := by
  unfold create_task_trace
  simp only []
  by_cases h0 : E.Coarse_initial (taskid + 1) - E.Coarse_initial taskid = 0
  · rw [if_pos h0]
    exact trace_step_refl _
  · rw [if_neg h0]
    by_cases hc : E.task_costly (E.Coarse_initial taskid) (E.Coarse_initial (taskid + 1)) = true
    · rw [if_pos hc]
      have hin := create_inner_trace_step E
        (E.Coarse_initial (taskid + 1) - E.Coarse_initial taskid).toNat
        (E.Coarse_initial taskid) (E.Coarse_initial taskid, r)
      split_ifs
      · exact trace_step_trans _ _ _ hin (trace_step_coarse_write _ _)
      · exact hin
    · rw [if_neg hc]
      exact trace_step_coarse_write r _

theorem create_outer_trace_step (E : Saxpy3Env) :
    ∀ (n : Nat) (taskid : Int) (r : TaskTrace),
      trace_step r (create_outer_trace E n taskid r) := by
  intro n
  induction n with
  | zero => intro taskid r; exact trace_step_refl _
  | succ n ih =>
    intro taskid r
    simp only [create_outer_trace]
    exact trace_step_trans _ _ _ (create_task_trace_step E taskid r) (ih _ _)

theorem fine_team_loop_trace_s (E : Saxpy3Env) (kk m : Int) :
    ∀ (n : Nat) (fid : Int) (r : TaskTrace),
      (fine_team_loop_trace E kk m n fid r).s = fine_team_loop E kk m n fid r.s := by
  intro n
  induction n with
  | zero => intro fid r; rfl
  | succ n ih =>
    intro fid r
    simp only [fine_team_loop_trace, fine_team_loop]
    rw [ih]

theorem create_kk_trace_s (E : Saxpy3Env) (kk : Int) (st : Int × TaskTrace) :
    (create_kk_trace E kk st).1 = (create_kk E kk (st.1, st.2.s)).1 ∧
    (create_kk_trace E kk st).2.s = (create_kk E kk (st.1, st.2.s)).2 := by
  unfold create_kk_trace create_kk
  by_cases hc : E.costly kk = true
  · rw [if_pos hc, if_pos hc]
    refine ⟨?_, ?_⟩
    · rfl
    · show (fine_team_loop_trace E kk _ _ 0 _).s = fine_team_loop E kk _ _ 0 _
      rw [fine_team_loop_trace_s]
      by_cases hlt : st.1 < kk
      · simp [hlt]
      · simp [hlt]
  · rw [if_neg hc, if_neg hc]
    exact ⟨rfl, rfl⟩

theorem create_inner_trace_s (E : Saxpy3Env) :
    ∀ (n : Nat) (kk : Int) (st : Int × TaskTrace),
      (create_inner_trace E n kk st).1 = (create_inner E n kk (st.1, st.2.s)).1 ∧
      (create_inner_trace E n kk st).2.s = (create_inner E n kk (st.1, st.2.s)).2 := by
  intro n
  induction n with
  | zero => intro kk st; exact ⟨rfl, rfl⟩
  | succ n ih =>
    intro kk st
    simp only [create_inner_trace, create_inner]
    obtain ⟨h1, h2⟩ := create_kk_trace_s E kk st
    obtain ⟨i1, i2⟩ := ih (kk + 1) (create_kk_trace E kk st)
    rw [h1, h2] at i1 i2
    exact ⟨i1, i2⟩

theorem create_task_trace_s (E : Saxpy3Env) (taskid : Int) (r : TaskTrace) :
    (create_task_trace E taskid r).s = create_task E taskid r.s := by
  unfold create_task_trace create_task
  simp only []
  by_cases h0 : E.Coarse_initial (taskid + 1) - E.Coarse_initial taskid = 0
  · rw [if_pos h0, if_pos h0]
  · rw [if_neg h0, if_neg h0]
    by_cases hc : E.task_costly (E.Coarse_initial taskid) (E.Coarse_initial (taskid + 1)) = true
    · rw [if_pos hc, if_pos hc]
      obtain ⟨i1, i2⟩ := create_inner_trace_s E
        (E.Coarse_initial (taskid + 1) - E.Coarse_initial taskid).toNat
        (E.Coarse_initial taskid) (E.Coarse_initial taskid, r)
      simp only [] at i1 i2
      rw [← i1, ← i2]
      split_ifs <;> rfl
    · rw [if_neg hc, if_neg hc]

theorem create_outer_trace_s (E : Saxpy3Env) :
    ∀ (n : Nat) (taskid : Int) (r : TaskTrace),
      (create_outer_trace E n taskid r).s = create_outer E n taskid r.s := by
  intro n
  induction n with
  | zero => intro taskid r; rfl
  | succ n ih =>
    intro taskid r
    simp only [create_outer_trace, create_outer]
    rw [ih, create_task_trace_s]

theorem create_multi_trace_s (E : Saxpy3Env) (nfine : Int) :
    (create_multi_trace E nfine).s = create_multi E nfine := by
  unfold create_multi_trace create_multi
  rw [create_outer_trace_s]

/-! ## The counting pass never decreases its counters -/

theorem count_kk_mono (E : Saxpy3Env) (hnn : ∀ k, E.costly k = true → 0 ≤ E.team_size k)
    (kk : Int) (st : Int × TaskCount) :
    st.2.nfine ≤ (count_kk E kk st).2.nfine ∧ st.2.ncoarse ≤ (count_kk E kk st).2.ncoarse ∧
    st.2.max_bjnz ≤ (count_kk E kk st).2.max_bjnz := by
  unfold count_kk
  by_cases hc : E.costly kk = true
  · rw [if_pos hc]
    have := hnn kk hc
    refine ⟨?_, ?_, ?_⟩
    · show st.2.nfine ≤ st.2.nfine + E.team_size kk
      omega
    · show st.2.ncoarse ≤ if st.1 < kk then st.2.ncoarse + 1 else st.2.ncoarse
      split_ifs <;> omega
    · show st.2.max_bjnz ≤ max st.2.max_bjnz (E.bjnz kk)
      exact le_max_left _ _
  · rw [if_neg hc]
    exact ⟨le_refl _, le_refl _, le_refl _⟩

theorem count_kk_visit (E : Saxpy3Env) (kk : Int) (st : Int × TaskCount)
    (hc : E.costly kk = true) :
    st.2.nfine + E.team_size kk ≤ (count_kk E kk st).2.nfine ∧
    E.bjnz kk ≤ (count_kk E kk st).2.max_bjnz := by
  unfold count_kk
  rw [if_pos hc]
  refine ⟨?_, ?_⟩
  · show st.2.nfine + E.team_size kk ≤ st.2.nfine + E.team_size kk
    exact le_refl _
  · show E.bjnz kk ≤ max st.2.max_bjnz (E.bjnz kk)
    exact le_max_right _ _

theorem count_inner_mono (E : Saxpy3Env) (hnn : ∀ k, E.costly k = true → 0 ≤ E.team_size k) :
    ∀ (n : Nat) (kk : Int) (st : Int × TaskCount),
      st.2.nfine ≤ (count_inner E n kk st).2.nfine ∧
      st.2.ncoarse ≤ (count_inner E n kk st).2.ncoarse ∧
      st.2.max_bjnz ≤ (count_inner E n kk st).2.max_bjnz := by
  intro n
  induction n with
  | zero => intro kk st; exact ⟨le_refl _, le_refl _, le_refl _⟩
  | succ n ih =>
    intro kk st
    simp only [count_inner]
    obtain ⟨a1, a2, a3⟩ := count_kk_mono E hnn kk st
    obtain ⟨b1, b2, b3⟩ := ih (kk + 1) (count_kk E kk st)
    exact ⟨le_trans a1 b1, le_trans a2 b2, le_trans a3 b3⟩

theorem count_inner_visit (E : Saxpy3Env)
    (hnn : ∀ k, E.costly k = true → 0 ≤ E.team_size k) :
    ∀ (n : Nat) (kk : Int) (st : Int × TaskCount) (k : Int), kk ≤ k → k < kk + n →
      E.costly k = true →
      st.2.nfine + E.team_size k ≤ (count_inner E n kk st).2.nfine ∧
      E.bjnz k ≤ (count_inner E n kk st).2.max_bjnz := by
  intro n
  induction n with
  | zero => intro kk st k h1 h2; simp at h2; omega
  | succ n ih =>
    intro kk st k h1 h2 hc
    simp only [count_inner]
    by_cases hk : k = kk
    · subst hk
      obtain ⟨a1, a2⟩ := count_kk_visit E k st hc
      obtain ⟨b1, _, b3⟩ := count_inner_mono E hnn n (k + 1) (count_kk E k st)
      exact ⟨le_trans a1 b1, le_trans a2 b3⟩
    · obtain ⟨a1, _, _⟩ := count_kk_mono E hnn kk st
      obtain ⟨b1, b2⟩ := ih (kk + 1) (count_kk E kk st) k (by omega)
        (by push_cast at h2; omega) hc
      exact ⟨by omega, b2⟩

theorem count_task_mono (E : Saxpy3Env) (hnn : ∀ k, E.costly k = true → 0 ≤ E.team_size k)
    (t : Int) (c : TaskCount) :
    c.nfine ≤ (count_task E t c).nfine ∧ c.ncoarse ≤ (count_task E t c).ncoarse ∧
    c.max_bjnz ≤ (count_task E t c).max_bjnz := by
  unfold count_task
  simp only []
  by_cases h0 : E.Coarse_initial (t + 1) - E.Coarse_initial t = 0
  · rw [if_pos h0]
    exact ⟨le_refl _, le_refl _, le_refl _⟩
  · rw [if_neg h0]
    by_cases hc : E.task_costly (E.Coarse_initial t) (E.Coarse_initial (t + 1)) = true
    · rw [if_pos hc]
      obtain ⟨a1, a2, a3⟩ := count_inner_mono E hnn
        (E.Coarse_initial (t + 1) - E.Coarse_initial t).toNat (E.Coarse_initial t)
        (E.Coarse_initial t, c)
      simp only [] at a1 a2 a3
      split_ifs
      · exact ⟨a1, by show c.ncoarse ≤ _ + 1; omega, a3⟩
      · exact ⟨a1, a2, a3⟩
    · rw [if_neg hc]
      exact ⟨le_refl _, by show c.ncoarse ≤ c.ncoarse + 1; omega, le_refl _⟩

theorem count_task_visit (E : Saxpy3Env) (hnn : ∀ k, E.costly k = true → 0 ≤ E.team_size k)
    (t : Int) (c : TaskCount) (k : Int) (h1 : E.Coarse_initial t ≤ k)
    (h2 : k < E.Coarse_initial (t + 1))
    (ht : E.task_costly (E.Coarse_initial t) (E.Coarse_initial (t + 1)) = true)
    (hc : E.costly k = true) :
    c.nfine + E.team_size k ≤ (count_task E t c).nfine ∧
    E.bjnz k ≤ (count_task E t c).max_bjnz := by
  unfold count_task
  simp only []
  have h0 : ¬ E.Coarse_initial (t + 1) - E.Coarse_initial t = 0 := by omega
  rw [if_neg h0, if_pos ht]
  have hn : E.Coarse_initial t +
      ((E.Coarse_initial (t + 1) - E.Coarse_initial t).toNat : Int) =
      E.Coarse_initial (t + 1) := by
    rw [Int.toNat_of_nonneg (by omega)]; ring
  obtain ⟨a1, a2⟩ := count_inner_visit E hnn
    (E.Coarse_initial (t + 1) - E.Coarse_initial t).toNat (E.Coarse_initial t)
    (E.Coarse_initial t, c) k h1 (by rw [hn]; exact h2) hc
  simp only [] at a1 a2
  split_ifs
  · exact ⟨a1, a2⟩
  · exact ⟨a1, a2⟩

theorem count_outer_mono (E : Saxpy3Env) (hnn : ∀ k, E.costly k = true → 0 ≤ E.team_size k) :
    ∀ (n : Nat) (t : Int) (c : TaskCount),
      c.nfine ≤ (count_outer E n t c).nfine ∧ c.ncoarse ≤ (count_outer E n t c).ncoarse ∧
      c.max_bjnz ≤ (count_outer E n t c).max_bjnz := by
  intro n
  induction n with
  | zero => intro t c; exact ⟨le_refl _, le_refl _, le_refl _⟩
  | succ n ih =>
    intro t c
    simp only [count_outer]
    obtain ⟨a1, a2, a3⟩ := count_task_mono E hnn t c
    obtain ⟨b1, b2, b3⟩ := ih (t + 1) (count_task E t c)
    exact ⟨le_trans a1 b1, le_trans a2 b2, le_trans a3 b3⟩

theorem count_outer_visit (E : Saxpy3Env)
    (hnn : ∀ k, E.costly k = true → 0 ≤ E.team_size k) :
    ∀ (n : Nat) (t0 : Int) (c : TaskCount) (t k : Int), t0 ≤ t → t < t0 + n →
      E.Coarse_initial t ≤ k → k < E.Coarse_initial (t + 1) →
      E.task_costly (E.Coarse_initial t) (E.Coarse_initial (t + 1)) = true →
      E.costly k = true →
      c.nfine + E.team_size k ≤ (count_outer E n t0 c).nfine ∧
      E.bjnz k ≤ (count_outer E n t0 c).max_bjnz := by
  intro n
  induction n with
  | zero => intro t0 c t k h1 h2; simp at h2; omega
  | succ n ih =>
    intro t0 c t k h1 h2 k1 k2 ht hc
    simp only [count_outer]
    by_cases hk : t = t0
    · subst hk
      obtain ⟨a1, a2⟩ := count_task_visit E hnn t c k k1 k2 ht hc
      obtain ⟨b1, _, b3⟩ := count_outer_mono E hnn n (t + 1) (count_task E t c)
      exact ⟨le_trans a1 b1, le_trans a2 b3⟩
    · obtain ⟨a1, _, _⟩ := count_task_mono E hnn t0 c
      obtain ⟨b1, b2⟩ := ih (t0 + 1) (count_task E t0 c) t k (by omega)
        (by push_cast at h2; omega) k1 k2 ht hc
      exact ⟨by omega, b2⟩

/-- The counters of the counting pass bound the team and column of every vector
the creation pass splits. -/
theorem count_tasks_visit (E : Saxpy3Env) (hnn : ∀ k, E.costly k = true → 0 ≤ E.team_size k)
    (hm : E.ntasks_initial > 1) (k : Int) (hp : E.pulled_out k) :
    E.team_size k ≤ (count_tasks E).nfine ∧ 0 ≤ (count_tasks E).ncoarse ∧
    E.bjnz k ≤ (count_tasks E).max_bjnz := by
  obtain ⟨⟨t, t0, t1, k1, k2, ht⟩, hc⟩ := hp
  unfold count_tasks
  rw [if_pos hm]
  obtain ⟨a1, a2⟩ := count_outer_visit E hnn E.ntasks_initial.toNat 0
    { nfine := 0, ncoarse := 0, max_bjnz := 0 } t k t0
    (by rw [Int.toNat_of_nonneg (by omega)]; omega) k1 k2 ht hc
  obtain ⟨_, b2, _⟩ := count_outer_mono E hnn E.ntasks_initial.toNat 0
    { nfine := 0, ncoarse := 0, max_bjnz := 0 }
  simp only [] at a1 b2
  exact ⟨by omega, b2, a2⟩

/-! # The claims -/

/-- Claim C1 (amended): for a flop count `f ≥ 1`, whenever the Hash method is
selected the returned capacity is `2 * 2 ^ k` with `k = ⌊log2 f⌋ + 1`, and
`2 ^ k` is the smallest power of two strictly greater than `f`; `k` equals
`⌈log2 f⌉` exactly when `f` is not a power of two. -/
theorem hash_capacity_twice_next_pow2 (f L : Int) (m : GrB_Desc_Value) (hf : 1 ≤ f)
    (hH : GB_use_Gustavson f L m = false) :
    ∃ k : Nat, GB_hash_table_size f L m = 2 * 2 ^ k ∧ k = Nat.log 2 f.toNat + 1 ∧
      f < 2 ^ k ∧ (∀ j : Nat, f < 2 ^ j → k ≤ j) ∧
      ((∀ e : Nat, f ≠ 2 ^ e) → k = Nat.clog 2 f.toNat) := by
  refine ⟨Nat.log 2 f.toNat + 1, ?_, rfl, lt_two_pow_log_succ f, ?_, ?_⟩
  · rw [GB_hash_table_size_of_hash f L m hH, GB_hash_size_eq]
  · intro j hj
    have h1 := two_pow_log_le f hf
    have h2 : (2 : Int) ^ Nat.log 2 f.toNat < 2 ^ j := lt_of_le_of_lt h1 hj
    have h3 : Nat.log 2 f.toNat < j := by
      by_contra hc
      push_neg at hc
      have : (2 : Int) ^ j ≤ 2 ^ Nat.log 2 f.toNat := pow_le_pow_right₀ (by norm_num) hc
      omega
    omega
  · intro hne
    have hfn : (f.toNat : Int) = f := Int.toNat_of_nonneg (by omega)
    apply le_antisymm
    · have hc : f.toNat ≤ 2 ^ Nat.clog 2 f.toNat := Nat.le_pow_clog Nat.one_lt_two _
      have hne2 : f.toNat ≠ 2 ^ Nat.clog 2 f.toNat := by
        intro he
        apply hne (Nat.clog 2 f.toNat)
        have h4 : ((f.toNat : Nat) : Int) = ((2 ^ Nat.clog 2 f.toNat : Nat) : Int) :=
          congrArg Nat.cast he
        push_cast at h4
        rw [hfn] at h4
        exact h4
      have hlt : f.toNat < 2 ^ Nat.clog 2 f.toNat := lt_of_le_of_ne hc hne2
      have := (Nat.lt_pow_iff_log_lt Nat.one_lt_two (by omega : f.toNat ≠ 0)).1 hlt
      omega
    · apply (Nat.le_pow_iff_clog_le Nat.one_lt_two).1
      exact le_of_lt (Nat.lt_pow_succ_log_self Nat.one_lt_two _)

/-- Witness of claim C1 (amended) at `f = 4`, `L = 1000`, default hint. -/
theorem hash_capacity_twice_next_pow2_witness :
    (1 : Int) ≤ 4 ∧ GB_use_Gustavson 4 1000 GxB_DEFAULT = false ∧
    ∃ k : Nat, GB_hash_table_size 4 1000 GxB_DEFAULT = 2 * 2 ^ k ∧
      k = Nat.log 2 (4 : Int).toNat + 1 ∧
      (4 : Int) < 2 ^ k ∧ (∀ j : Nat, (4 : Int) < 2 ^ j → k ≤ j) ∧
      ((∀ e : Nat, (4 : Int) ≠ 2 ^ e) → k = Nat.clog 2 (4 : Int).toNat) :=
  ⟨by decide, by decide, hash_capacity_twice_next_pow2 4 1000 GxB_DEFAULT (by decide) (by decide)⟩

/-- Counterexample to claim C1 as stated: at the powers of two `f = 1` and
`f = 4` the Hash method is selected and the capacity is 4 and 16, while
`2 * 2 ^ ⌈log2 f⌉` is 2 and 8. -/
theorem hash_capacity_not_twice_pow2_ge :
    GB_use_Gustavson 1 100 GxB_DEFAULT = false ∧
    GB_hash_table_size 1 100 GxB_DEFAULT = 4 ∧
    (2 * 2 ^ Nat.clog 2 (1 : Int).toNat : Int) = 2 ∧
    GB_use_Gustavson 4 1000 GxB_DEFAULT = false ∧
    GB_hash_table_size 4 1000 GxB_DEFAULT = 16 ∧
    (2 * 2 ^ Nat.clog 2 (4 : Int).toNat : Int) = 8 := by
  refine ⟨by decide, by decide, by simp, by decide, by decide, ?_⟩
  have : Nat.clog 2 (4 : Int).toNat = 2 := by
    have : (4 : Int).toNat = 2 ^ 2 := by decide
    rw [this, Nat.clog_pow 2 2 Nat.one_lt_two]
  rw [this]; norm_num

/-- Claim C2: for `f ≥ 1` and `L ≥ 0` the capacity `GB_hash_table_size` returns
never exceeds `L`, and when Gustavson is not chosen it is twice a power of two,
at least `2 * f` (and at most `4 * f`). -/
theorem hash_capacity_le_cvlen_ge_2f (f L : Int) (m : GrB_Desc_Value) (hf : 1 ≤ f)
    (hL : 0 ≤ L) :
    GB_hash_table_size f L m ≤ L ∧
    (GB_use_Gustavson f L m = false →
      (∃ k : Nat, GB_hash_table_size f L m = 2 * 2 ^ k) ∧ GB_hash_table_size f L m ≥ 2 * f ∧
        GB_hash_table_size f L m ≤ 4 * f) := by
  constructor
  · cases h : GB_use_Gustavson f L m
    · rw [GB_hash_table_size_of_hash f L m h]
      exact le_of_lt (GB_hash_size_lt_of_hash f L m hL h)
    · rw [GB_hash_table_size_of_gus f L m h]
  · intro h
    rw [GB_hash_table_size_of_hash f L m h]
    refine ⟨⟨_, GB_hash_size_eq f⟩, le_of_lt (GB_hash_size_gt f), ?_⟩
    rw [GB_hash_size_eq, pow_succ]
    have := two_pow_log_le f hf
    omega

/-- Witness of claim C2 at `f = 3`, `L = 1000`, default hint. -/
theorem hash_capacity_le_cvlen_ge_2f_witness :
    (1 : Int) ≤ 3 ∧ (0 : Int) ≤ 1000 ∧ GB_use_Gustavson 3 1000 GxB_DEFAULT = false ∧
    GB_hash_table_size 3 1000 GxB_DEFAULT ≤ 1000 ∧
    GB_hash_table_size 3 1000 GxB_DEFAULT ≥ 2 * 3 :=
  ⟨by decide, by decide, by decide,
    (hash_capacity_le_cvlen_ge_2f 3 1000 GxB_DEFAULT (by decide) (by decide)).1,
    ((hash_capacity_le_cvlen_ge_2f 3 1000 GxB_DEFAULT (by decide) (by decide)).2 (by decide)).2.1⟩

/-- Claim C3 (amended): with `h = GB_hash_size f` the capacity computed for
`f ≥ 1` (`2 * f < h ≤ 4 * f`), `GB_hash_table_size` returns `L` when Gustavson
is forced, when Hash is forced and `h ≥ L`, or when selection is automatic and
`h ≥ L / 16` (truncating division); it returns `h` in every other case. -/
theorem hash_selection_rule (f L : Int) (m : GrB_Desc_Value) (hf : 1 ≤ f) :
    GB_hash_size f = 4 * 2 ^ Nat.log 2 f.toNat ∧ 2 * f < GB_hash_size f ∧
    GB_hash_size f ≤ 4 * f ∧
    (m = GxB_AxB_GUSTAVSON → GB_hash_table_size f L m = L) ∧
    (m = GxB_AxB_HASH → GB_hash_size f ≥ L → GB_hash_table_size f L m = L) ∧
    (m = GxB_AxB_HASH → GB_hash_size f < L → GB_hash_table_size f L m = GB_hash_size f) ∧
    (m ≠ GxB_AxB_GUSTAVSON → m ≠ GxB_AxB_HASH → GB_hash_size f ≥ Int.tdiv L 16 →
      GB_hash_table_size f L m = L) ∧
    (m ≠ GxB_AxB_GUSTAVSON → m ≠ GxB_AxB_HASH → GB_hash_size f < Int.tdiv L 16 →
      GB_hash_table_size f L m = GB_hash_size f) := by
  refine ⟨?_, GB_hash_size_gt f, ?_, ?_, ?_, ?_, ?_, ?_⟩
  · rw [GB_hash_size_eq, pow_succ]; ring
  · rw [GB_hash_size_eq, pow_succ]
    have := two_pow_log_le f hf
    omega
  · intro h; subst h; simp [GB_hash_table_size, GB_use_Gustavson]
  · intro h hge; subst h; simp [GB_hash_table_size, GB_use_Gustavson, hge]
  · intro h hlt; subst h
    simp [GB_hash_table_size, GB_use_Gustavson]
    intro hge; omega
  · intro h1 h2 hge
    simp [GB_hash_table_size, GB_use_Gustavson, h1, h2, hge]
  · intro h1 h2 hlt
    simp [GB_hash_table_size, GB_use_Gustavson, h1, h2]
    intro hge; omega

/-- Witness of claim C3 (amended) at `f = 1`: `h = 4`; with `L = 64` the
automatic selection returns `L`, with `L = 80` it returns `h`. -/
theorem hash_selection_rule_witness :
    (1 : Int) ≤ 1 ∧ GB_hash_size 1 = 4 ∧ GB_hash_table_size 1 64 GxB_DEFAULT = 64 ∧
    GB_hash_table_size 1 80 GxB_DEFAULT = 4 :=
  ⟨by decide, by decide,
    (hash_selection_rule 1 64 GxB_DEFAULT (by decide)).2.2.2.2.2.2.1 (by decide) (by decide)
      (by decide),
    ((hash_selection_rule 1 80 GxB_DEFAULT (by decide)).2.2.2.2.2.2.2 (by decide) (by decide)
      (by decide)).trans (by decide)⟩

/-- Counterexample to claim C3 as stated: under automatic selection with `f = 1`
and `L = 64` the capacity `h = 4` does not exceed `L / 16 = 4`, yet the function
returns `L = 64`, not `h`. -/
theorem hash_selection_boundary_is_gustavson :
    GB_hash_size 1 = 4 ∧ Int.tdiv 64 16 = 4 ∧ ¬ (GB_hash_size 1 > Int.tdiv 64 16) ∧
    GB_hash_table_size 1 64 GxB_DEFAULT = 64 ∧
    GB_hash_table_size 1 64 GxB_DEFAULT ≠ GB_hash_size 1 := by
  decide

/-- Claim C4: when the initial slice `Coarse_initial` is non-decreasing from `0`
to `bnvec` (and `chunk > 0`), every vector `k` in `0 .. bnvec-1` either lies in
the range of exactly one coarse task and is the vector of no fine task, or is
the vector of exactly one fine team (one master) and lies in the range of no
coarse task. -/
theorem task_partition_covers_each_vector_once (I : Saxpy3Input) (hchunk : 0 < I.chunk)
    (hps : I.ntasks_initial > 1 → pslice_ok I.env.Coarse_initial I.bnvec I.ntasks_initial)
    (k : Int) (hk0 : 0 ≤ k) (hk1 : k < I.bnvec) :
    ((∃! t, (GB_AxB_saxpy3_phase0 I).nfine ≤ t ∧ t < (GB_AxB_saxpy3_phase0 I).ntasks ∧
        ((GB_AxB_saxpy3_phase0 I).TaskList t).start ≤ k ∧
        k ≤ ((GB_AxB_saxpy3_phase0 I).TaskList t).end_) ∧
      (∀ t, 0 ≤ t → t < (GB_AxB_saxpy3_phase0 I).nfine →
        ((GB_AxB_saxpy3_phase0 I).TaskList t).vector ≠ k)) ∨
    ((∃! m, ∃ t, 0 ≤ t ∧ t < (GB_AxB_saxpy3_phase0 I).nfine ∧
        ((GB_AxB_saxpy3_phase0 I).TaskList t).vector = k ∧
        ((GB_AxB_saxpy3_phase0 I).TaskList t).master = m) ∧
      (∀ t, (GB_AxB_saxpy3_phase0 I).nfine ≤ t → t < (GB_AxB_saxpy3_phase0 I).ntasks →
        ¬ (((GB_AxB_saxpy3_phase0 I).TaskList t).start ≤ k ∧
          k ≤ ((GB_AxB_saxpy3_phase0 I).TaskList t).end_))) := by
  by_cases hm : I.ntasks_initial > 1
  · exact (phase0_multi_inv I hchunk hm (hps hm)).cover_once k hk0 hk1
  · obtain ⟨hT, h1, h2⟩ := phase0_single_nfine I hm
    by_cases hb : I.bnvec = 1
    · obtain ⟨a1, a2, a3⟩ := h1 hb
      right
      rw [a1, a3, hT]
      have hk : k = 0 := by omega
      subst hk
      have h0 := create_single_fine I.env hb
      refine ⟨⟨0, ⟨0, le_refl _, by norm_num, by rw [h0], by rw [h0]; rfl⟩, ?_⟩, ?_⟩
      · rintro m ⟨t, ht0, ht1, _, htm⟩
        have : t = 0 := by omega
        subst this
        rw [← htm, h0]; rfl
      · intro t ht0 ht1; omega
    · obtain ⟨a1, a2, a3⟩ := h2 hb
      left
      rw [a1, a3, hT]
      have h0 := create_single_coarse I.env hb
      have hs : (create_single I.env 0).start = 0 := by rw [h0]; rfl
      have he : (create_single I.env 0).end_ = I.bnvec - 1 := by rw [h0]; rfl
      refine ⟨⟨0, ⟨le_refl _, by norm_num, by rw [hs]; exact hk0, by rw [he]; omega⟩, ?_⟩, ?_⟩
      · rintro t ⟨ht0, ht1, _, _⟩; omega
      · intro t ht0 ht1; omega

/-- Witness of claim C4: the input `input_fine_team` (two threads, three
vectors) at the vector `k = 2`. -/
theorem task_partition_covers_each_vector_once_witness :
    (0 : ℚ) < input_fine_team.chunk ∧ (0 : Int) ≤ 2 ∧ 2 < input_fine_team.bnvec ∧
    (((∃! t, (GB_AxB_saxpy3_phase0 input_fine_team).nfine ≤ t ∧
        t < (GB_AxB_saxpy3_phase0 input_fine_team).ntasks ∧
        ((GB_AxB_saxpy3_phase0 input_fine_team).TaskList t).start ≤ 2 ∧
        2 ≤ ((GB_AxB_saxpy3_phase0 input_fine_team).TaskList t).end_) ∧
      (∀ t, 0 ≤ t → t < (GB_AxB_saxpy3_phase0 input_fine_team).nfine →
        ((GB_AxB_saxpy3_phase0 input_fine_team).TaskList t).vector ≠ 2)) ∨
    ((∃! m, ∃ t, 0 ≤ t ∧ t < (GB_AxB_saxpy3_phase0 input_fine_team).nfine ∧
        ((GB_AxB_saxpy3_phase0 input_fine_team).TaskList t).vector = 2 ∧
        ((GB_AxB_saxpy3_phase0 input_fine_team).TaskList t).master = m) ∧
      (∀ t, (GB_AxB_saxpy3_phase0 input_fine_team).nfine ≤ t →
        t < (GB_AxB_saxpy3_phase0 input_fine_team).ntasks →
        ¬ (((GB_AxB_saxpy3_phase0 input_fine_team).TaskList t).start ≤ 2 ∧
          2 ≤ ((GB_AxB_saxpy3_phase0 input_fine_team).TaskList t).end_)))) :=
  ⟨by decide!, by decide, by decide,
    task_partition_covers_each_vector_once input_fine_team (by decide!)
      (fun _ => unit_pslice_ok input_fine_team.env.Bflops 3 4 (by decide) (by decide)) 2
      (by decide) (by decide)⟩

/-- Claim C5: when `GB_pslice` returns for every costly vector a non-decreasing
`Fine_slice` from `0` to `nnz (B (:,j))` (and `B` is well formed when it has a
single vector), the fine team of any fine task `t` occupies the slots
`master .. master + team_size - 1`, all for the same vector, and the entry
ranges of its members are consecutive (`next.start = prev.end + 1`) and hold
every entry position of that vector, `Bp [kk] .. Bp [kk+1] - 1`, exactly once. -/
theorem fine_team_partitions_column_entries (I : Saxpy3Input) (hchunk : 0 < I.chunk)
    (hps : I.ntasks_initial > 1 → pslice_ok I.env.Coarse_initial I.bnvec I.ntasks_initial)
    (hfs : ∀ v, I.env.costly v = true →
      pslice_ok (I.env.Fine_slice v) (I.env.bjnz v) (I.env.team_size v))
    (hB : ¬ I.ntasks_initial > 1 → I.bnvec = 1 →
      I.GBP_Bp 0 = 0 ∧ I.env.bjnz 0 = I.bnz ∧ 0 ≤ I.bnz)
    (t : Int) (ht0 : 0 ≤ t) (ht1 : t < (GB_AxB_saxpy3_phase0 I).nfine) :
    1 ≤ ((GB_AxB_saxpy3_phase0 I).TaskList t).team_size ∧
    0 ≤ ((GB_AxB_saxpy3_phase0 I).TaskList t).master ∧
    ((GB_AxB_saxpy3_phase0 I).TaskList t).master ≤ t ∧
    t < ((GB_AxB_saxpy3_phase0 I).TaskList t).master +
      ((GB_AxB_saxpy3_phase0 I).TaskList t).team_size ∧
    ((GB_AxB_saxpy3_phase0 I).TaskList t).master +
      ((GB_AxB_saxpy3_phase0 I).TaskList t).team_size ≤ (GB_AxB_saxpy3_phase0 I).nfine ∧
    (∀ j, ((GB_AxB_saxpy3_phase0 I).TaskList t).master ≤ j →
      j < ((GB_AxB_saxpy3_phase0 I).TaskList t).master +
        ((GB_AxB_saxpy3_phase0 I).TaskList t).team_size →
      ((GB_AxB_saxpy3_phase0 I).TaskList j).vector =
        ((GB_AxB_saxpy3_phase0 I).TaskList t).vector ∧
      ((GB_AxB_saxpy3_phase0 I).TaskList j).master =
        ((GB_AxB_saxpy3_phase0 I).TaskList t).master ∧
      ((GB_AxB_saxpy3_phase0 I).TaskList j).team_size =
        ((GB_AxB_saxpy3_phase0 I).TaskList t).team_size) ∧
    partitions_entries (GB_AxB_saxpy3_phase0 I).TaskList
      ((GB_AxB_saxpy3_phase0 I).TaskList t).master
      ((GB_AxB_saxpy3_phase0 I).TaskList t).team_size
      (I.GBP_Bp ((GB_AxB_saxpy3_phase0 I).TaskList t).vector)
      (I.GBP_Bp ((GB_AxB_saxpy3_phase0 I).TaskList t).vector +
        I.env.bjnz ((GB_AxB_saxpy3_phase0 I).TaskList t).vector - 1) ∧
    (∀ Bp : Int → Int, I.Bp = some Bp →
      I.GBP_Bp ((GB_AxB_saxpy3_phase0 I).TaskList t).vector =
        Bp ((GB_AxB_saxpy3_phase0 I).TaskList t).vector →
      partitions_entries (GB_AxB_saxpy3_phase0 I).TaskList
        ((GB_AxB_saxpy3_phase0 I).TaskList t).master
        ((GB_AxB_saxpy3_phase0 I).TaskList t).team_size
        (Bp ((GB_AxB_saxpy3_phase0 I).TaskList t).vector)
        (Bp (((GB_AxB_saxpy3_phase0 I).TaskList t).vector + 1) - 1)) := by
  have key : ∀ (v m n : Int), ((GB_AxB_saxpy3_phase0 I).TaskList t).vector = v →
      ((GB_AxB_saxpy3_phase0 I).TaskList t).master = m →
      ((GB_AxB_saxpy3_phase0 I).TaskList t).team_size = n →
      partitions_entries (GB_AxB_saxpy3_phase0 I).TaskList m n (I.GBP_Bp v)
        (I.GBP_Bp v + I.env.bjnz v - 1) →
      (∀ Bp : Int → Int, I.Bp = some Bp → I.GBP_Bp v = Bp v →
        partitions_entries (GB_AxB_saxpy3_phase0 I).TaskList m n (Bp v) (Bp (v + 1) - 1)) := by
    intro v m n _ _ _ hp Bp hBp hG
    have hb : I.env.bjnz v = Bp (v + 1) - Bp v := by
      simp [Saxpy3Env.bjnz, Saxpy3Input.env, hBp]
    rw [hb, hG] at hp
    have : Bp v + (Bp (v + 1) - Bp v) - 1 = Bp (v + 1) - 1 := by ring
    rw [this] at hp
    exact hp
  by_cases hm : I.ntasks_initial > 1
  · obtain ⟨f1, f2, f3, f4, f5, f6, f7, f8⟩ := phase0_fine I hchunk hm (hps hm) t ht0 ht1
    have hc := pulled_out_costly _ _ f8
    have hn := env_team_size_ge_two I hchunk _ hc
    have hts : ((GB_AxB_saxpy3_phase0 I).TaskList t).team_size =
        I.env.team_size ((GB_AxB_saxpy3_phase0 I).TaskList t).vector := by
      have := congrArg GB_saxpy3task_struct.team_size (f1 t f3 f4)
      rw [fine_task_team_size] at this
      exact this
    obtain ⟨q1, q2⟩ := fine_team_partition I.env _ _ _ f1 (by omega) (hfs _ hc)
    rw [← hts] at q1 q2 f4 f5 hn
    exact ⟨by omega, f2, f3, f4, f5, q1, q2, key _ _ _ rfl rfl rfl q2⟩
  · obtain ⟨hT, h1, _⟩ := phase0_single_nfine I hm
    have hb : I.bnvec = 1 := by
      by_contra hb
      have := (phase0_single_nfine I hm).2.2 hb
      omega
    obtain ⟨a1, a2, a3⟩ := h1 hb
    obtain ⟨b1, b2, b3⟩ := hB hm hb
    have ht : t = 0 := by omega
    subst ht
    have h0 := create_single_fine I.env hb
    rw [← hT] at h0
    have e1 : ((GB_AxB_saxpy3_phase0 I).TaskList 0).vector = 0 := by rw [h0]
    have e2 : ((GB_AxB_saxpy3_phase0 I).TaskList 0).master = 0 := by rw [h0]; rfl
    have e3 : ((GB_AxB_saxpy3_phase0 I).TaskList 0).team_size = 1 := by rw [h0]; rfl
    have e4 : ((GB_AxB_saxpy3_phase0 I).TaskList 0).start = 0 := by rw [h0]
    have e5 : ((GB_AxB_saxpy3_phase0 I).TaskList 0).end_ = I.bnz - 1 := by rw [h0]; rfl
    have hp : partitions_entries (GB_AxB_saxpy3_phase0 I).TaskList 0 1 (I.GBP_Bp 0)
        (I.GBP_Bp 0 + I.env.bjnz 0 - 1) := by
      apply partitions_entries_single
      · rw [e4, b1]
      · rw [e5, b1, b2]; ring
      · rw [b1, b2]; omega
    have hk := key 0 0 1 e1 e2 e3 hp
    rw [e1, e2, e3, a1]
    refine ⟨le_refl _, le_refl _, le_refl _, by norm_num, by norm_num, ?_, hp, hk⟩
    intro j j1 j2
    have : j = 0 := by omega
    subst this
    exact ⟨e1, e2, e3⟩

/-- Witness of claim C5: the input `input_fine_team` at the fine task `t = 3`,
a member of the team of seven tasks for vector 2. -/
theorem fine_team_partitions_column_entries_witness :
    (0 : ℚ) < input_fine_team.chunk ∧ (3 : Int) < (GB_AxB_saxpy3_phase0 input_fine_team).nfine ∧
    partitions_entries (GB_AxB_saxpy3_phase0 input_fine_team).TaskList
      ((GB_AxB_saxpy3_phase0 input_fine_team).TaskList 3).master
      ((GB_AxB_saxpy3_phase0 input_fine_team).TaskList 3).team_size
      (input_fine_team.GBP_Bp ((GB_AxB_saxpy3_phase0 input_fine_team).TaskList 3).vector)
      (input_fine_team.GBP_Bp ((GB_AxB_saxpy3_phase0 input_fine_team).TaskList 3).vector +
        input_fine_team.env.bjnz ((GB_AxB_saxpy3_phase0 input_fine_team).TaskList 3).vector - 1) :=
  ⟨by decide!, by decide!,
    (fine_team_partitions_column_entries input_fine_team (by decide!)
      (fun _ => unit_pslice_ok input_fine_team.env.Bflops 3 4 (by decide) (by decide))
      (fun v hc => unit_pslice_ok (input_fine_team.env.Bflops2 v) (input_fine_team.env.bjnz v)
        (input_fine_team.env.team_size v)
        (by have := ((costly_iff _ v).1 hc).2; omega)
        (by have := env_team_size_ge_two input_fine_team (by decide!) v hc; omega))
      (fun h => absurd (by decide! : input_fine_team.ntasks_initial > 1) h)
      3 (by decide) (by decide!)).2.2.2.2.2.2.1⟩

/-- Claim C6: in the task list (of `ntasks = nfine + ncoarse` tasks) every task
with id below `nfine` is a fine task (`vector ≥ 0`) and every task with id from
`nfine` on is a coarse task (`vector = -1`, `master` its own id, `team_size = 1`),
so `t < nfine` holds exactly when task `t` is fine. -/
theorem fine_tasks_first_then_coarse (I : Saxpy3Input) (hchunk : 0 < I.chunk)
    (hps : I.ntasks_initial > 1 → pslice_ok I.env.Coarse_initial I.bnvec I.ntasks_initial)
    (t : Int) (ht0 : 0 ≤ t) (ht1 : t < (GB_AxB_saxpy3_phase0 I).ntasks) :
    (GB_AxB_saxpy3_phase0 I).ntasks =
      (GB_AxB_saxpy3_phase0 I).nfine + (GB_AxB_saxpy3_phase0 I).ncoarse ∧
    (t < (GB_AxB_saxpy3_phase0 I).nfine → 0 ≤ ((GB_AxB_saxpy3_phase0 I).TaskList t).vector) ∧
    ((GB_AxB_saxpy3_phase0 I).nfine ≤ t →
      ((GB_AxB_saxpy3_phase0 I).TaskList t).vector = -1 ∧
      ((GB_AxB_saxpy3_phase0 I).TaskList t).master = t ∧
      ((GB_AxB_saxpy3_phase0 I).TaskList t).team_size = 1) ∧
    (t < (GB_AxB_saxpy3_phase0 I).nfine ↔ 0 ≤ ((GB_AxB_saxpy3_phase0 I).TaskList t).vector) := by
  have hsum : (GB_AxB_saxpy3_phase0 I).ntasks =
      (GB_AxB_saxpy3_phase0 I).nfine + (GB_AxB_saxpy3_phase0 I).ncoarse := by
    simp only [GB_AxB_saxpy3_phase0]; ring
  have hfine : t < (GB_AxB_saxpy3_phase0 I).nfine →
      0 ≤ ((GB_AxB_saxpy3_phase0 I).TaskList t).vector := by
    intro h
    by_cases hm : I.ntasks_initial > 1
    · exact (phase0_fine I hchunk hm (hps hm) t ht0 h).2.2.2.2.2.1
    · obtain ⟨hT, h1, h2⟩ := phase0_single_nfine I hm
      have hb : I.bnvec = 1 := by
        by_contra hb
        have := h2 hb
        omega
      have := h1 hb
      have ht : t = 0 := by omega
      subst ht
      rw [hT, create_single_fine I.env hb]
  have hcoarse : (GB_AxB_saxpy3_phase0 I).nfine ≤ t →
      ((GB_AxB_saxpy3_phase0 I).TaskList t).vector = -1 ∧
      ((GB_AxB_saxpy3_phase0 I).TaskList t).master = t ∧
      ((GB_AxB_saxpy3_phase0 I).TaskList t).team_size = 1 := by
    intro h
    by_cases hm : I.ntasks_initial > 1
    · have hc := (phase0_coarse I hchunk hm (hps hm) t h ht1).1
      exact ⟨by rw [hc]; rfl, by rw [hc]; rfl, by rw [hc]; rfl⟩
    · obtain ⟨hT, h1, h2⟩ := phase0_single_nfine I hm
      have hb : I.bnvec ≠ 1 := by
        intro hb
        have := h1 hb
        omega
      have := h2 hb
      have ht : t = 0 := by omega
      subst ht
      rw [hT, create_single_coarse I.env hb]
      exact ⟨rfl, rfl, rfl⟩
  refine ⟨hsum, hfine, hcoarse, hfine, ?_⟩
  intro hv
  by_contra hlt
  have := (hcoarse (by omega)).1
  omega

/-- Witness of claim C6: the input `input_fine_team` at the coarse task `t = 7`
(seven fine tasks come first). -/
theorem fine_tasks_first_then_coarse_witness :
    (0 : ℚ) < input_fine_team.chunk ∧
    (7 : Int) < (GB_AxB_saxpy3_phase0 input_fine_team).ntasks ∧
    ((7 : Int) < (GB_AxB_saxpy3_phase0 input_fine_team).nfine ↔
      0 ≤ ((GB_AxB_saxpy3_phase0 input_fine_team).TaskList 7).vector) :=
  ⟨by decide!, by decide!,
    (fine_tasks_first_then_coarse input_fine_team (by decide!)
      (fun _ => unit_pslice_ok input_fine_team.env.Bflops 3 4 (by decide) (by decide))
      7 (by decide) (by decide!)).2.2.2⟩

/-- Claim C7 (amended): when more than one initial partition is used, a vector
`k` of B is given to a fine team if and only if it is pulled out, that is: its
initial coarse task has more than `2 * 1.2 * target_task_size` flops, its own
flop count exceeds `1.2 * target_task_size`, and it has more than one entry,
where the flop counts and both products are the `double` values the code
compares; every other vector lies in a coarse task, and no pulled-out vector
does. -/
theorem costly_vector_rule (I : Saxpy3Input) (hchunk : 0 < I.chunk)
    (hm : I.ntasks_initial > 1)
    (hps : pslice_ok I.env.Coarse_initial I.bnvec I.ntasks_initial)
    (k : Int) (hk0 : 0 ≤ k) (hk1 : k < I.bnvec) :
    ((∃ t, 0 ≤ t ∧ t < (GB_AxB_saxpy3_phase0 I).nfine ∧
        ((GB_AxB_saxpy3_phase0 I).TaskList t).vector = k) ↔ I.env.pulled_out k) ∧
    ((∃ t, (GB_AxB_saxpy3_phase0 I).nfine ≤ t ∧ t < (GB_AxB_saxpy3_phase0 I).ntasks ∧
        ((GB_AxB_saxpy3_phase0 I).TaskList t).start ≤ k ∧
        k ≤ ((GB_AxB_saxpy3_phase0 I).TaskList t).end_) ↔ ¬ I.env.pulled_out k) ∧
    (I.env.pulled_out k ↔
      ((∃ t, 0 ≤ t ∧ t < I.ntasks_initial ∧ I.env.Coarse_initial t ≤ k ∧
          k < I.env.Coarse_initial (t + 1) ∧
          to_double ((I.env.Bflops (I.env.Coarse_initial (t + 1)) -
            I.env.Bflops (I.env.Coarse_initial t) : Int) : ℚ) >
              double_mul (double_mul 2 (to_double (12 / 10))) I.target_task_size) ∧
        to_double (I.env.jflops k : ℚ) > double_mul (to_double (12 / 10)) I.target_task_size ∧
        I.env.bjnz k > 1)) := by
  have hfine : ∀ t, 0 ≤ t → t < (GB_AxB_saxpy3_phase0 I).nfine →
      ((GB_AxB_saxpy3_phase0 I).TaskList t).vector = k → I.env.pulled_out k := by
    intro t h0 h1 hv
    have := (phase0_fine I hchunk hm hps t h0 h1).2.2.2.2.2.2.2
    rw [hv] at this
    exact this
  have hcoarse : ∀ t, (GB_AxB_saxpy3_phase0 I).nfine ≤ t →
      t < (GB_AxB_saxpy3_phase0 I).ntasks →
      ((GB_AxB_saxpy3_phase0 I).TaskList t).start ≤ k →
      k ≤ ((GB_AxB_saxpy3_phase0 I).TaskList t).end_ → ¬ I.env.pulled_out k := by
    intro t h0 h1 h2 h3
    exact (phase0_coarse I hchunk hm hps t h0 h1).2.2.2.2 k h2 h3
  have hcov := phase0_cover I hchunk hm hps k hk0 hk1
  refine ⟨⟨?_, ?_⟩, ⟨?_, ?_⟩, ?_⟩
  · rintro ⟨t, h0, h1, hv⟩
    exact hfine t h0 h1 hv
  · intro hp
    rcases hcov with h | ⟨t, h0, h1, h2, h3⟩
    · exact h
    · exact absurd hp (hcoarse t h0 h1 h2 h3)
  · rintro ⟨t, h0, h1, h2, h3⟩
    exact hcoarse t h0 h1 h2 h3
  · intro hp
    rcases hcov with ⟨t, h0, h1, hv⟩ | h
    · exact absurd (hfine t h0 h1 hv) hp
    · exact h
  · unfold Saxpy3Env.pulled_out Saxpy3Env.split_task
    rw [costly_iff]
    simp only [Saxpy3Env.task_costly, decide_eq_true_eq, GB_COSTLY]
    exact Iff.rfl

/-- Witness of claim C7 (amended): the input `input_rounded_threshold` at the
vector `k = 0`.  Its initial coarse task holds 14 flops; in exact arithmetic
`2 * 1.2 * (35 / 6)` is 14, and the `double` product `2 * 1.2 *
target_task_size` lies just below 14 (as `1.2 * target_task_size` lies just
below 7), so the vector is pulled out and given the fine team of the tasks
`0 .. 4`. -/
theorem costly_vector_rule_witness :
    (0 : ℚ) < input_rounded_threshold.chunk ∧ input_rounded_threshold.ntasks_initial > 1 ∧
    input_rounded_threshold.target_task_size = to_double (35 / 6) ∧
    (2 : ℚ) * (12 / 10) * (35 / 6) = 14 ∧
    double_mul (double_mul 2 (to_double (12 / 10))) input_rounded_threshold.target_task_size
      < 14 ∧
    double_mul (to_double (12 / 10)) input_rounded_threshold.target_task_size < 7 ∧
    (GB_AxB_saxpy3_phase0 input_rounded_threshold).nfine = 5 ∧
    ((GB_AxB_saxpy3_phase0 input_rounded_threshold).TaskList 0).vector = 0 ∧
    ((∃ t, 0 ≤ t ∧ t < (GB_AxB_saxpy3_phase0 input_rounded_threshold).nfine ∧
        ((GB_AxB_saxpy3_phase0 input_rounded_threshold).TaskList t).vector = 0) ↔
      input_rounded_threshold.env.pulled_out 0) :=
  ⟨by decide!, by decide!, by decide!, by norm_num, by decide!, by decide!, by decide!,
    by decide!,
    (costly_vector_rule input_rounded_threshold (by decide!) (by decide!)
      (unit_pslice_ok input_rounded_threshold.env.Bflops 4 6 (by decide) (by decide))
      0 (by decide) (by decide)).1⟩

/-- Counterexample to claim C7 as stated: for `input_folded_column` more than
one initial partition is used, vector 0 has more than `1.2 * target_task_size`
flops (exactly, and by the `double` test of the code) and two entries, yet no
fine task is created and vector 0 lies in the coarse task 0. -/
theorem costly_vector_folded_into_coarse_task :
    input_folded_column.ntasks_initial > 1 ∧
    (input_folded_column.env.jflops 0 : ℚ) > 12 / 10 * input_folded_column.target_task_size ∧
    to_double (input_folded_column.env.jflops 0 : ℚ) >
      double_mul GB_COSTLY input_folded_column.target_task_size ∧
    input_folded_column.env.bjnz 0 > 1 ∧
    (GB_AxB_saxpy3_phase0 input_folded_column).nfine = 0 ∧
    (GB_AxB_saxpy3_phase0 input_folded_column).ntasks = 2 ∧
    ((GB_AxB_saxpy3_phase0 input_folded_column).TaskList 0).vector = -1 ∧
    ((GB_AxB_saxpy3_phase0 input_folded_column).TaskList 0).start ≤ 0 ∧
    0 ≤ ((GB_AxB_saxpy3_phase0 input_folded_column).TaskList 0).end_ := by
  decide!

/-- Claim C8 (amended): when one thread is used (`ntasks_initial = 1`) the task
list has exactly one task.  If B has more or fewer than one vector it is a
coarse task over all vectors `0 .. bnvec-1` (`nfine = 0`, `ncoarse = 1`); if B
is a single vector it is a fine task (`nfine = 1`, `ncoarse = 0`) for vector 0
over the entries `0 .. bnz-1`. -/
theorem single_thread_single_task (I : Saxpy3Input) (h1 : I.nthreads = 1) :
    I.ntasks_initial = 1 ∧ (GB_AxB_saxpy3_phase0 I).ntasks = 1 ∧
    (I.bnvec ≠ 1 →
      (GB_AxB_saxpy3_phase0 I).nfine = 0 ∧ (GB_AxB_saxpy3_phase0 I).ncoarse = 1 ∧
      ((GB_AxB_saxpy3_phase0 I).TaskList 0).vector = -1 ∧
      ((GB_AxB_saxpy3_phase0 I).TaskList 0).start = 0 ∧
      ((GB_AxB_saxpy3_phase0 I).TaskList 0).end_ = I.bnvec - 1) ∧
    (I.bnvec = 1 →
      (GB_AxB_saxpy3_phase0 I).nfine = 1 ∧ (GB_AxB_saxpy3_phase0 I).ncoarse = 0 ∧
      ((GB_AxB_saxpy3_phase0 I).TaskList 0).vector = 0 ∧
      ((GB_AxB_saxpy3_phase0 I).TaskList 0).start = 0 ∧
      ((GB_AxB_saxpy3_phase0 I).TaskList 0).end_ = I.bnz - 1 ∧
      ((GB_AxB_saxpy3_phase0 I).TaskList 0).master = 0 ∧
      ((GB_AxB_saxpy3_phase0 I).TaskList 0).team_size = 1) := by
  have hn : I.ntasks_initial = 1 := by simp [Saxpy3Input.ntasks_initial, h1]
  have hm : ¬ I.ntasks_initial > 1 := by omega
  obtain ⟨hT, a, b⟩ := phase0_single_nfine I hm
  refine ⟨hn, ?_, ?_, ?_⟩
  · by_cases hb : I.bnvec = 1
    · exact (a hb).2.2
    · exact (b hb).2.2
  · intro hb
    have h0 := create_single_coarse I.env hb
    rw [← hT] at h0
    exact ⟨(b hb).1, (b hb).2.1, by rw [h0]; rfl, by rw [h0]; rfl, by rw [h0]; rfl⟩
  · intro hb
    have h0 := create_single_fine I.env hb
    rw [← hT] at h0
    exact ⟨(a hb).1, (a hb).2.1, by rw [h0], by rw [h0], by rw [h0]; rfl, by rw [h0]; rfl,
      by rw [h0]; rfl⟩

/-- Witness of claim C8 (amended): the input `input_single_thread`, one thread
and four vectors. -/
theorem single_thread_single_task_witness :
    input_single_thread.nthreads = 1 ∧ input_single_thread.bnvec ≠ 1 ∧
    (GB_AxB_saxpy3_phase0 input_single_thread).nfine = 0 ∧
    (GB_AxB_saxpy3_phase0 input_single_thread).ncoarse = 1 ∧
    ((GB_AxB_saxpy3_phase0 input_single_thread).TaskList 0).vector = -1 ∧
    ((GB_AxB_saxpy3_phase0 input_single_thread).TaskList 0).start = 0 ∧
    ((GB_AxB_saxpy3_phase0 input_single_thread).TaskList 0).end_ =
      input_single_thread.bnvec - 1 :=
  ⟨by decide!, by decide,
    (single_thread_single_task input_single_thread (by decide!)).2.2.1 (by decide)⟩

/-- Counterexample to claim C8 as stated: for `input_single_vector` (one thread,
B a single vector) the task list is one fine task, `nfine = 1` and
`ncoarse = 0`. -/
theorem single_vector_single_thread_is_fine_task :
    input_single_vector.nthreads = 1 ∧ input_single_vector.ntasks_initial = 1 ∧
    input_single_vector.bnvec = 1 ∧
    (GB_AxB_saxpy3_phase0 input_single_vector).nfine = 1 ∧
    (GB_AxB_saxpy3_phase0 input_single_vector).ncoarse = 0 ∧
    ((GB_AxB_saxpy3_phase0 input_single_vector).TaskList 0).vector = 0 ∧
    ((GB_AxB_saxpy3_phase0 input_single_vector).TaskList 0).start = 0 ∧
    ((GB_AxB_saxpy3_phase0 input_single_vector).TaskList 0).end_ = 2 := by
  decide!

/-- Claim C9 (amended): when the mask is dense, the hint is default and the A*B
flop count is below `0.10 * cvlen * cvdim`, `M_dense_in_place` is set, the hint
becomes force-Hash, and every task gets the capacity `GB_hash_table_size` gives
under that hint for its flop count `flmax ≥ 1`: the hash capacity (which
differs from `cvlen`) when that capacity is below `cvlen`, and `cvlen` when the
hash capacity reaches `cvlen`. -/
theorem dense_in_place_forces_hash_hint (I : Saxpy3Input) (hchunk : 0 < I.chunk)
    (hps : I.ntasks_initial > 1 → pslice_ok I.env.Coarse_initial I.bnvec I.ntasks_initial)
    (hd : I.M_is_dense = true)
    (hmeth : I.AxB_method = GxB_DEFAULT ∨ I.AxB_method = GxB_AxB_SAXPY)
    (hcheap : ((I.Bflops I.bnvec - I.Mwork : Int) : ℚ) <
      ((I.cvlen * I.cvdim : Int) : ℚ) * GB_MWORK_BETA)
    (t : Int) (ht0 : 0 ≤ t) (ht1 : t < (GB_AxB_saxpy3_phase0 I).ntasks) :
    (GB_AxB_saxpy3_phase0 I).M_dense_in_place = true ∧
    (GB_AxB_saxpy3_phase0 I).AxB_method = GxB_AxB_HASH ∧
    1 ≤ task_flmax I.env (GB_AxB_saxpy3_phase0 I).TaskList (GB_AxB_saxpy3_phase0 I).nfine t ∧
    ((GB_AxB_saxpy3_phase0 I).TaskList t).hsize =
      GB_hash_table_size
        (task_flmax I.env (GB_AxB_saxpy3_phase0 I).TaskList (GB_AxB_saxpy3_phase0 I).nfine t)
        I.cvlen GxB_AxB_HASH ∧
    (GB_hash_size
        (task_flmax I.env (GB_AxB_saxpy3_phase0 I).TaskList (GB_AxB_saxpy3_phase0 I).nfine t) <
        I.cvlen →
      ((GB_AxB_saxpy3_phase0 I).TaskList t).hsize =
        GB_hash_size
          (task_flmax I.env (GB_AxB_saxpy3_phase0 I).TaskList (GB_AxB_saxpy3_phase0 I).nfine t) ∧
      ((GB_AxB_saxpy3_phase0 I).TaskList t).hsize ≠ I.cvlen) ∧
    (GB_hash_size
        (task_flmax I.env (GB_AxB_saxpy3_phase0 I).TaskList (GB_AxB_saxpy3_phase0 I).nfine t) ≥
        I.cvlen →
      ((GB_AxB_saxpy3_phase0 I).TaskList t).hsize = I.cvlen) := by
  obtain ⟨p1, p2, _⟩ := mask_policy_dense_cheap I hd hmeth hcheap
  have q1 : (GB_AxB_saxpy3_phase0 I).M_dense_in_place = true := p1
  have q2 : (GB_AxB_saxpy3_phase0 I).AxB_method = GxB_AxB_HASH := p2
  obtain ⟨h1, h2⟩ := phase0_hsize I hchunk hps t ht0 ht1
  rw [q2] at h1
  refine ⟨q1, q2, h2, h1, ?_, ?_⟩
  · intro hlt
    rw [h1]
    have : GB_hash_table_size
        (task_flmax I.env (GB_AxB_saxpy3_phase0 I).TaskList (GB_AxB_saxpy3_phase0 I).nfine t)
        I.cvlen GxB_AxB_HASH =
        GB_hash_size
          (task_flmax I.env (GB_AxB_saxpy3_phase0 I).TaskList
            (GB_AxB_saxpy3_phase0 I).nfine t) := by
      simp only [GB_hash_table_size, GB_use_Gustavson]
      simp
      intro hge
      omega
    rw [this]
    exact ⟨rfl, by omega⟩
  · intro hge
    rw [h1]
    simp [GB_hash_table_size, GB_use_Gustavson, hge]

/-- Witness of claim C9 (amended): the input `input_dense_mask_tall`
(`cvlen = 1000`) at task 0, whose capacity is the hash capacity. -/
theorem dense_in_place_forces_hash_hint_witness :
    input_dense_mask_tall.M_is_dense = true ∧
    input_dense_mask_tall.AxB_method = GxB_DEFAULT ∧
    (GB_AxB_saxpy3_phase0 input_dense_mask_tall).M_dense_in_place = true ∧
    (GB_AxB_saxpy3_phase0 input_dense_mask_tall).AxB_method = GxB_AxB_HASH ∧
    ((GB_AxB_saxpy3_phase0 input_dense_mask_tall).TaskList 0).hsize ≠
      input_dense_mask_tall.cvlen :=
  ⟨by decide, by decide,
    (dense_in_place_forces_hash_hint input_dense_mask_tall (by decide!)
      (fun _ => unit_pslice_ok input_dense_mask_tall.env.Bflops 3 4 (by decide) (by decide))
      (by decide) (Or.inl (by decide)) (by decide!) 0 (by decide) (by decide!)).1,
    (dense_in_place_forces_hash_hint input_dense_mask_tall (by decide!)
      (fun _ => unit_pslice_ok input_dense_mask_tall.env.Bflops 3 4 (by decide) (by decide))
      (by decide) (Or.inl (by decide)) (by decide!) 0 (by decide) (by decide!)).2.1,
    ((dense_in_place_forces_hash_hint input_dense_mask_tall (by decide!)
      (fun _ => unit_pslice_ok input_dense_mask_tall.env.Bflops 3 4 (by decide) (by decide))
      (by decide) (Or.inl (by decide)) (by decide!) 0 (by decide) (by decide!)).2.2.2.2.1
        (by decide!)).2⟩

/-- Counterexample to claim C9 as stated: for `input_dense_mask_cheap` the mask
is dense, the hint is default and the A*B flop count (2) is below
`0.10 * cvlen * cvdim = 400`, so `M_dense_in_place` is set; yet the only task
has `hsize = 4 = cvlen`. -/
theorem dense_in_place_task_with_hsize_cvlen :
    input_dense_mask_cheap.M_is_dense = true ∧
    input_dense_mask_cheap.AxB_method = GxB_DEFAULT ∧
    ((input_dense_mask_cheap.Bflops input_dense_mask_cheap.bnvec -
      input_dense_mask_cheap.Mwork : Int) : ℚ) <
      ((input_dense_mask_cheap.cvlen * input_dense_mask_cheap.cvdim : Int) : ℚ) * (10 / 100) ∧
    (GB_AxB_saxpy3_phase0 input_dense_mask_cheap).M_dense_in_place = true ∧
    (GB_AxB_saxpy3_phase0 input_dense_mask_cheap).ntasks = 1 ∧
    ((GB_AxB_saxpy3_phase0 input_dense_mask_cheap).TaskList 0).hsize =
      input_dense_mask_cheap.cvlen := by
  decide!

/-- Claim C10: when the mask is dense, the hint is default and the A*B flop
count is not below `0.10 * cvlen * cvdim`, `M_dense_in_place` stays false, the
hint becomes force-Gustavson, and every task created (coarse or fine) has
`hsize = cvlen`. -/
theorem dense_costly_forces_gustavson (I : Saxpy3Input) (hchunk : 0 < I.chunk)
    (hps : I.ntasks_initial > 1 → pslice_ok I.env.Coarse_initial I.bnvec I.ntasks_initial)
    (hd : I.M_is_dense = true)
    (hmeth : I.AxB_method = GxB_DEFAULT ∨ I.AxB_method = GxB_AxB_SAXPY)
    (hcostly : ¬ ((I.Bflops I.bnvec - I.Mwork : Int) : ℚ) <
      ((I.cvlen * I.cvdim : Int) : ℚ) * GB_MWORK_BETA)
    (t : Int) (ht0 : 0 ≤ t) (ht1 : t < (GB_AxB_saxpy3_phase0 I).ntasks) :
    (GB_AxB_saxpy3_phase0 I).M_dense_in_place = false ∧
    (GB_AxB_saxpy3_phase0 I).AxB_method = GxB_AxB_GUSTAVSON ∧
    ((GB_AxB_saxpy3_phase0 I).TaskList t).hsize = I.cvlen := by
  obtain ⟨p1, p2, _⟩ := mask_policy_dense_costly I hd hmeth hcostly
  have q1 : (GB_AxB_saxpy3_phase0 I).M_dense_in_place = false := p1
  have q2 : (GB_AxB_saxpy3_phase0 I).AxB_method = GxB_AxB_GUSTAVSON := p2
  obtain ⟨h1, _⟩ := phase0_hsize I hchunk hps t ht0 ht1
  rw [q2] at h1
  refine ⟨q1, q2, ?_⟩
  rw [h1]
  simp [GB_hash_table_size, GB_use_Gustavson]

/-- Witness of claim C10: the input `input_dense_mask_costly` at task 1. -/
theorem dense_costly_forces_gustavson_witness :
    input_dense_mask_costly.M_is_dense = true ∧
    input_dense_mask_costly.AxB_method = GxB_DEFAULT ∧
    (GB_AxB_saxpy3_phase0 input_dense_mask_costly).M_dense_in_place = false ∧
    (GB_AxB_saxpy3_phase0 input_dense_mask_costly).AxB_method = GxB_AxB_GUSTAVSON ∧
    ((GB_AxB_saxpy3_phase0 input_dense_mask_costly).TaskList 1).hsize =
      input_dense_mask_costly.cvlen :=
  ⟨by decide, by decide,
    dense_costly_forces_gustavson input_dense_mask_costly (by decide!)
      (fun _ => unit_pslice_ok input_dense_mask_costly.env.Bflops 2 4 (by decide) (by decide))
      (by decide) (Or.inl (by decide)) (by decide!) 1 (by decide) (by decide!)⟩

/-- Claim C11 (the code diverges): for `input_dense_mask_costly` (dense mask,
default hint, `cvlen = 8`, two vectors of 8 flops, previous total 16) the loop
adds `cvlen * (kk+1)` to `Bflops [kk]`; every per-column cost grows by `cvlen`
and their sum is `32 = 16 + cvlen * bnvec`, but `total_flops = Bflops [bnvec]`
is `40 = 16 + cvlen * (bnvec + 1)`. -/
theorem dense_mask_total_exceeds_column_costs :
    input_dense_mask_costly.M_is_dense = true ∧
    input_dense_mask_costly.AxB_method = GxB_DEFAULT ∧
    input_dense_mask_costly.Bflops input_dense_mask_costly.bnvec = 16 ∧
    input_dense_mask_costly.cvlen * input_dense_mask_costly.bnvec = 16 ∧
    (GB_AxB_saxpy3_mask_policy input_dense_mask_costly).AxB_method = GxB_AxB_GUSTAVSON ∧
    ((GB_AxB_saxpy3_mask_policy input_dense_mask_costly).Bflops 1 -
      (GB_AxB_saxpy3_mask_policy input_dense_mask_costly).Bflops 0) +
    ((GB_AxB_saxpy3_mask_policy input_dense_mask_costly).Bflops 2 -
      (GB_AxB_saxpy3_mask_policy input_dense_mask_costly).Bflops 1) = 32 ∧
    (GB_AxB_saxpy3_mask_policy input_dense_mask_costly).total_flops = 40 ∧
    (GB_AxB_saxpy3_mask_policy input_dense_mask_costly).total_flops ≠
      input_dense_mask_costly.Bflops input_dense_mask_costly.bnvec +
        input_dense_mask_costly.cvlen * input_dense_mask_costly.bnvec := by
  decide!

/-- Claim C12: for a mask that is present and not dense, the mask is discarded
(`M` becomes `NULL`) if and only if the A*B work `total_flops - Mwork` is below
`0.01 * Mwork`; when it is discarded the complement flag is cleared, the cost
array is the one recomputed without the mask, task creation is the one of a
call without a mask on those flop counts, and `mask_applied` is `false` on
every return. -/
theorem discard_rule (I : Saxpy3Input) (hM : I.M_present = true)
    (hnd : I.M_is_dense = false) :
    ((GB_AxB_saxpy3_mask_policy I).M_present = false ↔
      ((I.Bflops I.bnvec - I.Mwork : Int) : ℚ) < (I.Mwork : ℚ) * (1 / 100)) ∧
    ((GB_AxB_saxpy3_mask_policy I).M_present = false →
      (GB_AxB_saxpy3_mask_policy I).Mask_comp = false ∧
      (GB_AxB_saxpy3_mask_policy I).Bflops = I.Bflops_nomask ∧
      (GB_AxB_saxpy3_mask_policy I).total_flops = I.Bflops_nomask I.bnvec ∧
      GB_AxB_saxpy3_mask_policy I = GB_AxB_saxpy3_mask_policy (without_mask I) ∧
      GB_AxB_saxpy3_phase0 I = GB_AxB_saxpy3_phase0 (without_mask I) ∧
      ∀ O : Saxpy3Calls, (GB_AxB_saxpy3 I O).mask_applied = false) := by
  have hiff : discard_mask I ↔
      ((I.Bflops I.bnvec - I.Mwork : Int) : ℚ) < (I.Mwork : ℚ) * (1 / 100) := by
    unfold discard_mask
    simp [hM, hnd, GB_MWORK_ALPHA]
  have hdisc : (GB_AxB_saxpy3_mask_policy I).M_present = false → discard_mask I := by
    intro h
    by_contra hn
    rw [mask_policy_keep I hn, hM] at h
    exact absurd h (by decide)
  refine ⟨⟨fun h => hiff.1 (hdisc h), fun h => (mask_policy_discard I (hiff.2 h)).1⟩, ?_⟩
  intro h
  have hd := hdisc h
  obtain ⟨d1, d2, d3, d4, d5, d6, d7⟩ := mask_policy_discard I hd
  have hp : GB_AxB_saxpy3_mask_policy I = GB_AxB_saxpy3_mask_policy (without_mask I) := by
    obtain ⟨h1, h2, h3⟩ := hd
    unfold GB_AxB_saxpy3_mask_policy
    simp only []
    rw [if_neg h1, if_pos ⟨h2, h3⟩]
    simp [without_mask]
  have hn : I.nthreads = (without_mask I).nthreads := by
    unfold Saxpy3Input.nthreads
    rw [hp]
    rfl
  have hni : I.ntasks_initial = (without_mask I).ntasks_initial := by
    unfold Saxpy3Input.ntasks_initial
    rw [hn]
  have htt : I.target_task_size = (without_mask I).target_task_size := by
    unfold Saxpy3Input.target_task_size
    rw [hp, hni]
    rfl
  have htf : I.target_fine_size = (without_mask I).target_fine_size := by
    unfold Saxpy3Input.target_fine_size
    rw [htt]
    rfl
  have he : I.env = (without_mask I).env := by
    unfold Saxpy3Input.env
    rw [hp, hni, htt, htf]
    rfl
  refine ⟨d2, d6, d7, hp, ?_, ?_⟩
  · unfold GB_AxB_saxpy3_phase0
    rw [hp, he]
  · intro O
    cases hm : (GB_AxB_saxpy3 I O).mask_applied
    · rfl
    · have := saxpy3_mask_applied_le I O hm
      rw [h] at this
      exact absurd this (by decide)

/-- Witness of claim C12: the input `input_large_mask`, whose mask of 400
entries is discarded. -/
theorem discard_rule_witness :
    input_large_mask.M_present = true ∧ input_large_mask.M_is_dense = false ∧
    ((GB_AxB_saxpy3_mask_policy input_large_mask).M_present = false ↔
      ((input_large_mask.Bflops input_large_mask.bnvec - input_large_mask.Mwork : Int) : ℚ) <
        (input_large_mask.Mwork : ℚ) * (1 / 100)) ∧
    (GB_AxB_saxpy3_mask_policy input_large_mask).M_present = false :=
  ⟨by decide, by decide, (discard_rule input_large_mask (by decide) (by decide)).1,
    by decide!⟩

/-- Claim C13 (the code diverges): for `input_sparse_mask` (a mask is supplied
and the discard test fails) with every allocation of `H` failing, the call
returns `GrB_SUCCESS` through the `return (info)` of line 1085 and
`mask_applied` is still `false`; with every allocation succeeding the same
input gives `GrB_SUCCESS` and `mask_applied = true`. -/
theorem mask_applied_false_on_success_status :
    input_sparse_mask.M_present = true ∧ ¬ discard_mask input_sparse_mask ∧
    (GB_AxB_saxpy3 input_sparse_mask calls_H_fails).info = GrB_SUCCESS ∧
    (GB_AxB_saxpy3 input_sparse_mask calls_H_fails).mask_applied = false ∧
    (GB_AxB_saxpy3 input_sparse_mask calls_all_ok).info = GrB_SUCCESS ∧
    (GB_AxB_saxpy3 input_sparse_mask calls_all_ok).mask_applied = true := by
  decide!

/-- Claim C14 (the code diverges): for `input_single_thread` with every
allocation of `H` failing, the workspace loop ends with `ok = false` and the
call returns `info`, which is `GrB_SUCCESS`, not `GrB_OUT_OF_MEMORY`; a failing
allocation of the task list on the same input returns `GrB_OUT_OF_MEMORY`. -/
theorem workspace_failure_returns_success :
    (alloc_workspace calls_H_fails (GB_AxB_saxpy3_phase0 input_single_thread)).ok = false ∧
    (GB_AxB_saxpy3 input_single_thread calls_H_fails).info = GrB_SUCCESS ∧
    (GB_AxB_saxpy3 input_single_thread calls_H_fails).info ≠ GrB_OUT_OF_MEMORY ∧
    (GB_AxB_saxpy3 input_single_thread
      { calls_all_ok with TaskList_ok := false }).info = GrB_OUT_OF_MEMORY := by
  decide!

/-- Claim C15 (the code diverges): for `input_single_thread`, when
`GB_hypermatrix_prune` fails the call returns `GrB_OUT_OF_MEMORY` and `*Chandle`
still holds the matrix; when every allocation of `H` fails the call returns
`GrB_SUCCESS` and `*Chandle` is `NULL`. -/
theorem partial_result_on_prune_failure :
    (GB_AxB_saxpy3 input_single_thread calls_prune_fails).info = GrB_OUT_OF_MEMORY ∧
    (GB_AxB_saxpy3 input_single_thread calls_prune_fails).Chandle_set = true ∧
    (GB_AxB_saxpy3 input_single_thread calls_H_fails).info = GrB_SUCCESS ∧
    (GB_AxB_saxpy3 input_single_thread calls_H_fails).Chandle_set = false := by
  decide!

/-- Claim C16 (amended): when `GB_Index_multiply` fails, `GB_convert_to_full`
returns before the allocation is reached, with `A` unchanged, and the status is
`GrB_OUT_OF_MEMORY`; this is also the status it returns when the allocation of
the new value array fails. -/
theorem convert_to_full_overflow_status (K : ConvertCalls) (A : GB_Matrix) :
    (K.GB_Index_multiply A.vlen A.vdim = none →
      (GB_convert_to_full K A).info = GrB_OUT_OF_MEMORY ∧
      (GB_convert_to_full K A).allocation_reached = false ∧
      (GB_convert_to_full K A).A = A) ∧
    (∀ anzmax, K.GB_Index_multiply A.vlen A.vdim = some anzmax →
      K.GB_MALLOC (anzmax * A.type_size) = none →
      (GB_convert_to_full K A).info = GrB_OUT_OF_MEMORY ∧
      (GB_convert_to_full K A).allocation_reached = true) := by
  constructor
  · intro h
    simp [GB_convert_to_full, h]
  · intro anzmax h1 h2
    simp [GB_convert_to_full, h1, h2]

/-- Counterexample to claim C16 as stated: on the matrix `matrix_4x5` the status
after an overflow of the size computation equals the status after a failed
allocation. -/
theorem convert_to_full_overflow_not_distinct :
    convert_calls_overflow.GB_Index_multiply matrix_4x5.vlen matrix_4x5.vdim = none ∧
    convert_calls_no_memory.GB_Index_multiply matrix_4x5.vlen matrix_4x5.vdim = some 20 ∧
    convert_calls_no_memory.GB_MALLOC (20 * matrix_4x5.type_size) = none ∧
    (GB_convert_to_full convert_calls_overflow matrix_4x5).info =
      (GB_convert_to_full convert_calls_no_memory matrix_4x5).info := by
  decide

/-- Witness of claim C16 (amended): the matrix `matrix_4x5` with an overflowing
size computation. -/
theorem convert_to_full_overflow_status_witness :
    convert_calls_overflow.GB_Index_multiply matrix_4x5.vlen matrix_4x5.vdim = none ∧
    (GB_convert_to_full convert_calls_overflow matrix_4x5).info = GrB_OUT_OF_MEMORY ∧
    (GB_convert_to_full convert_calls_overflow matrix_4x5).allocation_reached = false ∧
    (GB_convert_to_full convert_calls_overflow matrix_4x5).A = matrix_4x5 :=
  ⟨by decide, (convert_to_full_overflow_status convert_calls_overflow matrix_4x5).1 (by decide)⟩

/-- Claim C17: for a multiply operator that is not `ANY`, whenever `GB_iso_AxB`
returns `true` with the scalar `c`, every entry `C(i,j)` of `C = A*B` that is
present (the reduction of the products over the pairs `A(i,k)`, `B(k,j)` that
are both present) equals `c`; for `A` and `B` both full and iso, `c` is the
reduction of `n` copies of `fmult (a, b)`.  Hypotheses give the meaning of what
the function reads: an iso matrix has all its entries equal to its first
scalar, two full matrices give `n` products, a nice monoid is idempotent, `PAIR`,
`FIRST` and `SECOND` return one, their first and their second argument, a cast
to the same type is a copy, and `GB_iso_reduce_worker` reduces `n` copies. -/
theorem iso_AxB_sound {V : Type} (P : IsoAxB V) (c : V) (p0 : V × V) (rest : List (V × V))
    (hret : GB_iso_AxB P = some c)
    (hdet : P.mult_renamed ≠ GB_ANY_opcode)
    (hA : P.A_iso = true → ∀ p ∈ p0 :: rest, p.1 = P.Ax0)
    (hB : P.B_iso = true → ∀ p ∈ p0 :: rest, p.2 = P.Bx0)
    (hfull : P.A_as_if_full = true → P.B_as_if_full = true → rest.length + 1 = P.n)
    (hnice : nice_monoid P.add_renamed = true → ∀ x, P.freduce x x = x)
    (hone : nice_with_pair P.add_renamed = true →
      P.freduce (P.GB_cast_one P.zcode) (P.GB_cast_one P.zcode) = P.GB_cast_one P.zcode)
    (hpair : P.mult_renamed = GB_PAIR_opcode → ∀ x y, P.fmult x y = P.GB_cast_one P.zcode)
    (hfirst : P.mult_renamed = GB_FIRST_opcode →
      ∀ x y, P.fmult x y = P.GB_cast_scalar P.zcode P.xcode x)
    (hsecond : P.mult_renamed = GB_SECOND_opcode →
      ∀ x y, P.fmult x y = P.GB_cast_scalar P.zcode P.ycode y)
    (hcast : ∀ code v, P.GB_cast_scalar code code v = v)
    (hworker : ∀ t m, P.GB_iso_reduce_worker P.freduce t (m + 1) =
      reduce_copies P.freduce t m) :
    iso_entry P p0 rest = c ∧
    (P.A_iso = true → P.B_iso = true → P.A_as_if_full = true → P.B_as_if_full = true →
      c = reduce_copies P.freduce
        (P.fmult (P.GB_cast_scalar P.xcode P.acode P.Ax0)
          (P.GB_cast_scalar P.ycode P.bcode P.Bx0)) (P.n - 1)) := by
  have hboth : P.A_iso = true → P.B_iso = true → ∀ p ∈ p0 :: rest,
      P.fmult (P.GB_cast_scalar P.xcode P.acode p.1) (P.GB_cast_scalar P.ycode P.bcode p.2) =
        P.product0 := by
    intro ha hb p hp
    rw [hA ha p hp, hB hb p hp, product0_eq P hcast]
  have main : iso_entry P p0 rest = c := by
    unfold GB_iso_AxB at hret
    by_cases h0 : P.mult_is_positional = true ∨ P.add_opcode = GB_USER_opcode
    · rw [if_pos h0] at hret
      exact absurd hret (by simp)
    rw [if_neg h0] at hret
    by_cases h1 : nice_with_pair P.add_renamed = true ∧ P.mult_renamed = GB_PAIR_opcode
    · rw [if_pos h1] at hret
      have hc : P.GB_cast_one P.zcode = c := by simpa using hret
      rw [iso_entry_all_equal P p0 rest (P.GB_cast_one P.zcode) (fun p _ => hpair h1.2 _ _),
        reduce_copies_idem _ _ (hone h1.1), hc]
    rw [if_neg h1] at hret
    by_cases h2 : P.B_iso = true ∧ nice_monoid P.add_renamed = true ∧ P.second = true
    · rw [if_pos h2] at hret
      obtain ⟨hb, hn, hs⟩ := h2
      have hsec : P.mult_renamed = GB_SECOND_opcode := by
        simp only [IsoAxB.second, Bool.or_eq_true, decide_eq_true_eq] at hs
        rcases hs with h | h
        · exact h
        · exact absurd h hdet
      have hall : ∀ p ∈ p0 :: rest,
          P.fmult (P.GB_cast_scalar P.xcode P.acode p.1)
            (P.GB_cast_scalar P.ycode P.bcode p.2) =
          P.GB_cast_scalar P.zcode P.ycode (P.GB_cast_scalar P.ycode P.bcode P.Bx0) := by
        intro p hp
        rw [hsecond hsec, hB hb p hp]
      rw [iso_entry_all_equal P p0 rest _ hall, reduce_copies_idem _ _ (hnice hn _)]
      by_cases hz : P.zcode = P.ycode ∧ P.bcode = P.ycode
      · rw [if_pos hz] at hret
        have hc : P.Bx0 = c := by simpa using hret
        rw [hz.1, hz.2, hcast, hcast, hc]
      · rw [if_neg hz] at hret
        simpa using hret
    rw [if_neg h2] at hret
    by_cases h3 : P.A_iso = true ∧ nice_monoid P.add_renamed = true ∧ P.first = true
    · rw [if_pos h3] at hret
      obtain ⟨ha, hn, hf⟩ := h3
      have hfst : P.mult_renamed = GB_FIRST_opcode := by
        simp only [IsoAxB.first, Bool.or_eq_true, decide_eq_true_eq] at hf
        rcases hf with h | h
        · exact h
        · exact absurd h hdet
      have hall : ∀ p ∈ p0 :: rest,
          P.fmult (P.GB_cast_scalar P.xcode P.acode p.1)
            (P.GB_cast_scalar P.ycode P.bcode p.2) =
          P.GB_cast_scalar P.zcode P.xcode (P.GB_cast_scalar P.xcode P.acode P.Ax0) := by
        intro p hp
        rw [hfirst hfst, hA ha p hp]
      rw [iso_entry_all_equal P p0 rest _ hall, reduce_copies_idem _ _ (hnice hn _)]
      by_cases hz : P.zcode = P.xcode ∧ P.acode = P.xcode
      · rw [if_pos hz] at hret
        have hc : P.Ax0 = c := by simpa using hret
        rw [hz.1, hz.2, hcast, hcast, hc]
      · rw [if_neg hz] at hret
        simpa using hret
    rw [if_neg h3] at hret
    by_cases h4 : P.A_iso = true ∧ P.B_iso = true
    · rw [if_pos h4] at hret
      have hall := hboth h4.1 h4.2
      rw [iso_entry_all_equal P p0 rest _ hall]
      by_cases hn : nice_monoid P.add_renamed = true
      · rw [if_pos hn] at hret
        have hc : P.product0 = c := by simpa using hret
        rw [reduce_copies_idem _ _ (hnice hn _), hc]
      · rw [if_neg hn] at hret
        by_cases hf : P.A_as_if_full = true ∧ P.B_as_if_full = true
        · rw [if_pos hf] at hret
          have hc : P.GB_iso_reduce_worker P.freduce P.product0 P.n = c := by simpa using hret
          rw [← hc, ← hfull hf.1 hf.2, hworker]
        · rw [if_neg hf] at hret
          exact absurd hret (by simp)
    · rw [if_neg h4] at hret
      exact absurd hret (by simp)
  refine ⟨main, ?_⟩
  intro ha hb hfa hfb
  rw [← main, iso_entry_all_equal P p0 rest _ (hboth ha hb), product0_eq P hcast]
  have := hfull hfa hfb
  have e : rest.length = P.n - 1 := by omega
  rw [e]

/-- Witness of claim C17: the `MAX_FIRST` instance `iso_example_max_first` with
`A` iso of value 7; `GB_iso_AxB` returns 7 and the entry reduced from the pairs
`(7, 3)` and `(7, 5)` is 7. -/
theorem iso_AxB_sound_witness :
    GB_iso_AxB iso_example_max_first = some 7 ∧
    iso_entry iso_example_max_first (7, 3) [(7, 5)] = 7 :=
  ⟨by decide,
    (iso_AxB_sound iso_example_max_first 7 (7, 3) [(7, 5)] (by decide) (by decide)
      (fun _ p hp => by
        simp only [List.mem_cons, List.mem_singleton, List.not_mem_nil, or_false] at hp
        rcases hp with h | h <;> subst h <;> rfl)
      (fun h => absurd h (by decide))
      (fun h => absurd h (by decide))
      (fun _ x => max_self x)
      (fun _ => by decide)
      (fun h => absurd h (by decide))
      (fun _ _ _ => rfl)
      (fun h => absurd h (by decide))
      (fun _ _ => rfl)
      (fun _ _ => rfl)).1⟩

/-- Claim C18: `nice_monoid` holds for `ANY`, `LAND`, `LOR`, `BAND`, `BOR`,
`MIN`, `MAX` and fails for `PLUS`, `TIMES`, `EQ`, `LXOR`, `BXOR`, `BXNOR`; for
every monoid it holds for, the reduction of any number `n + 1 ≥ 1` of copies of
a value `x` is `x`; for each of the six others there are a value and a count
whose reduction differs from the value. -/
theorem nice_monoid_classification_exact :
    (∀ op ∈ [GB_ANY_opcode, GB_LAND_opcode, GB_LOR_opcode, GB_BAND_opcode, GB_BOR_opcode,
        GB_MIN_opcode, GB_MAX_opcode], nice_monoid op = true) ∧
    (∀ op ∈ [GB_PLUS_opcode, GB_TIMES_opcode, GB_EQ_opcode, GB_LXOR_opcode, GB_BXOR_opcode,
        GB_BXNOR_opcode], nice_monoid op = false) ∧
    (∀ (pick : Bool) (op : GB_Opcode) (f : Nat → Nat → Nat), nice_monoid op = true →
      GB_monoid_uint8 pick op = some f → ∀ (x n : Nat), reduce_copies f x n = x) ∧
    (∀ (pick : Bool) (op : GB_Opcode) (f : Bool → Bool → Bool), nice_monoid op = true →
      GB_monoid_bool pick op = some f → ∀ (x : Bool) (n : Nat), reduce_copies f x n = x) ∧
    (∀ op ∈ [GB_PLUS_opcode, GB_TIMES_opcode, GB_BXOR_opcode, GB_BXNOR_opcode],
      ∀ pick : Bool, ∃ (f : Nat → Nat → Nat) (x n : Nat),
        GB_monoid_uint8 pick op = some f ∧ x < 256 ∧ reduce_copies f x n ≠ x) ∧
    (∀ op ∈ [GB_EQ_opcode, GB_LXOR_opcode],
      ∀ pick : Bool, ∃ (f : Bool → Bool → Bool) (x : Bool) (n : Nat),
        GB_monoid_bool pick op = some f ∧ reduce_copies f x n ≠ x) := by
  have idem : ∀ {α : Type} (f : α → α → α), (∀ x, f x x = x) →
      ∀ (x : α) (n : Nat), reduce_copies f x n = x := by
    intro α f hf x n
    induction n with
    | zero => rfl
    | succ n ih => simp only [reduce_copies]; rw [ih, hf]
  refine ⟨by decide, by decide, ?_, ?_, ?_, ?_⟩
  · intro pick op f hn hf x n
    apply idem
    cases op <;> simp [nice_monoid, GB_monoid_uint8] at hn hf <;> subst hf <;> intro y <;> simp
  · intro pick op f hn hf x n
    apply idem
    cases op <;> simp [nice_monoid, GB_monoid_bool] at hn hf <;> subst hf <;> intro y <;> simp
  · intro op hop pick
    simp only [List.mem_cons, List.mem_singleton, List.not_mem_nil, or_false] at hop
    rcases hop with h | h | h | h <;> subst h
    · exact ⟨_, 1, 1, rfl, by decide, by decide⟩
    · exact ⟨_, 2, 1, rfl, by decide, by decide⟩
    · exact ⟨_, 1, 1, rfl, by decide, by decide⟩
    · exact ⟨_, 0, 1, rfl, by decide, by decide⟩
  · intro op hop pick
    simp only [List.mem_cons, List.mem_singleton, List.not_mem_nil, or_false] at hop
    rcases hop with h | h <;> subst h
    · exact ⟨_, false, 1, rfl, by decide⟩
    · exact ⟨_, true, 1, rfl, by decide⟩

/-- Claim C19 (the code diverges): whenever `GB_AxB_semiring_builtin` returns
`true` with multiply opcode `PAIR` and the renamed monoid is one of `EQ`, `LAND`,
`BAND`, `LOR`, `BOR`, `MAX`, `MIN`, `TIMES`, the reported `add_opcode` is
`GB_PAIR_opcode`, not `GB_ANY_opcode`, and the test `is_any_pair_semiring` of
`GB_AxB_saxpy3` fails. -/
theorem semiring_builtin_pair_reports_pair_monoid (add_op : GB_Opcode)
    (add_ztype_code : GB_Type_code) (GB_boolean_rename : GB_Opcode → GB_Opcode)
    (B : BinopBuiltin) (hu : add_op ≠ GB_USER_opcode) (hok : B.ok = true)
    (hp : B.mult_opcode = GB_PAIR_opcode)
    (hm : renamed_monoid add_op add_ztype_code GB_boolean_rename ∈
      [GB_EQ_opcode, GB_LAND_opcode, GB_BAND_opcode, GB_LOR_opcode, GB_BOR_opcode,
        GB_MAX_opcode, GB_MIN_opcode, GB_TIMES_opcode]) :
    (GB_AxB_semiring_builtin add_op add_ztype_code GB_boolean_rename B).result = true ∧
    (GB_AxB_semiring_builtin add_op add_ztype_code GB_boolean_rename B).mult_opcode =
      GB_PAIR_opcode ∧
    (GB_AxB_semiring_builtin add_op add_ztype_code GB_boolean_rename B).add_opcode =
      GB_PAIR_opcode ∧
    (GB_AxB_semiring_builtin add_op add_ztype_code GB_boolean_rename B).add_opcode ≠
      GB_ANY_opcode ∧
    is_any_pair_semiring
      (GB_AxB_semiring_builtin add_op add_ztype_code GB_boolean_rename B) = false := by
  have hm2 : renamed_monoid add_op add_ztype_code GB_boolean_rename = GB_EQ_opcode ∨
      renamed_monoid add_op add_ztype_code GB_boolean_rename = GB_LAND_opcode ∨
      renamed_monoid add_op add_ztype_code GB_boolean_rename = GB_BAND_opcode ∨
      renamed_monoid add_op add_ztype_code GB_boolean_rename = GB_LOR_opcode ∨
      renamed_monoid add_op add_ztype_code GB_boolean_rename = GB_BOR_opcode ∨
      renamed_monoid add_op add_ztype_code GB_boolean_rename = GB_MAX_opcode ∨
      renamed_monoid add_op add_ztype_code GB_boolean_rename = GB_MIN_opcode ∨
      renamed_monoid add_op add_ztype_code GB_boolean_rename = GB_TIMES_opcode := by
    simpa using hm
  have key : GB_AxB_semiring_builtin add_op add_ztype_code GB_boolean_rename B =
      { result := true, mult_opcode := GB_PAIR_opcode, add_opcode := GB_PAIR_opcode
        xcode := B.xcode, ycode := B.ycode, zcode := B.zcode } := by
    unfold GB_AxB_semiring_builtin
    unfold renamed_monoid at hm2
    simp only []
    rw [if_neg hu, if_neg (by rw [hok]; decide), if_pos hp, if_pos hm2, hp]
  rw [key]
  exact ⟨rfl, rfl, rfl, by simp, by simp [is_any_pair_semiring]⟩

/-- Witness of claim C19 (the code diverges): the `LOR` monoid on `bool` with a
`PAIR` multiply, a `GB_boolean_rename` that keeps `LOR`. -/
theorem semiring_builtin_pair_reports_pair_monoid_witness :
    (GB_AxB_semiring_builtin GB_LOR_opcode GB_BOOL_code id binop_pair_bool).result = true ∧
    (GB_AxB_semiring_builtin GB_LOR_opcode GB_BOOL_code id binop_pair_bool).mult_opcode =
      GB_PAIR_opcode ∧
    (GB_AxB_semiring_builtin GB_LOR_opcode GB_BOOL_code id binop_pair_bool).add_opcode =
      GB_PAIR_opcode ∧
    (GB_AxB_semiring_builtin GB_LOR_opcode GB_BOOL_code id binop_pair_bool).add_opcode ≠
      GB_ANY_opcode ∧
    is_any_pair_semiring
      (GB_AxB_semiring_builtin GB_LOR_opcode GB_BOOL_code id binop_pair_bool) = false :=
  semiring_builtin_pair_reports_pair_monoid GB_LOR_opcode GB_BOOL_code id binop_pair_bool
    (by decide) (by decide) (by decide) (by decide)

/-- Claim C21: for `chunk > 0`, with `target_task_size` the maximum of `chunk`
and the `double` quotient `total_flops / ntasks_initial`, every vector whose
flop count exceeds `1.2 * target_task_size`, be it exactly or by the `double`
test of lines 616 and 740, gets `team_size = ⌈jflops / max (target_task_size /
2) chunk⌉ ≥ 2`, where both quotients are the `double` quotients the code
computes. -/
theorem costly_team_has_two_members (I : Saxpy3Input) (hchunk : 0 < I.chunk) (k : Int)
    (hc : (I.env.jflops k : ℚ) > 12 / 10 * I.target_task_size ∨
      to_double (I.env.jflops k : ℚ) > double_mul GB_COSTLY I.target_task_size) :
    I.target_task_size =
      max (double_div (to_double ((GB_AxB_saxpy3_mask_policy I).total_flops : ℚ))
        (to_double (I.ntasks_initial : ℚ))) I.chunk ∧
    I.env.team_size k =
      ⌈double_div (to_double (I.env.jflops k : ℚ))
        (max (double_div I.target_task_size 2) I.chunk)⌉ ∧
    2 ≤ I.env.team_size k := by
  obtain ⟨h1, h2, h3⟩ := target_sizes_pos I hchunk
  refine ⟨rfl, rfl, ?_⟩
  rcases hc with hc | hc
  · exact team_size_ge_two_of_flops I.env h2 h3 k hc
  · have hg := GB_COSTLY_gt
    have h4 : 119 / 100 * I.target_task_size ≤ GB_COSTLY * I.target_task_size :=
      mul_le_mul_of_nonneg_right (le_of_lt hg) (le_of_lt h1)
    have h5 := to_double_ge (GB_COSTLY * I.target_task_size) (by nlinarith)
    have h6 : (999 / 1000 : ℚ) ≤ 1 - 1 / 2 ^ 53 := by norm_num
    have h7 : 118 / 100 * I.target_task_size < double_mul GB_COSTLY I.target_task_size := by
      unfold double_mul
      nlinarith
    exact team_size_ge_two_of_double I.env h2 h3 k (lt_trans h7 hc)

/-- Witness of claim C21: vector 0 of `input_rounded_team`, with 21 flops
against `target_task_size = 2.8` and `target_fine_size = 1.4` in `double`: the
`double` quotient lies just above 15 and the team has 16 members, one more than
the ceiling 15 of the quotient `21 / 1.4` in exact arithmetic. -/
theorem costly_team_has_two_members_witness :
    (0 : ℚ) < input_rounded_team.chunk ∧
    (input_rounded_team.env.jflops 0 : ℚ) > 12 / 10 * input_rounded_team.target_task_size ∧
    to_double (input_rounded_team.env.jflops 0 : ℚ) >
      double_mul GB_COSTLY input_rounded_team.target_task_size ∧
    input_rounded_team.target_task_size = to_double (28 / 10) ∧
    input_rounded_team.target_fine_size = to_double (14 / 10) ∧
    input_rounded_team.env.team_size 0 = 16 ∧
    ⌈(21 : ℚ) / (14 / 10)⌉ = 15 ∧
    2 ≤ input_rounded_team.env.team_size 0 :=
  ⟨by decide!, by decide!, by decide!, by decide!, by decide!, by decide!, by decide!,
    (costly_team_has_two_members input_rounded_team (by decide!) 0
      (Or.inr (by decide!))).2.2⟩

/-- Claim C22: for every fine task `t`, `master ≤ t < master + team_size`, the
master is its own master, and all tasks `master .. master + team_size - 1` have
the same master, vector, team size and `hsize`, where `hsize` is
`GB_hash_table_size` of the flop count of the whole vector (at least 1). -/
theorem fine_team_linkage (I : Saxpy3Input) (hchunk : 0 < I.chunk)
    (hps : I.ntasks_initial > 1 → pslice_ok I.env.Coarse_initial I.bnvec I.ntasks_initial)
    (t : Int) (ht0 : 0 ≤ t) (ht1 : t < (GB_AxB_saxpy3_phase0 I).nfine) :
    ((GB_AxB_saxpy3_phase0 I).TaskList t).master ≤ t ∧
    t < ((GB_AxB_saxpy3_phase0 I).TaskList t).master +
      ((GB_AxB_saxpy3_phase0 I).TaskList t).team_size ∧
    ((GB_AxB_saxpy3_phase0 I).TaskList
      ((GB_AxB_saxpy3_phase0 I).TaskList t).master).master =
        ((GB_AxB_saxpy3_phase0 I).TaskList t).master ∧
    (∀ j, ((GB_AxB_saxpy3_phase0 I).TaskList t).master ≤ j →
      j < ((GB_AxB_saxpy3_phase0 I).TaskList t).master +
        ((GB_AxB_saxpy3_phase0 I).TaskList t).team_size →
      ((GB_AxB_saxpy3_phase0 I).TaskList j).master =
        ((GB_AxB_saxpy3_phase0 I).TaskList t).master ∧
      ((GB_AxB_saxpy3_phase0 I).TaskList j).vector =
        ((GB_AxB_saxpy3_phase0 I).TaskList t).vector ∧
      ((GB_AxB_saxpy3_phase0 I).TaskList j).team_size =
        ((GB_AxB_saxpy3_phase0 I).TaskList t).team_size ∧
      ((GB_AxB_saxpy3_phase0 I).TaskList j).hsize =
        GB_hash_table_size (max 1 (I.env.jflops ((GB_AxB_saxpy3_phase0 I).TaskList t).vector))
          I.cvlen (GB_AxB_saxpy3_phase0 I).AxB_method) ∧
    (I.ntasks_initial > 1 →
      1 ≤ I.env.jflops ((GB_AxB_saxpy3_phase0 I).TaskList t).vector) := by
  by_cases hm : I.ntasks_initial > 1
  · obtain ⟨f1, f2, f3, f4, f5, f6, f7, f8⟩ := phase0_fine I hchunk hm (hps hm) t ht0 ht1
    have hc := pulled_out_costly _ _ f8
    have hj := jflops_pos_of_costly I.env (le_of_lt (target_sizes_pos I hchunk).1) _ hc
    have hts : ((GB_AxB_saxpy3_phase0 I).TaskList t).team_size =
        I.env.team_size ((GB_AxB_saxpy3_phase0 I).TaskList t).vector := by
      have := congrArg GB_saxpy3task_struct.team_size (f1 t f3 f4)
      rw [fine_task_team_size] at this
      exact this
    have hn := env_team_size_ge_two I hchunk _ hc
    rw [← hts] at f4 hn
    have hteam : ∀ j, ((GB_AxB_saxpy3_phase0 I).TaskList t).master ≤ j →
        j < ((GB_AxB_saxpy3_phase0 I).TaskList t).master +
          ((GB_AxB_saxpy3_phase0 I).TaskList t).team_size →
        (GB_AxB_saxpy3_phase0 I).TaskList j =
          fine_task I.env ((GB_AxB_saxpy3_phase0 I).TaskList t).vector
            ((GB_AxB_saxpy3_phase0 I).TaskList t).master
            (j - ((GB_AxB_saxpy3_phase0 I).TaskList t).master) := by
      intro j j1 j2
      exact f1 j j1 (by rw [← hts]; exact j2)
    refine ⟨f3, f4, ?_, ?_, fun _ => hj⟩
    · rw [hteam _ (le_refl _) (by omega)]
      rfl
    · intro j j1 j2
      have e := hteam j j1 j2
      refine ⟨by rw [e]; rfl, by rw [e]; rfl, ?_, ?_⟩
      · rw [hts, e]; rfl
      · rw [max_eq_right hj, e]
        rfl
  · obtain ⟨hT, h1, h2⟩ := phase0_single_nfine I hm
    have hb : I.bnvec = 1 := by
      by_contra hb
      have := h2 hb
      omega
    obtain ⟨a1, a2, a3⟩ := h1 hb
    have ht : t = 0 := by omega
    subst ht
    have h0 := create_single_fine I.env hb
    rw [← hT] at h0
    have e2 : ((GB_AxB_saxpy3_phase0 I).TaskList 0).master = 0 := by rw [h0]; rfl
    have e3 : ((GB_AxB_saxpy3_phase0 I).TaskList 0).team_size = 1 := by rw [h0]; rfl
    have e1 : ((GB_AxB_saxpy3_phase0 I).TaskList 0).vector = 0 := by rw [h0]
    have e4 : ((GB_AxB_saxpy3_phase0 I).TaskList 0).hsize =
        GB_hash_table_size (max 1 (I.env.jflops 0)) I.cvlen
          (GB_AxB_saxpy3_phase0 I).AxB_method := by
      rw [h0]
      have hb2 : I.env.bnvec = 1 := hb
      show GB_hash_table_size (coarse_flmax I.env.Bflops (I.env.bnvec - 1 - 0 + 1).toNat 0 1)
        I.env.cvlen I.env.AxB_method = _
      rw [hb2]
      have : ((1 : Int) - 1 - 0 + 1).toNat = 1 := by decide
      rw [this, coarse_flmax_one_step]
      rfl
    rw [e2, e3, e1]
    refine ⟨le_refl _, by norm_num, e2, ?_, fun h => absurd h hm⟩
    intro j j1 j2
    have : j = 0 := by omega
    subst this
    exact ⟨e2, e1, e3, e4⟩

/-- Witness of claim C22: the fine task `t = 3` of `input_fine_team`. -/
theorem fine_team_linkage_witness :
    (0 : ℚ) < input_fine_team.chunk ∧ (3 : Int) < (GB_AxB_saxpy3_phase0 input_fine_team).nfine ∧
    ((GB_AxB_saxpy3_phase0 input_fine_team).TaskList 3).master ≤ 3 ∧
    3 < ((GB_AxB_saxpy3_phase0 input_fine_team).TaskList 3).master +
      ((GB_AxB_saxpy3_phase0 input_fine_team).TaskList 3).team_size :=
  ⟨by decide!, by decide!,
    (fine_team_linkage input_fine_team (by decide!)
      (fun _ => unit_pslice_ok input_fine_team.env.Bflops 3 4 (by decide) (by decide))
      3 (by decide) (by decide!)).1,
    (fine_team_linkage input_fine_team (by decide!)
      (fun _ => unit_pslice_ok input_fine_team.env.Bflops 3 4 (by decide) (by decide))
      3 (by decide) (by decide!)).2.1⟩

/-- Claim C23: for a coarse task over the vectors `kfirst .. klast`, the value
`flmax` of the parallel reduction is, for every number `nth ≥ 1` of threads and
every partition of the vectors among them, `max (1, max of Bflops [kk+1] -
Bflops [kk])`, the value of the sequential loop; and for every vector `kk` of
the task either `hsize = cvlen` or `hsize ≥ 2 * (Bflops [kk+1] - Bflops [kk])`. -/
theorem coarse_task_workspace_large_enough (Bflops : Int → Int) (kfirst klast : Int)
    (TaskList : Int → GB_saxpy3task_struct) (taskid cvlen : Int) (AxB_method : GrB_Desc_Value)
    (nth : Int) (part : Int → Int × Int) (hk : kfirst ≤ klast) (hnth : 1 ≤ nth)
    (hpart : partition_ok part (klast - kfirst + 1) nth) :
    is_flmax Bflops kfirst (klast + 1) (coarse_flmax_parallel Bflops kfirst nth part) ∧
    coarse_flmax_parallel Bflops kfirst nth part =
      coarse_flmax Bflops (klast - kfirst + 1).toNat kfirst 1 ∧
    (GB_create_coarse_task kfirst klast TaskList taskid Bflops cvlen AxB_method taskid).hsize =
      GB_hash_table_size (coarse_flmax_parallel Bflops kfirst nth part) cvlen AxB_method ∧
    (∀ kk, kfirst ≤ kk → kk ≤ klast →
      (GB_create_coarse_task kfirst klast TaskList taskid Bflops cvlen AxB_method
        taskid).hsize = cvlen ∨
      (GB_create_coarse_task kfirst klast TaskList taskid Bflops cvlen AxB_method
        taskid).hsize ≥ 2 * (Bflops (kk + 1) - Bflops kk)) := by
  have e1 : kfirst + (klast - kfirst + 1) = klast + 1 := by ring
  have hpar : is_flmax Bflops kfirst (klast + 1)
      (coarse_flmax_parallel Bflops kfirst nth part) := by
    have := combine_flmax_spec Bflops kfirst (klast - kfirst + 1) nth part hpart
      nth.toNat 0 1 (le_refl _) (by omega)
      (fun _ => by rw [hpart.1, add_zero]; exact is_flmax_empty Bflops kfirst)
      (fun h => by omega)
    rw [e1] at this
    exact this
  have hseq : is_flmax Bflops kfirst (klast + 1)
      (coarse_flmax Bflops (klast - kfirst + 1).toNat kfirst 1) := by
    have := coarse_flmax_spec Bflops kfirst (klast - kfirst + 1).toNat kfirst 1 (le_refl _)
      (is_flmax_empty Bflops kfirst)
    rw [Int.toNat_of_nonneg (by omega), e1] at this
    exact this
  have heq := is_flmax_unique Bflops kfirst (klast + 1) _ _ hpar hseq
  have hh : (GB_create_coarse_task kfirst klast TaskList taskid Bflops cvlen AxB_method
      taskid).hsize =
      GB_hash_table_size (coarse_flmax_parallel Bflops kfirst nth part) cvlen AxB_method := by
    rw [heq]
    simp [GB_create_coarse_task, setTask, coarse_task]
  refine ⟨hpar, heq, hh, ?_⟩
  intro kk k1 k2
  rw [hh]
  cases hg : GB_use_Gustavson (coarse_flmax_parallel Bflops kfirst nth part) cvlen AxB_method
  · right
    rw [GB_hash_table_size_of_hash _ _ _ hg]
    have h1 := GB_hash_size_gt (coarse_flmax_parallel Bflops kfirst nth part)
    have h2 := hpar.2.1 kk k1 (by omega)
    omega
  · left
    exact GB_hash_table_size_of_gus _ _ _ hg

/-- Witness of claim C23: three vectors with 1, 1 and 10 flops, reduced by two
threads, `cvlen = 1000`. -/
theorem coarse_task_workspace_large_enough_witness :
    is_flmax (array_of [0, 1, 2, 12]) 0 (2 + 1)
      (coarse_flmax_parallel (array_of [0, 1, 2, 12]) 0 2 (pair_partition 3)) ∧
    coarse_flmax_parallel (array_of [0, 1, 2, 12]) 0 2 (pair_partition 3) =
      coarse_flmax (array_of [0, 1, 2, 12]) ((2 : Int) - 0 + 1).toNat 0 1 :=
  ⟨(coarse_task_workspace_large_enough (array_of [0, 1, 2, 12]) 0 2 (fun _ => GB_calloc_task)
      0 1000 GxB_DEFAULT 2 (pair_partition 3) (by decide) (by decide)
      ⟨by decide, by decide, fun tid h0 h1 => by simp only [pair_partition]; omega,
        fun tid h0 h1 => by
          have : tid = 0 := by omega
          subst this
          decide⟩).1,
    (coarse_task_workspace_large_enough (array_of [0, 1, 2, 12]) 0 2 (fun _ => GB_calloc_task)
      0 1000 GxB_DEFAULT 2 (pair_partition 3) (by decide) (by decide)
      ⟨by decide, by decide, fun tid h0 h1 => by simp only [pair_partition]; omega,
        fun tid h0 h1 => by
          have : tid = 0 := by omega
          subst this
          decide⟩).2.1⟩

/-- Claim C24: for `flmax ≥ 1`, whenever `GB_hash_table_size` selects the Hash
method the size is a power of two, twice the smallest power of two strictly
greater than `flmax`, and strictly smaller than `cvlen`; hence the size equals
`cvlen` exactly when Gustavson's method was selected. -/
theorem hash_capacity_as_documented (f L : Int) (m : GrB_Desc_Value) (hf : 1 ≤ f) :
    (GB_use_Gustavson f L m = false →
      (∃ k : Nat, GB_hash_table_size f L m = 2 ^ k) ∧
      GB_hash_table_size f L m = 2 * 2 ^ (Nat.log 2 f.toNat + 1) ∧
      f < 2 ^ (Nat.log 2 f.toNat + 1) ∧
      (∀ j : Nat, f < 2 ^ j → Nat.log 2 f.toNat + 1 ≤ j) ∧
      GB_hash_table_size f L m < L) ∧
    (GB_hash_table_size f L m = L ↔ GB_use_Gustavson f L m = true) := by
  have hlt : GB_use_Gustavson f L m = false → GB_hash_table_size f L m < L := by
    intro h
    rw [GB_hash_table_size_of_hash f L m h]
    exact GB_hash_size_lt_of_hash_any f L m h
  refine ⟨?_, ?_⟩
  · intro h
    refine ⟨⟨Nat.log 2 f.toNat + 2, ?_⟩, ?_, lt_two_pow_log_succ f, ?_, hlt h⟩
    · rw [GB_hash_table_size_of_hash f L m h, GB_hash_size_eq]
      ring
    · rw [GB_hash_table_size_of_hash f L m h, GB_hash_size_eq]
    · intro j hj
      have h1 := two_pow_log_le f hf
      have h2 : (2 : Int) ^ Nat.log 2 f.toNat < 2 ^ j := lt_of_le_of_lt h1 hj
      by_contra hc
      push_neg at hc
      have : (2 : Int) ^ j ≤ 2 ^ Nat.log 2 f.toNat :=
        pow_le_pow_right₀ (by norm_num) (by omega)
      omega
  · constructor
    · intro h
      by_contra hg
      have hg2 : GB_use_Gustavson f L m = false := by
        cases hh : GB_use_Gustavson f L m
        · rfl
        · exact absurd hh hg
      have := hlt hg2
      omega
    · intro h
      exact GB_hash_table_size_of_gus f L m h

/-- Witness of claim C24: `flmax = 3`, `cvlen = 1000`, default hint: the size
is `16 = 2 * 8`. -/
theorem hash_capacity_as_documented_witness :
    (1 : Int) ≤ 3 ∧ GB_use_Gustavson 3 1000 GxB_DEFAULT = false ∧
    GB_hash_table_size 3 1000 GxB_DEFAULT = 2 * 2 ^ (Nat.log 2 (3 : Int).toNat + 1) ∧
    GB_hash_table_size 3 1000 GxB_DEFAULT < 1000 :=
  ⟨by decide, by decide,
    ((hash_capacity_as_documented 3 1000 GxB_DEFAULT (by decide)).1 (by decide)).2.1,
    ((hash_capacity_as_documented 3 1000 GxB_DEFAULT (by decide)).1 (by decide)).2.2.2.2⟩

/-- Claim C25 (amended): every coarse task of the final task list owns at least
one vector (`0 ≤ start ≤ end < bnvec`), provided that B has at least one vector
when the single-task branch is taken. -/
theorem coarse_tasks_own_a_vector (I : Saxpy3Input) (hchunk : 0 < I.chunk)
    (hps : I.ntasks_initial > 1 → pslice_ok I.env.Coarse_initial I.bnvec I.ntasks_initial)
    (hb : ¬ I.ntasks_initial > 1 → 1 ≤ I.bnvec)
    (t : Int) (ht0 : (GB_AxB_saxpy3_phase0 I).nfine ≤ t)
    (ht1 : t < (GB_AxB_saxpy3_phase0 I).ntasks) :
    0 ≤ ((GB_AxB_saxpy3_phase0 I).TaskList t).start ∧
    ((GB_AxB_saxpy3_phase0 I).TaskList t).start ≤ ((GB_AxB_saxpy3_phase0 I).TaskList t).end_ ∧
    ((GB_AxB_saxpy3_phase0 I).TaskList t).end_ < I.bnvec := by
  by_cases hm : I.ntasks_initial > 1
  · obtain ⟨_, c2, c3, c4, _⟩ := phase0_coarse I hchunk hm (hps hm) t ht0 ht1
    exact ⟨c2, c3, c4⟩
  · obtain ⟨hT, h1, h2⟩ := phase0_single_nfine I hm
    have hb1 : I.bnvec ≠ 1 := by
      intro h
      have := h1 h
      omega
    have := h2 hb1
    have ht : t = 0 := by omega
    subst ht
    have h0 := create_single_coarse I.env hb1
    rw [← hT] at h0
    have hb2 := hb hm
    rw [h0]
    refine ⟨le_refl _, ?_, ?_⟩
    · show (0 : Int) ≤ I.bnvec - 1
      omega
    · show I.bnvec - 1 < I.bnvec
      omega

/-- Witness of claim C25 (amended): the coarse task `t = 7` of
`input_fine_team`. -/
theorem coarse_tasks_own_a_vector_witness :
    (0 : ℚ) < input_fine_team.chunk ∧
    (GB_AxB_saxpy3_phase0 input_fine_team).nfine ≤ 7 ∧
    (7 : Int) < (GB_AxB_saxpy3_phase0 input_fine_team).ntasks ∧
    ((GB_AxB_saxpy3_phase0 input_fine_team).TaskList 7).start ≤
      ((GB_AxB_saxpy3_phase0 input_fine_team).TaskList 7).end_ :=
  ⟨by decide!, by decide!, by decide!,
    (coarse_tasks_own_a_vector input_fine_team (by decide!)
      (fun _ => unit_pslice_ok input_fine_team.env.Bflops 3 4 (by decide) (by decide))
      (fun h => absurd (by decide! : input_fine_team.ntasks_initial > 1) h)
      7 (by decide!) (by decide!)).2.1⟩

/-- Counterexample to claim C25 as stated: for `input_no_vectors` (one thread,
B without vectors) the task list is one coarse task with `start = 0` and
`end = -1`. -/
theorem coarse_task_over_no_vector :
    input_no_vectors.bnvec = 0 ∧
    (GB_AxB_saxpy3_phase0 input_no_vectors).nfine = 0 ∧
    (GB_AxB_saxpy3_phase0 input_no_vectors).ntasks = 1 ∧
    ((GB_AxB_saxpy3_phase0 input_no_vectors).TaskList 0).vector = -1 ∧
    ((GB_AxB_saxpy3_phase0 input_no_vectors).TaskList 0).start = 0 ∧
    ((GB_AxB_saxpy3_phase0 input_no_vectors).TaskList 0).end_ = -1 ∧
    ¬ ((GB_AxB_saxpy3_phase0 input_no_vectors).TaskList 0).start ≤
      ((GB_AxB_saxpy3_phase0 input_no_vectors).TaskList 0).end_ := by
  decide!

/-- Claim C26: in the dense-but-costly branch the loop that adds the work of the
mask increases every per-column cost `Bflops [k+1] - Bflops [k]` by exactly
`cvlen`; a cost that was `≥ 0` stays `≥ 0` when `cvlen ≥ 0`. -/
theorem dense_mask_adjustment_monotone (I : Saxpy3Input) (hd : I.M_is_dense = true)
    (hmeth : I.AxB_method = GxB_DEFAULT ∨ I.AxB_method = GxB_AxB_SAXPY)
    (hcostly : ¬ ((I.Bflops I.bnvec - I.Mwork : Int) : ℚ) <
      ((I.cvlen * I.cvdim : Int) : ℚ) * GB_MWORK_BETA)
    (k : Int) (hk0 : 0 ≤ k) (hk1 : k < I.bnvec) :
    (GB_AxB_saxpy3_mask_policy I).Bflops (k + 1) - (GB_AxB_saxpy3_mask_policy I).Bflops k =
      (I.Bflops (k + 1) - I.Bflops k) + I.cvlen ∧
    (0 ≤ I.cvlen → 0 ≤ I.Bflops (k + 1) - I.Bflops k →
      0 ≤ (GB_AxB_saxpy3_mask_policy I).Bflops (k + 1) -
        (GB_AxB_saxpy3_mask_policy I).Bflops k) := by
  obtain ⟨_, _, h3, _⟩ := mask_policy_dense_costly I hd hmeth hcostly
  have e : (GB_AxB_saxpy3_mask_policy I).Bflops (k + 1) -
      (GB_AxB_saxpy3_mask_policy I).Bflops k = (I.Bflops (k + 1) - I.Bflops k) + I.cvlen := by
    rw [h3 (k + 1) (by omega) (by omega), h3 k hk0 (by omega)]
    ring
  refine ⟨e, ?_⟩
  intro hc hdiff
  rw [e]
  omega

/-- Witness of claim C26: vector 1 of `input_dense_mask_costly`. -/
theorem dense_mask_adjustment_monotone_witness :
    input_dense_mask_costly.M_is_dense = true ∧
    (GB_AxB_saxpy3_mask_policy input_dense_mask_costly).Bflops (1 + 1) -
      (GB_AxB_saxpy3_mask_policy input_dense_mask_costly).Bflops 1 =
      (input_dense_mask_costly.Bflops (1 + 1) - input_dense_mask_costly.Bflops 1) +
        input_dense_mask_costly.cvlen :=
  ⟨by decide,
    (dense_mask_adjustment_monotone input_dense_mask_costly (by decide) (Or.inl (by decide))
      (by decide!) 1 (by decide) (by decide)).1⟩

/-- Claim C27: under the precondition `anz_new > A->nzmax ≥ 0`, `GB_ix_resize`
asks for the capacity `2 * anz_new`, which exceeds the original capacity and is
at least `anz_new`; when `GB_ix_realloc` succeeds (leaving `nzmax` at the
capacity asked for) the status is `GrB_SUCCESS` and `anz_new ≤ A->nzmax`; when
it fails the status is that of `GB_ix_realloc` and the content of `A` has been
freed by `GB_phbix_free`. -/
theorem ix_resize_doubles (K : ResizeCalls) (A : GB_Matrix) (anz_new : Int)
    (h0 : 0 ≤ A.nzmax) (h1 : A.nzmax < anz_new) :
    (GB_ix_resize K A anz_new).anzmax_new = 2 * anz_new ∧
    A.nzmax < (GB_ix_resize K A anz_new).anzmax_new ∧
    anz_new ≤ (GB_ix_resize K A anz_new).anzmax_new ∧
    ((K.GB_ix_realloc A (2 * anz_new)).1 = GrB_SUCCESS →
      (GB_ix_resize K A anz_new).info = GrB_SUCCESS ∧
      (GB_ix_resize K A anz_new).A = (K.GB_ix_realloc A (2 * anz_new)).2 ∧
      ((K.GB_ix_realloc A (2 * anz_new)).2.nzmax = 2 * anz_new →
        anz_new ≤ (GB_ix_resize K A anz_new).A.nzmax)) ∧
    ((K.GB_ix_realloc A (2 * anz_new)).1 ≠ GrB_SUCCESS →
      (GB_ix_resize K A anz_new).info = (K.GB_ix_realloc A (2 * anz_new)).1 ∧
      (GB_ix_resize K A anz_new).info ≠ GrB_SUCCESS ∧
      (GB_ix_resize K A anz_new).A = K.GB_phbix_free (K.GB_ix_realloc A (2 * anz_new)).2) := by
  have e : (GB_ix_resize K A anz_new).anzmax_new = 2 * anz_new := by
    unfold GB_ix_resize
    simp only []
    split_ifs <;> rfl
  refine ⟨e, by rw [e]; omega, by rw [e]; omega, ?_, ?_⟩
  · intro hs
    have hA : (GB_ix_resize K A anz_new).A = (K.GB_ix_realloc A (2 * anz_new)).2 := by
      unfold GB_ix_resize
      simp only []
      rw [if_neg (by rw [hs]; exact fun h => h rfl)]
    refine ⟨?_, hA, ?_⟩
    · unfold GB_ix_resize
      simp only []
      rw [if_neg (by rw [hs]; exact fun h => h rfl)]
    · intro hn
      rw [hA, hn]
      omega
  · intro hf
    have hi : (GB_ix_resize K A anz_new).info = (K.GB_ix_realloc A (2 * anz_new)).1 := by
      unfold GB_ix_resize
      simp only []
      rw [if_pos hf]
    refine ⟨hi, by rw [hi]; exact hf, ?_⟩
    unfold GB_ix_resize
    simp only []
    rw [if_pos hf]

/-- Witness of claim C27: `matrix_4x5` (capacity 3) resized for 5 entries. -/
theorem ix_resize_doubles_witness :
    (0 : Int) ≤ matrix_4x5.nzmax ∧ matrix_4x5.nzmax < 5 ∧
    (GB_ix_resize resize_calls_ok matrix_4x5 5).anzmax_new = 2 * 5 ∧
    (GB_ix_resize resize_calls_ok matrix_4x5 5).info = GrB_SUCCESS ∧
    (5 : Int) ≤ (GB_ix_resize resize_calls_ok matrix_4x5 5).A.nzmax :=
  ⟨by decide, by decide,
    (ix_resize_doubles resize_calls_ok matrix_4x5 5 (by decide) (by decide)).1,
    ((ix_resize_doubles resize_calls_ok matrix_4x5 5 (by decide) (by decide)).2.2.2.1
      (by decide)).1,
    ((ix_resize_doubles resize_calls_ok matrix_4x5 5 (by decide) (by decide)).2.2.2.1
      (by decide)).2.2 (by decide)⟩

/-- Claim C28: for the semiring `LOR_GE_UINT16`, `GB_MULTADD` is `GB_MULT`
followed by the add; once `cij` is `true` folding any further products leaves it
`true`; folding with the break at the terminal value gives the same `cij` as
folding every product; and folding from the identity `false` gives the logical
OR of all products. -/
theorem lor_ge_terminal_preserves_result :
    (∀ (z : Bool) (x y : Nat), GB_MULTADD z x y = GB_ADD z (GB_MULT x y)) ∧
    (∀ l : List (Nat × Nat), fold_products l true = true) ∧
    (∀ (l : List (Nat × Nat)) (cij : Bool),
      fold_products_terminal l cij = fold_products l cij) ∧
    (∀ l : List (Nat × Nat),
      fold_products l GB_IDENTITY = l.any (fun p => GB_MULT p.1 p.2)) := by
  have h1 : ∀ l : List (Nat × Nat), fold_products l true = true := by
    intro l
    induction l with
    | nil => rfl
    | cons p rest ih =>
      obtain ⟨a, b⟩ := p
      simp only [fold_products, GB_MULTADD, Bool.true_or]
      exact ih
  have h3 : ∀ (l : List (Nat × Nat)) (c : Bool),
      fold_products l c = (c || l.any (fun p => GB_MULT p.1 p.2)) := by
    intro l
    induction l with
    | nil => intro c; simp [fold_products]
    | cons p rest ih =>
      intro c
      obtain ⟨a, b⟩ := p
      simp only [fold_products, List.any_cons]
      rw [ih]
      simp [GB_MULTADD, GB_MULT, Bool.or_assoc]
  refine ⟨fun z x y => rfl, h1, ?_, ?_⟩
  · intro l
    induction l with
    | nil => intro c; rfl
    | cons p rest ih =>
      intro c
      obtain ⟨a, b⟩ := p
      simp only [fold_products, fold_products_terminal]
      cases hc : GB_MULTADD c a b
      · simp only [GB_DOT_TERMINAL]
        exact ih false
      · simp only [GB_DOT_TERMINAL]
        simp [h1]
  · intro l
    rw [h3]
    simp [GB_IDENTITY]

/-- Claim C29: when the entry positions of vector `k` of `M` are
`Mp [k] .. Mp [k+1] - 1`, every range of a task lies in the vector it is for,
and the ranges of the tasks hold every entry position, then after
`GB_dense_subassign_25_template` every entry position `pM` of a vector `k` of a
mask that is not bitmap has `Cx [pM] = Ax [j * avlen + i]` with `j = GBH (Mh, k)`
and `i = GBI (Mi, pM, mvlen)`; for a bitmap mask the positions with `Mb [pM]` set
have `Cx [pM] = Ax [pM]` and the others are not written; and no position outside
the entry positions is written. -/
theorem dense_subassign_25_copies_A (S : Subassign25) (Cx : Int → Int) (Mp : Int → Int)
    (mnvec : Int)
    (hMp : ∀ k, 0 ≤ k → k < mnvec → Mp k ≤ Mp (k + 1))
    (hrange : ∀ tid k, 0 ≤ tid → tid < S.ntasks → S.kfirst_slice tid ≤ k →
      k ≤ S.klast_slice tid →
      0 ≤ k ∧ k < mnvec ∧ Mp k ≤ (S.GB_get_pA tid k).1 ∧ (S.GB_get_pA tid k).2 ≤ Mp (k + 1))
    (hcover : ∀ k pM, 0 ≤ k → k < mnvec → Mp k ≤ pM → pM < Mp (k + 1) →
      ∃ tid, 0 ≤ tid ∧ tid < S.ntasks ∧ S.kfirst_slice tid ≤ k ∧ k ≤ S.klast_slice tid ∧
        (S.GB_get_pA tid k).1 ≤ pM ∧ pM < (S.GB_get_pA tid k).2) :
    (∀ k pM, 0 ≤ k → k < mnvec → Mp k ≤ pM → pM < Mp (k + 1) →
      (S.M_is_bitmap = false →
        GB_dense_subassign_25_template S Cx pM =
          S.Ax (S.GBH_Mh k * S.avlen + S.GBI_Mi pM)) ∧
      (S.M_is_bitmap = true → S.GBB_Mb pM = true →
        GB_dense_subassign_25_template S Cx pM = S.Ax pM) ∧
      (S.M_is_bitmap = true → S.GBB_Mb pM = false →
        GB_dense_subassign_25_template S Cx pM = Cx pM)) ∧
    (∀ pM, (¬ ∃ k, 0 ≤ k ∧ k < mnvec ∧ Mp k ≤ pM ∧ pM < Mp (k + 1)) →
      GB_dense_subassign_25_template S Cx pM = Cx pM) := by
  obtain ⟨sp1, sp2⟩ : (∀ q, _) ∧ (∀ q, _) :=
    ⟨fun q => (subassign_25_template_spec S Cx q).1,
      fun q => (subassign_25_template_spec S Cx q).2⟩
  constructor
  · intro k pM k0 k1 p0 p1
    obtain ⟨tid, t0, t1, a1, a2, a3, a4⟩ := hcover k pM k0 k1 p0 p1
    refine ⟨?_, ?_, ?_⟩
    · intro hb
      obtain ⟨tid', k', b0, b1, b2, b3, b4, b5, b6⟩ :=
        sp1 pM ⟨tid, k, t0, t1, a1, a2, a3, a4, by rw [hb]; exact fun h => absurd h (by decide)⟩
      obtain ⟨c0, c1, c2, c3⟩ := hrange tid' k' b0 b1 b2 b3
      have hk : k' = k := slice_unique Mp mnvec hMp k' k pM c0 c1 k0 k1 (by omega) (by omega)
        p0 p1
      rw [b6, hb, hk]
      rfl
    · intro hb hm
      obtain ⟨tid', k', b0, b1, b2, b3, b4, b5, b6⟩ :=
        sp1 pM ⟨tid, k, t0, t1, a1, a2, a3, a4, fun _ => hm⟩
      rw [b6, hb]
      rfl
    · intro hb hm
      apply sp2
      rintro ⟨tid', k', _, _, _, _, _, _, b7⟩
      have := b7 hb
      rw [hm] at this
      exact absurd this (by decide)
  · intro pM hn
    apply sp2
    rintro ⟨tid', k', b0, b1, b2, b3, b4, b5, _⟩
    obtain ⟨c0, c1, c2, c3⟩ := hrange tid' k' b0 b1 b2 b3
    exact hn ⟨k', c0, c1, by omega, by omega⟩

/-- Witness of claim C29: the mask of `subassign_25_example`; position 1 holds
row 2 of vector 0 and gets `Ax [0 * 3 + 2]`. -/
theorem dense_subassign_25_copies_A_witness :
    subassign_25_example.M_is_bitmap = false ∧
    GB_dense_subassign_25_template subassign_25_example (fun _ => 0) 1 =
      subassign_25_example.Ax
        (subassign_25_example.GBH_Mh 0 * subassign_25_example.avlen +
          subassign_25_example.GBI_Mi 1) :=
  ⟨by decide,
    ((dense_subassign_25_copies_A subassign_25_example (fun _ => 0) (array_of [0, 2, 3]) 2
      (by
        intro k h0 h1
        have : k = 0 ∨ k = 1 := by omega
        rcases this with h | h <;> subst h <;> decide)
      (by
        intro tid k t0 t1 k0 k1
        have ht : tid = 0 := by
          have : subassign_25_example.ntasks = 1 := rfl
          omega
        subst ht
        have hk0 : (0 : Int) ≤ k := k0
        have hk1 : k ≤ 1 := k1
        have : k = 0 ∨ k = 1 := by omega
        rcases this with h | h <;> subst h <;> decide)
      (by
        intro k pM k0 k1 p0 p1
        refine ⟨0, le_refl _, by decide, k0, ?_, p0, p1⟩
        show k ≤ 1
        omega)).1 0 1 (by decide) (by decide) (by decide) (by decide)).1 (by decide)⟩

/-- Claim C30 (amended): on the example of the spec (`cvlen = 3`, flop counts 1,
1 and 2) the one task has `hsize = cvlen = 3` under the force-Gustavson hint and
under the force-Hash hint as well: for every flop count the hash capacity is at
least 4, which is not below `cvlen`, so `GB_hash_table_size` returns `cvlen`
under either hint. -/
theorem spec_example_is_gustavson_under_both_hints :
    (∀ f : Int, GB_hash_table_size f 3 GxB_AxB_GUSTAVSON = 3) ∧
    (∀ f : Int, GB_hash_table_size f 3 GxB_AxB_HASH = 3) ∧
    (GB_AxB_saxpy3_phase0 (input_spec_example GxB_AxB_GUSTAVSON)).ntasks = 1 ∧
    ((GB_AxB_saxpy3_phase0 (input_spec_example GxB_AxB_GUSTAVSON)).TaskList 0).hsize =
      (input_spec_example GxB_AxB_GUSTAVSON).cvlen ∧
    (GB_AxB_saxpy3_phase0 (input_spec_example GxB_AxB_HASH)).ntasks = 1 ∧
    ((GB_AxB_saxpy3_phase0 (input_spec_example GxB_AxB_HASH)).TaskList 0).hsize =
      (input_spec_example GxB_AxB_HASH).cvlen := by
  refine ⟨?_, ?_, by decide!, by decide!, by decide!, by decide!⟩
  · intro f
    simp [GB_hash_table_size, GB_use_Gustavson]
  · intro f
    have h1 : (3 : Int) ≤ GB_hash_size f := by
      rw [GB_hash_size_eq, pow_succ]
      have : (1 : Int) ≤ 2 ^ Nat.log 2 f.toNat := one_le_pow₀ (by norm_num)
      omega
    simp [GB_hash_table_size, GB_use_Gustavson, h1]

/-- Counterexample to claim C30 as stated: on the example of the spec with the
force-Hash hint the task has flop count `flmax = 2`, the hash capacity 8 is not
below `cvlen = 3`, and `hsize = cvlen`. -/
theorem spec_example_force_hash_is_gustavson :
    (input_spec_example GxB_AxB_HASH).cvlen = 3 ∧
    (GB_AxB_saxpy3_phase0 (input_spec_example GxB_AxB_HASH)).AxB_method = GxB_AxB_HASH ∧
    GB_hash_size 2 = 8 ∧
    ((GB_AxB_saxpy3_phase0 (input_spec_example GxB_AxB_HASH)).TaskList 0).start = 0 ∧
    ((GB_AxB_saxpy3_phase0 (input_spec_example GxB_AxB_HASH)).TaskList 0).end_ = 2 ∧
    ((GB_AxB_saxpy3_phase0 (input_spec_example GxB_AxB_HASH)).TaskList 0).hsize = 3 := by
  decide!

/-- Claim C31: in the workspace allocation a table `H` of `hsize` entries is
allocated for exactly the tasks that are their own master: every coarse task
is one, a fine task is one when it is the first member of its team, and no
table is allocated for another member of a team (or outside the task list).
When every allocation succeeds, the number of tables is `ncoarse` plus the
number of fine tasks that are their own master (the number of fine teams). -/
theorem one_workspace_per_master (I : Saxpy3Input) (hchunk : 0 < I.chunk)
    (hps : I.ntasks_initial > 1 → pslice_ok I.env.Coarse_initial I.bnvec I.ntasks_initial)
    (O : Saxpy3Calls) :
    (∀ t, 0 ≤ t → t < (GB_AxB_saxpy3_phase0 I).ntasks →
      (alloc_workspace O (GB_AxB_saxpy3_phase0 I)).H t =
        if ((GB_AxB_saxpy3_phase0 I).TaskList t).master = t ∧ O.H_ok t = true then
          some ((GB_AxB_saxpy3_phase0 I).TaskList t).hsize
        else none) ∧
    (∀ t, (GB_AxB_saxpy3_phase0 I).nfine ≤ t → t < (GB_AxB_saxpy3_phase0 I).ntasks →
      ((GB_AxB_saxpy3_phase0 I).TaskList t).master = t) ∧
    (∀ t, t < 0 ∨ (GB_AxB_saxpy3_phase0 I).ntasks ≤ t →
      (alloc_workspace O (GB_AxB_saxpy3_phase0 I)).H t = none) ∧
    ((∀ t, O.H_ok t = true) →
      ((List.range (GB_AxB_saxpy3_phase0 I).ntasks.toNat).filter
        (fun t : Nat =>
          ((alloc_workspace O (GB_AxB_saxpy3_phase0 I)).H (t : Int)).isSome)).length =
      (GB_AxB_saxpy3_phase0 I).ncoarse.toNat +
        ((List.range (GB_AxB_saxpy3_phase0 I).nfine.toNat).filter
          (fun t : Nat =>
            decide (((GB_AxB_saxpy3_phase0 I).TaskList (t : Int)).master = (t : Int)))).length)
    := by
  obtain ⟨c0, c1, c2⟩ := phase0_counts I hchunk hps
  have hW := alloc_workspace_H O (GB_AxB_saxpy3_phase0 I) c0 (by omega)
  have hcm := phase0_coarse_master I hchunk hps
  have hin : ∀ t, 0 ≤ t → t < (GB_AxB_saxpy3_phase0 I).ntasks →
      (alloc_workspace O (GB_AxB_saxpy3_phase0 I)).H t =
        if ((GB_AxB_saxpy3_phase0 I).TaskList t).master = t ∧ O.H_ok t = true then
          some ((GB_AxB_saxpy3_phase0 I).TaskList t).hsize
        else none := by
    intro t t0 t1
    rw [hW t]
    by_cases hm : ((GB_AxB_saxpy3_phase0 I).TaskList t).master = t
    · have h2 : ((GB_AxB_saxpy3_phase0 I).nfine ≤ t ∧ t < (GB_AxB_saxpy3_phase0 I).ntasks) ∨
          (0 ≤ t ∧ t < (GB_AxB_saxpy3_phase0 I).nfine ∧
            ((GB_AxB_saxpy3_phase0 I).TaskList t).master = t) := by
        by_cases hf : t < (GB_AxB_saxpy3_phase0 I).nfine
        · exact Or.inr ⟨t0, hf, hm⟩
        · exact Or.inl ⟨by omega, t1⟩
      rw [if_pos h2]
      by_cases hk : O.H_ok t = true
      · rw [if_pos hk, if_pos ⟨hm, hk⟩]
      · rw [if_neg hk, if_neg (fun h => hk h.2)]
    · have h2 : ¬ (((GB_AxB_saxpy3_phase0 I).nfine ≤ t ∧
          t < (GB_AxB_saxpy3_phase0 I).ntasks) ∨
          (0 ≤ t ∧ t < (GB_AxB_saxpy3_phase0 I).nfine ∧
            ((GB_AxB_saxpy3_phase0 I).TaskList t).master = t)) := by
        rintro (⟨a, b⟩ | ⟨_, _, c⟩)
        · exact hm (hcm t a b)
        · exact hm c
      rw [if_neg h2, if_neg (fun h => hm h.1)]
  refine ⟨hin, hcm, ?_, ?_⟩
  · intro t ht
    rw [hW t, if_neg]
    rintro (⟨a, b⟩ | ⟨a, b, _⟩) <;> omega
  · intro hok
    have hn : (GB_AxB_saxpy3_phase0 I).ntasks.toNat =
        (GB_AxB_saxpy3_phase0 I).nfine.toNat + (GB_AxB_saxpy3_phase0 I).ncoarse.toNat := by
      omega
    rw [hn, List.range_add, List.filter_append, List.length_append, Nat.add_comm]
    congr 1
    · have hall : List.filter
          (fun t : Nat =>
            ((alloc_workspace O (GB_AxB_saxpy3_phase0 I)).H (t : Int)).isSome)
          (List.map (fun x => (GB_AxB_saxpy3_phase0 I).nfine.toNat + x)
            (List.range (GB_AxB_saxpy3_phase0 I).ncoarse.toNat)) =
          List.map (fun x => (GB_AxB_saxpy3_phase0 I).nfine.toNat + x)
            (List.range (GB_AxB_saxpy3_phase0 I).ncoarse.toNat) := by
        rw [List.filter_eq_self]
        intro a ha
        rw [List.mem_map] at ha
        obtain ⟨x, hx, rfl⟩ := ha
        rw [List.mem_range] at hx
        have t0 : (0 : Int) ≤ ((GB_AxB_saxpy3_phase0 I).nfine.toNat + x : Nat) := by omega
        have t1 : (((GB_AxB_saxpy3_phase0 I).nfine.toNat + x : Nat) : Int) <
            (GB_AxB_saxpy3_phase0 I).ntasks := by omega
        have t2 : (GB_AxB_saxpy3_phase0 I).nfine ≤
            (((GB_AxB_saxpy3_phase0 I).nfine.toNat + x : Nat) : Int) := by omega
        rw [hin _ t0 t1, if_pos ⟨hcm _ t2 t1, hok _⟩]
        rfl
      rw [hall, List.length_map, List.length_range]
    · congr 1
      apply List.filter_congr
      intro x hx
      rw [List.mem_range] at hx
      have t0 : (0 : Int) ≤ (x : Int) := by omega
      have t1 : (x : Int) < (GB_AxB_saxpy3_phase0 I).ntasks := by omega
      rw [hin _ t0 t1]
      by_cases hm : ((GB_AxB_saxpy3_phase0 I).TaskList (x : Int)).master = (x : Int)
      · rw [if_pos ⟨hm, hok _⟩]
        simp [hm]
      · rw [if_neg (fun h => hm h.1)]
        simp [hm]

/-- Witness of claim C31: `input_fine_team` (a team of seven fine tasks and two
coarse tasks) with every allocation succeeding: task 3, a member of the team
that is not its master, gets no table. -/
theorem one_workspace_per_master_witness :
    (0 : ℚ) < input_fine_team.chunk ∧
    (alloc_workspace calls_all_ok (GB_AxB_saxpy3_phase0 input_fine_team)).H 3 =
      (if ((GB_AxB_saxpy3_phase0 input_fine_team).TaskList 3).master = 3 ∧
          calls_all_ok.H_ok 3 = true then
        some ((GB_AxB_saxpy3_phase0 input_fine_team).TaskList 3).hsize
      else none) :=
  ⟨by decide!,
    (one_workspace_per_master input_fine_team (by decide!)
      (fun _ => unit_pslice_ok input_fine_team.env.Bflops 3 4 (by decide) (by decide))
      calls_all_ok).1 3 (by decide) (by decide!)⟩

/-- Claim C32: whatever `A` and `B` are, `GB_iso_AxB` returns `false` when the
multiply operator is positional or the monoid is user-defined; and for a
multiply operator `PAIR` (which is not positional) with a built-in monoid whose
renamed opcode is one of `ANY`, `LAND`, `LOR`, `BAND`, `BOR`, `MIN`, `MAX`, `EQ`,
`TIMES`, it returns `true` with `c = 1`. -/
theorem iso_AxB_rejects_and_pair {V : Type} (P : IsoAxB V) :
    (P.mult_is_positional = true ∨ P.add_opcode = GB_USER_opcode → GB_iso_AxB P = none) ∧
    (P.mult_is_positional = false → P.add_opcode ≠ GB_USER_opcode →
      P.mult_renamed = GB_PAIR_opcode →
      P.add_renamed ∈ [GB_ANY_opcode, GB_LAND_opcode, GB_LOR_opcode, GB_BAND_opcode,
        GB_BOR_opcode, GB_MIN_opcode, GB_MAX_opcode, GB_EQ_opcode, GB_TIMES_opcode] →
      GB_iso_AxB P = some (P.GB_cast_one P.zcode)) ∧
    (P.xcode ≠ GB_BOOL_code → P.mult_renamed = P.mult_opcode) ∧
    (P.zcode ≠ GB_BOOL_code → P.add_renamed = P.add_opcode) := by
  refine ⟨?_, ?_, ?_, ?_⟩
  · intro h
    unfold GB_iso_AxB
    rw [if_pos h]
  · intro hp hu hm ha
    have hn : nice_with_pair P.add_renamed = true := by
      simp only [List.mem_cons, List.mem_singleton, List.not_mem_nil, or_false] at ha
      rcases ha with h | h | h | h | h | h | h | h | h <;> rw [h] <;> decide
    unfold GB_iso_AxB
    rw [if_neg (by rw [hp]; simp [hu]), if_pos ⟨hn, hm⟩]
  · intro h
    simp [IsoAxB.mult_renamed, h]
  · intro h
    simp [IsoAxB.add_renamed, h]

/-- Witness of claim C32: the instance `iso_example_max_first` with the multiply
operator replaced by `PAIR`, neither matrix iso. -/
theorem iso_AxB_rejects_and_pair_witness :
    GB_iso_AxB { iso_example_max_first with
      mult_opcode := GB_PAIR_opcode, A_iso_flag := false } = some 1 :=
  (iso_AxB_rejects_and_pair { iso_example_max_first with
    mult_opcode := GB_PAIR_opcode, A_iso_flag := false }).2.1
      (by decide) (by decide) (by decide) (by decide)

/-- Claim C33: when more than one initial partition is used (and `chunk > 0`),
the creation pass ends with the fine cursor `nf = nfine` and the coarse cursor
`nc = ntasks = nfine + ncoarse`, whatever the cost array and the initial slice;
every slot it writes has an index in `0 .. ntasks-1`, and every slot
`0 .. ntasks-1` is written exactly once. -/
theorem counting_and_creation_agree (I : Saxpy3Input) (hchunk : 0 < I.chunk)
    (hm : I.ntasks_initial > 1) :
    (create_multi_trace I.env (GB_AxB_saxpy3_phase0 I).nfine).s.TaskList =
      (GB_AxB_saxpy3_phase0 I).TaskList ∧
    (create_multi_trace I.env (GB_AxB_saxpy3_phase0 I).nfine).s.nf =
      (GB_AxB_saxpy3_phase0 I).nfine ∧
    (create_multi_trace I.env (GB_AxB_saxpy3_phase0 I).nfine).s.nc =
      (GB_AxB_saxpy3_phase0 I).ntasks ∧
    (GB_AxB_saxpy3_phase0 I).ntasks =
      (GB_AxB_saxpy3_phase0 I).nfine + (GB_AxB_saxpy3_phase0 I).ncoarse ∧
    (∀ i ∈ (create_multi_trace I.env (GB_AxB_saxpy3_phase0 I).nfine).log,
      0 ≤ i ∧ i < (GB_AxB_saxpy3_phase0 I).ntasks) ∧
    (∀ i, 0 ≤ i → i < (GB_AxB_saxpy3_phase0 I).ntasks →
      (create_multi_trace I.env (GB_AxB_saxpy3_phase0 I).nfine).log.count i = 1) := by
  have hm2 : I.env.ntasks_initial > 1 := hm
  have hnn : ∀ k, I.env.costly k = true → 0 ≤ I.env.team_size k := fun k hk => by
    have := env_team_size_ge_two I hchunk k hk
    omega
  obtain ⟨c1, c2⟩ := create_multi_cursors I.env hnn hm2
  have hN : (GB_AxB_saxpy3_phase0 I).nfine = (count_tasks I.env).nfine := rfl
  have hsum : (GB_AxB_saxpy3_phase0 I).ntasks =
      (GB_AxB_saxpy3_phase0 I).nfine + (GB_AxB_saxpy3_phase0 I).ncoarse := by
    simp only [GB_AxB_saxpy3_phase0]; ring
  have hnt : (GB_AxB_saxpy3_phase0 I).ntasks =
      (count_tasks I.env).nfine + (count_tasks I.env).ncoarse := by
    rw [hsum]; rfl
  have hs := create_multi_trace_s I.env (count_tasks I.env).nfine
  have hT : (create_multi_trace I.env (count_tasks I.env).nfine).s.TaskList =
      (GB_AxB_saxpy3_phase0 I).TaskList := by
    rw [hs]
    simp [GB_AxB_saxpy3_phase0, create_tasks, hm2]
  have hstep := create_outer_trace_step I.env I.env.ntasks_initial.toNat 0
    { s := create_init (count_tasks I.env).nfine, log := [] }
  obtain ⟨s1, s2, s3⟩ := hstep
  have hcount : ∀ i : Int,
      (create_multi_trace I.env (count_tasks I.env).nfine).log.count i =
        (if 0 ≤ i ∧ i < (count_tasks I.env).nfine then 1 else 0) +
        (if (count_tasks I.env).nfine ≤ i ∧
          i < (count_tasks I.env).nfine + (count_tasks I.env).ncoarse then 1 else 0) := by
    intro i
    have h := s3 i
    have e1 : (create_outer_trace I.env I.env.ntasks_initial.toNat 0
        { s := create_init (count_tasks I.env).nfine, log := [] }) =
        create_multi_trace I.env (count_tasks I.env).nfine := rfl
    rw [e1, hs, c1, c2] at h
    rw [h]
    simp [create_init]
  have hnf0 : 0 ≤ (count_tasks I.env).nfine := by
    have e1 : (create_outer_trace I.env I.env.ntasks_initial.toNat 0
        { s := create_init (count_tasks I.env).nfine, log := [] }) =
        create_multi_trace I.env (count_tasks I.env).nfine := rfl
    rw [e1, hs, c1] at s1
    simpa [create_init] using s1
  have hnc0 : 0 ≤ (count_tasks I.env).ncoarse := by
    have e1 : (create_outer_trace I.env I.env.ntasks_initial.toNat 0
        { s := create_init (count_tasks I.env).nfine, log := [] }) =
        create_multi_trace I.env (count_tasks I.env).nfine := rfl
    rw [e1, hs, c2] at s2
    have : (create_init (count_tasks I.env).nfine).nc = (count_tasks I.env).nfine := rfl
    rw [this] at s2
    omega
  rw [hN]
  refine ⟨hT, by rw [hs, c1], by rw [hs, c2, hnt], by rw [← hN]; exact hsum, ?_, ?_⟩
  · intro i hi
    have hpos : 0 < (create_multi_trace I.env (count_tasks I.env).nfine).log.count i :=
      List.count_pos_iff.2 hi
    rw [hcount i] at hpos
    rw [hnt]
    by_contra hout
    rw [if_neg (by omega), if_neg (by omega)] at hpos
    omega
  · intro i i0 i1
    rw [hcount i]
    rw [hnt] at i1
    by_cases hf : i < (count_tasks I.env).nfine
    · rw [if_pos ⟨i0, hf⟩, if_neg (by omega)]
    · rw [if_neg (by omega), if_pos ⟨by omega, i1⟩]

/-- Witness of claim C33: `input_fine_team`, where seven fine and two coarse
slots are written. -/
theorem counting_and_creation_agree_witness :
    (0 : ℚ) < input_fine_team.chunk ∧ input_fine_team.ntasks_initial > 1 ∧
    (create_multi_trace input_fine_team.env (GB_AxB_saxpy3_phase0 input_fine_team).nfine).s.nf =
      (GB_AxB_saxpy3_phase0 input_fine_team).nfine ∧
    (create_multi_trace input_fine_team.env (GB_AxB_saxpy3_phase0 input_fine_team).nfine).s.nc =
      (GB_AxB_saxpy3_phase0 input_fine_team).ntasks :=
  ⟨by decide!, by decide!,
    (counting_and_creation_agree input_fine_team (by decide!) (by decide!)).2.1,
    (counting_and_creation_agree input_fine_team (by decide!) (by decide!)).2.2.1⟩

/-- Claim C34: when more than one initial partition is used (and `chunk > 0`)
and the creation pass builds a fine team for the vector `k`, the counting pass
has left `max_bjnz > 0`, so `Fine_slice` and `Bflops2` are allocated: a failure
of either allocation makes `GB_AxB_saxpy3` return a status other than
`GrB_SUCCESS`.  The size `ntasks + 1` of `Fine_slice` is at least
`team_size + 1` and the size `max_bjnz + 1` of `Bflops2` is at least
`bjnz + 1`. -/
theorem fine_scratch_buffers_large_enough (I : Saxpy3Input) (hchunk : 0 < I.chunk)
    (hm : I.ntasks_initial > 1) (k : Int) (hp : I.env.pulled_out k) :
    0 < (GB_AxB_saxpy3_phase0 I).max_bjnz ∧
    I.env.team_size k + 1 ≤ (GB_AxB_saxpy3_phase0 I).ntasks + 1 ∧
    I.env.bjnz k + 1 ≤ (GB_AxB_saxpy3_phase0 I).max_bjnz + 1 ∧
    (∀ O : Saxpy3Calls, O.Fine_slice_ok = false ∨ O.Bflops2_ok = false →
      (GB_AxB_saxpy3 I O).info ≠ GrB_SUCCESS) := by
  have hm2 : I.env.ntasks_initial > 1 := hm
  have hnn : ∀ k, I.env.costly k = true → 0 ≤ I.env.team_size k := fun k hk => by
    have := env_team_size_ge_two I hchunk k hk
    omega
  obtain ⟨v1, v2, v3⟩ := count_tasks_visit I.env hnn hm2 k hp
  have hb : I.env.bjnz k > 1 := ((costly_iff I.env k).1 hp.2).2
  have e1 : (GB_AxB_saxpy3_phase0 I).max_bjnz = (count_tasks I.env).max_bjnz := rfl
  have e2 : (GB_AxB_saxpy3_phase0 I).ntasks =
      (count_tasks I.env).ncoarse + (count_tasks I.env).nfine := rfl
  have hpos : 0 < (GB_AxB_saxpy3_phase0 I).max_bjnz := by rw [e1]; omega
  refine ⟨hpos, by rw [e2]; omega, by rw [e1]; omega, ?_⟩
  intro O hO
  unfold GB_AxB_saxpy3
  simp only []
  by_cases h1 : O.GB_new_info ≠ GrB_SUCCESS
  · rw [if_pos h1]; exact h1
  rw [if_neg h1]
  by_cases h2 : O.flopcount_info ≠ GrB_SUCCESS
  · rw [if_pos h2]; exact h2
  rw [if_neg h2]
  by_cases h3 : discard_mask I ∧ O.flopcount_nomask_info ≠ GrB_SUCCESS
  · rw [if_pos h3]; exact h3.2
  rw [if_neg h3]
  by_cases h4 : I.ntasks_initial > 1 ∧ O.Coarse_initial_ok = false
  · rw [if_pos h4]; decide
  rw [if_neg h4]
  have h5 : O.TaskList_ok = false ∨ O.Coarse_Work_ok = false ∨
      ((GB_AxB_saxpy3_phase0 I).max_bjnz > 0 ∧
        (O.Fine_slice_ok = false ∨ O.Bflops2_ok = false)) :=
    Or.inr (Or.inr ⟨hpos, hO⟩)
  rw [if_pos h5]
  decide

/-- Witness of claim C34: `input_fine_team` at the vector `k = 2`, whose three
entries are split over a fine team. -/
theorem fine_scratch_buffers_large_enough_witness :
    (0 : ℚ) < input_fine_team.chunk ∧ input_fine_team.ntasks_initial > 1 ∧
    input_fine_team.env.pulled_out 2 ∧
    0 < (GB_AxB_saxpy3_phase0 input_fine_team).max_bjnz ∧
    input_fine_team.env.team_size 2 + 1 ≤ (GB_AxB_saxpy3_phase0 input_fine_team).ntasks + 1 ∧
    input_fine_team.env.bjnz 2 + 1 ≤ (GB_AxB_saxpy3_phase0 input_fine_team).max_bjnz + 1 :=
  ⟨by decide!, by decide!,
    ⟨⟨2, by decide!, by decide!, by decide!, by decide!, by decide!⟩, by decide!⟩,
    (fine_scratch_buffers_large_enough input_fine_team (by decide!) (by decide!) 2
      ⟨⟨2, by decide!, by decide!, by decide!, by decide!, by decide!⟩, by decide!⟩).1,
    (fine_scratch_buffers_large_enough input_fine_team (by decide!) (by decide!) 2
      ⟨⟨2, by decide!, by decide!, by decide!, by decide!, by decide!⟩, by decide!⟩).2.1,
    (fine_scratch_buffers_large_enough input_fine_team (by decide!) (by decide!) 2
      ⟨⟨2, by decide!, by decide!, by decide!, by decide!, by decide!⟩, by decide!⟩).2.2.1⟩

/-- Claim C35: when the caller passes the force-Gustavson or the force-Hash
hint, then for every mask the dense-mask branch is not taken:
`M_dense_in_place` stays false, the cost array is the one of the flop count
(with the mask, or without it when the mask is discarded), the hint after the
mask policy is the caller's, and every task gets `GB_hash_table_size` under the
caller's hint. -/
theorem forced_method_not_overridden (I : Saxpy3Input) (hchunk : 0 < I.chunk)
    (hps : I.ntasks_initial > 1 → pslice_ok I.env.Coarse_initial I.bnvec I.ntasks_initial)
    (hf : I.AxB_method = GxB_AxB_GUSTAVSON ∨ I.AxB_method = GxB_AxB_HASH) :
    (GB_AxB_saxpy3_phase0 I).M_dense_in_place = false ∧
    (GB_AxB_saxpy3_phase0 I).AxB_method = I.AxB_method ∧
    ((discard_mask I → (GB_AxB_saxpy3_mask_policy I).Bflops = I.Bflops_nomask) ∧
      (¬ discard_mask I → (GB_AxB_saxpy3_mask_policy I).Bflops = I.Bflops)) ∧
    (∀ t, 0 ≤ t → t < (GB_AxB_saxpy3_phase0 I).ntasks →
      ((GB_AxB_saxpy3_phase0 I).TaskList t).hsize =
        GB_hash_table_size
          (task_flmax I.env (GB_AxB_saxpy3_phase0 I).TaskList (GB_AxB_saxpy3_phase0 I).nfine t)
          I.cvlen I.AxB_method) := by
  have hnd : ¬ (I.M_is_dense = true ∧
      (I.AxB_method = GxB_DEFAULT ∨ I.AxB_method = GxB_AxB_SAXPY)) := by
    rintro ⟨_, h | h⟩ <;> rcases hf with h2 | h2 <;> rw [h2] at h <;> exact absurd h (by decide)
  have hpol : (GB_AxB_saxpy3_mask_policy I).M_dense_in_place = false ∧
      (GB_AxB_saxpy3_mask_policy I).AxB_method = I.AxB_method ∧
      (¬ discard_mask I → (GB_AxB_saxpy3_mask_policy I).Bflops = I.Bflops) := by
    unfold GB_AxB_saxpy3_mask_policy
    simp only []
    rw [if_neg hnd]
    by_cases h3 : I.M_present = true ∧
        ((I.Bflops I.bnvec - I.Mwork : Int) : ℚ) < (I.Mwork : ℚ) * GB_MWORK_ALPHA
    · rw [if_pos h3]
      exact ⟨rfl, rfl, fun hn => absurd ⟨hnd, h3.1, h3.2⟩ hn⟩
    · rw [if_neg h3]
      exact ⟨rfl, rfl, fun _ => rfl⟩
  obtain ⟨p1, p2, p3⟩ := hpol
  have q2 : (GB_AxB_saxpy3_phase0 I).AxB_method = I.AxB_method := p2
  refine ⟨p1, q2, ⟨fun hd => (mask_policy_discard I hd).2.2.2.2.2.1, p3⟩, ?_⟩
  intro t t0 t1
  have := (phase0_hsize I hchunk hps t t0 t1).1
  rw [q2] at this
  exact this

/-- Witness of claim C35: the input `input_dense_mask_hint` has a dense mask
and little A*B work, so under the default hint the dense-mask branch is taken
(`M_dense_in_place` is set and the hint becomes Hash).  Under the
force-Gustavson hint the branch is not taken: `M_dense_in_place` stays false,
the hint stays Gustavson, the cost array is the one of the flop count, and the
task of vector 0 gets `hsize = cvlen`. -/
theorem forced_method_not_overridden_witness :
    (input_dense_mask_hint GxB_AxB_GUSTAVSON).M_present = true ∧
    (input_dense_mask_hint GxB_AxB_GUSTAVSON).M_is_dense = true ∧
    (0 : ℚ) < (input_dense_mask_hint GxB_AxB_GUSTAVSON).chunk ∧
    (GB_AxB_saxpy3_phase0 (input_dense_mask_hint GxB_DEFAULT)).M_dense_in_place = true ∧
    (GB_AxB_saxpy3_phase0 (input_dense_mask_hint GxB_DEFAULT)).AxB_method = GxB_AxB_HASH ∧
    (GB_AxB_saxpy3_phase0 (input_dense_mask_hint GxB_AxB_GUSTAVSON)).M_dense_in_place = false ∧
    (GB_AxB_saxpy3_phase0 (input_dense_mask_hint GxB_AxB_GUSTAVSON)).AxB_method =
      GxB_AxB_GUSTAVSON ∧
    (GB_AxB_saxpy3_mask_policy (input_dense_mask_hint GxB_AxB_GUSTAVSON)).Bflops =
      (input_dense_mask_hint GxB_AxB_GUSTAVSON).Bflops ∧
    ((GB_AxB_saxpy3_phase0 (input_dense_mask_hint GxB_AxB_GUSTAVSON)).TaskList 0).hsize =
      (input_dense_mask_hint GxB_AxB_GUSTAVSON).cvlen :=
  ⟨rfl, rfl, by decide!, by decide!, by decide!,
    (forced_method_not_overridden (input_dense_mask_hint GxB_AxB_GUSTAVSON) (by decide!)
      (fun _ => unit_pslice_ok (input_dense_mask_hint GxB_AxB_GUSTAVSON).env.Bflops 3 4
        (by decide) (by decide)) (Or.inl rfl)).1,
    (forced_method_not_overridden (input_dense_mask_hint GxB_AxB_GUSTAVSON) (by decide!)
      (fun _ => unit_pslice_ok (input_dense_mask_hint GxB_AxB_GUSTAVSON).env.Bflops 3 4
        (by decide) (by decide)) (Or.inl rfl)).2.1,
    (forced_method_not_overridden (input_dense_mask_hint GxB_AxB_GUSTAVSON) (by decide!)
      (fun _ => unit_pslice_ok (input_dense_mask_hint GxB_AxB_GUSTAVSON).env.Bflops 3 4
        (by decide) (by decide)) (Or.inl rfl)).2.2.1.2 (by decide!),
    by decide!⟩

/-- Claim C36: when the size computation overflows or the allocation of the
new value array fails, `GB_convert_to_full` returns an error status and leaves
every field and the content of `A` as they were; `GB_phbix_free` is reached only
when the allocation has succeeded. -/
theorem convert_to_full_atomic_on_failure (K : ConvertCalls) (A : GB_Matrix) :
    (K.GB_Index_multiply A.vlen A.vdim = none →
      (GB_convert_to_full K A).info ≠ GrB_SUCCESS ∧ (GB_convert_to_full K A).A = A) ∧
    (∀ anzmax, K.GB_Index_multiply A.vlen A.vdim = some anzmax →
      K.GB_MALLOC (anzmax * A.type_size) = none →
      (GB_convert_to_full K A).info ≠ GrB_SUCCESS ∧ (GB_convert_to_full K A).A = A) ∧
    ((GB_convert_to_full K A).info ≠ GrB_SUCCESS → (GB_convert_to_full K A).A = A) ∧
    ((GB_convert_to_full K A).info = GrB_SUCCESS →
      ∃ anzmax Ax_new, K.GB_Index_multiply A.vlen A.vdim = some anzmax ∧
        K.GB_MALLOC (anzmax * A.type_size) = some Ax_new) := by
  refine ⟨?_, ?_, ?_, ?_⟩
  · intro h
    simp [GB_convert_to_full, h]
  · intro anzmax h1 h2
    simp [GB_convert_to_full, h1, h2]
  · intro hne
    cases h1 : K.GB_Index_multiply A.vlen A.vdim with
    | none => simp [GB_convert_to_full, h1]
    | some anzmax =>
      cases h2 : K.GB_MALLOC (anzmax * A.type_size) with
      | none => simp [GB_convert_to_full, h1, h2]
      | some Ax_new =>
        exfalso
        apply hne
        simp [GB_convert_to_full, h1, h2]
  · intro hs
    cases h1 : K.GB_Index_multiply A.vlen A.vdim with
    | none =>
      exfalso
      simp [GB_convert_to_full, h1] at hs
    | some anzmax =>
      cases h2 : K.GB_MALLOC (anzmax * A.type_size) with
      | none =>
        exfalso
        simp [GB_convert_to_full, h1, h2] at hs
      | some Ax_new => exact ⟨anzmax, Ax_new, rfl, h2⟩

/-- Witness of claim C36: `matrix_4x5` with a failing allocation. -/
theorem convert_to_full_atomic_on_failure_witness :
    convert_calls_no_memory.GB_Index_multiply matrix_4x5.vlen matrix_4x5.vdim = some 20 ∧
    convert_calls_no_memory.GB_MALLOC (20 * matrix_4x5.type_size) = none ∧
    (GB_convert_to_full convert_calls_no_memory matrix_4x5).info ≠ GrB_SUCCESS ∧
    (GB_convert_to_full convert_calls_no_memory matrix_4x5).A = matrix_4x5 :=
  ⟨by decide, by decide,
    (convert_to_full_atomic_on_failure convert_calls_no_memory matrix_4x5).2.1 20
      (by decide) (by decide)⟩

/-- Claim C37: when the size computation gives `vlen * vdim`, the allocation
succeeds and `GB_phbix_free` removes the pattern (`p`, `h`, `b`, `i` become
`NULL`) without touching `vlen` and `vdim`, `GB_convert_to_full` returns
`GrB_SUCCESS` and leaves `A` full: `vlen` and `vdim` unchanged, `plen = -1`,
`nvec = vdim`, `nvec_nonempty = 0` if `vlen = 0` and `vdim` otherwise,
`nzmax = max (vlen * vdim, 1)`, no pattern, and `x` the new array. -/
theorem convert_to_full_postcondition (K : ConvertCalls) (A : GB_Matrix) (Ax_new : Nat)
    (h1 : K.GB_Index_multiply A.vlen A.vdim = some (A.vlen * A.vdim))
    (h2 : K.GB_MALLOC (A.vlen * A.vdim * A.type_size) = some Ax_new)
    (hfree : (K.GB_phbix_free A).vlen = A.vlen ∧ (K.GB_phbix_free A).vdim = A.vdim ∧
      (K.GB_phbix_free A).p = none ∧ (K.GB_phbix_free A).h = none ∧
      (K.GB_phbix_free A).b = none ∧ (K.GB_phbix_free A).i = none) :
    (GB_convert_to_full K A).info = GrB_SUCCESS ∧
    (GB_convert_to_full K A).A.vlen = A.vlen ∧
    (GB_convert_to_full K A).A.vdim = A.vdim ∧
    (GB_convert_to_full K A).A.plen = -1 ∧
    (GB_convert_to_full K A).A.nvec = A.vdim ∧
    (GB_convert_to_full K A).A.nvec_nonempty = (if A.vlen = 0 then 0 else A.vdim) ∧
    (GB_convert_to_full K A).A.nzmax = max (A.vlen * A.vdim) 1 ∧
    (GB_convert_to_full K A).A.p = none ∧ (GB_convert_to_full K A).A.h = none ∧
    (GB_convert_to_full K A).A.b = none ∧ (GB_convert_to_full K A).A.i = none ∧
    (GB_convert_to_full K A).A.x = some Ax_new ∧
    (GB_convert_to_full K A).A.magic = K.GB_MAGIC := by
  obtain ⟨f1, f2, f3, f4, f5, f6⟩ := hfree
  simp [GB_convert_to_full, h1, h2, f1, f2, f3, f4, f5, f6]

/-- Witness of claim C37: `matrix_4x5` converted to full; `nzmax` becomes 20. -/
theorem convert_to_full_postcondition_witness :
    (GB_convert_to_full convert_calls_ok matrix_4x5).info = GrB_SUCCESS ∧
    (GB_convert_to_full convert_calls_ok matrix_4x5).A.nzmax = 20 ∧
    (GB_convert_to_full convert_calls_ok matrix_4x5).A.p = none :=
  ⟨(convert_to_full_postcondition convert_calls_ok matrix_4x5 7 (by decide) (by decide)
      (by decide)).1,
    ((convert_to_full_postcondition convert_calls_ok matrix_4x5 7 (by decide) (by decide)
      (by decide)).2.2.2.2.2.2.1).trans (by decide),
    (convert_to_full_postcondition convert_calls_ok matrix_4x5 7 (by decide) (by decide)
      (by decide)).2.2.2.2.2.2.2.1⟩
